import Mathlib

/-!
# ComparePlus: the Notepad++/Scintilla helper layer

A shallow embedding of `src/NppHelpers.h` and `src/NppHelpers.cpp`.

Every helper of the plugin is a sequence of `CallScintilla(view, message, wParam, lParam)`
calls.  The embedding keeps that shape: a Scintilla view is a state (`SciView`), a message is a
value of `SciMsg`, and `CallScintilla` answers the message, applies its effect to the state and
appends it to the list of messages the view has received.  The meaning of each message follows
the Scintilla documentation.

Conventions.
* `intptr_t` line numbers and positions are `Int`.  Arithmetic on values the editor gave
  (`line - 1`, `linesCount - startLine`, ...) is far from the 64-bit limits for every document
  that fits in memory.  In `getMarkers` the sum `startLine + length` of two arguments can pass
  `INTPTR_MAX`; that overflow, undefined in C++, is modelled: no vector is returned.
* Marker sets (`int` in the source) are bit patterns, held as `Nat`; bit `n` stands for marker
  number `n`.  A `SciView` keeps one marker set per line and does not count the copies of a
  marker, which is enough where no marker is added to a line that carries it.  `blinkLine`
  does that, so it runs on a `CopiesView`, which counts the copies.
* A loop of the source is a recursive function on a fuel counter that returns `none` when the
  fuel runs out; the wrappers pass enough fuel, and the theorems show a result is produced.
* `LOGD(...)` is the debug-build logging facility; it is empty in a release build and is left
  out.
-/

namespace NppHelpers

/-! ## Marker numbers and masks (`NppHelpers.h`, `enum Marker_t`) -/

def MARKER_CHANGED_LINE : Nat := 0
def MARKER_ADDED_LINE : Nat := 1
def MARKER_REMOVED_LINE : Nat := 2
def MARKER_MOVED_LINE : Nat := 3
def MARKER_BLANK : Nat := 4
def MARKER_CHANGED_SYMBOL : Nat := 5
def MARKER_CHANGED_LOCAL_SYMBOL : Nat := 6
def MARKER_ADDED_SYMBOL : Nat := 7
def MARKER_ADDED_LOCAL_SYMBOL : Nat := 8
def MARKER_REMOVED_SYMBOL : Nat := 9
def MARKER_REMOVED_LOCAL_SYMBOL : Nat := 10
def MARKER_MOVED_LINE_SYMBOL : Nat := 11
def MARKER_MOVED_BLOCK_BEGIN_SYMBOL : Nat := 12
def MARKER_MOVED_BLOCK_MID_SYMBOL : Nat := 13
def MARKER_MOVED_BLOCK_END_SYMBOL : Nat := 14
def MARKER_ARROW_SYMBOL : Nat := 15

def MARKER_MASK_BLANK : Nat := 1 <<< MARKER_BLANK
def MARKER_MASK_ARROW : Nat := 1 <<< MARKER_ARROW_SYMBOL

def MARKER_MASK_LINE : Nat :=
  (1 <<< MARKER_CHANGED_LINE) ||| (1 <<< MARKER_ADDED_LINE) |||
  (1 <<< MARKER_REMOVED_LINE) ||| (1 <<< MARKER_MOVED_LINE)

def MARKER_MASK_SYMBOL : Nat :=
  (1 <<< MARKER_CHANGED_SYMBOL) ||| (1 <<< MARKER_CHANGED_LOCAL_SYMBOL) |||
  (1 <<< MARKER_ADDED_SYMBOL) ||| (1 <<< MARKER_ADDED_LOCAL_SYMBOL) |||
  (1 <<< MARKER_REMOVED_SYMBOL) ||| (1 <<< MARKER_REMOVED_LOCAL_SYMBOL) |||
  (1 <<< MARKER_MOVED_LINE_SYMBOL) ||| (1 <<< MARKER_MOVED_BLOCK_BEGIN_SYMBOL) |||
  (1 <<< MARKER_MOVED_BLOCK_MID_SYMBOL) ||| (1 <<< MARKER_MOVED_BLOCK_END_SYMBOL)

def MARKER_MASK_ALL : Nat := MARKER_MASK_LINE ||| MARKER_MASK_SYMBOL

/-- Modelled from the spec: `INDIC_CONTAINER` of the editor component (`Scintilla.h`, not among
the sources), the first indicator number free for containers, 8 there. -/
def INDIC_CONTAINER : Int := 8

/-- The indicator the plugin highlights changed text with (`NppHelpers.cpp`:
`#define INDIC_HIGHLIGHT INDIC_CONTAINER + 7`). -/
def INDIC_HIGHLIGHT : Int := INDIC_CONTAINER + 7

/-! ## The Scintilla view -/

/-- One line of the document shown by a view: the bytes of its text, the bytes of its line end
(none on the last line of a document) and the set of markers it carries. -/
structure DocLine where
  textLen : Nat
  eolLen : Nat
  markers : Nat
deriving Repr, DecidableEq

/-- Bytes a line occupies in the document, line end included. -/
def DocLine.width (d : DocLine) : Nat := d.textLen + d.eolLen

/-- The messages the helpers send to a view, with their `wParam` and `lParam`. -/
inductive SciMsg where
  | SCI_GETLINECOUNT
  | SCI_MARKERGET (line : Int)
  | SCI_MARKERADDSET (line : Int) (markerSet : Nat)
  | SCI_MARKERDELETE (line : Int) (markerNumber : Int)
  | SCI_MARKERPREVIOUS (lineStart : Int) (markerMask : Nat)
  | SCI_POSITIONFROMLINE (line : Int)
  | SCI_GETLINEENDPOSITION (line : Int)
  | SCI_LINEFROMPOSITION (pos : Int)
  | SCI_GETINDICATORCURRENT
  | SCI_SETINDICATORCURRENT (indicator : Int)
  | SCI_INDICATORCLEARRANGE (start : Int) (lengthClear : Int)
  | SCI_SELECTIONISRECTANGLE
  | SCI_GETSELECTIONS
  | SCI_GETSELECTIONSTART
  | SCI_GETSELECTIONEND
  | SCI_GETREADONLY
  | SCI_SETREADONLY (readOnly : Bool)
  | SCI_GETUNDOCOLLECTION
  | SCI_SETUNDOCOLLECTION (collectUndo : Bool)
  | SCI_EMPTYUNDOBUFFER
  | SCI_GETFIRSTVISIBLELINE
  | SCI_SETFIRSTVISIBLELINE (displayLine : Int)
  | SCI_LINESONSCREEN
  | SCI_VISIBLEFROMDOCLINE (docLine : Int)
  | SCI_DOCLINEFROMVISIBLE (displayLine : Int)
  | SCI_GETLENGTH
  | SCI_MARKERNEXT (lineStart : Int) (markerMask : Nat)
  | SCI_MARKERDELETEALL (markerNumber : Int)
  | SCI_HIDELINES (lineStart : Int) (lineEnd : Int)
  | SCI_SHOWLINES (lineStart : Int) (lineEnd : Int)
  | SCI_FOLDALL (action : Int)
  | SCI_COLOURISE (start : Int) (finish : Int)
  | SCI_ANNOTATIONSETTEXT (line : Int) (text : Option (List Nat))
  | SCI_ANNOTATIONCLEARALL
  | SCI_ANNOTATIONSETVISIBLE (visible : Int)
  | SCI_ANNOTATIONSETSTYLEOFFSET (style : Int)
  | SCI_ALLOCATEEXTENDEDSTYLES (numberStyles : Int)
  | SCI_STYLESETEOLFILLED (style : Int) (eolFilled : Bool)
  | SCI_STYLESETBACK (style : Int) (back : Int)
  | SCI_STYLESETBOLD (style : Int) (bold : Bool)
  | SCI_GETENDATLASTLINE
  | SCI_SETENDATLASTLINE (endAtLastLine : Bool)
  | SCI_SETMARGINMASKN (margin : Int) (mask : Nat)
  | SCI_SETMARGINWIDTHN (margin : Int) (pixelWidth : Int)
  | SCI_SETMARGINSENSITIVEN (margin : Int) (sensitive : Bool)
  | SCI_GETELEMENTCOLOUR (element : Int)
  | SCI_SETELEMENTCOLOUR (element : Int) (colourElement : Int)
  | SCI_SETCARETLINELAYER (layer : Int)
  | SCI_MARKERDEFINE (markerNumber : Int) (markerSymbol : Int)
  | SCI_MARKERSETBACK (markerNumber : Int) (back : Int)
  | SCI_MARKERDEFINERGBAIMAGE (markerNumber : Int) (pixels : Nat)
  | SCI_INDICSETSTYLE (indicator : Int) (indicatorStyle : Int)
  | SCI_INDICSETFLAGS (indicator : Int) (flags : Int)
  | SCI_INDICSETALPHA (indicator : Int) (alpha : Int)
deriving Repr

/-- State of one Scintilla view, as far as the helpers observe or change it. -/
structure SciView where
  /-- The lines of the document, first line first. -/
  lines : List DocLine
  /-- The current indicator. -/
  indicCurrent : Int
  /-- Value of each indicator at each position (0: not set). -/
  indicValue : Int → Int → Int
  /-- The selection is a rectangular one. -/
  selRectangle : Bool
  /-- Number of selections. -/
  selections : Int
  /-- Start of the main selection. -/
  selStart : Int
  /-- End of the main selection. -/
  selEnd : Int
  /-- The read-only flag. -/
  readOnly : Bool
  /-- Whether undo information is collected. -/
  undoCollection : Bool
  /-- The collected undo actions. -/
  undoBuffer : List Nat
  /-- Display line at the top of the view. -/
  firstVisibleLine : Int
  /-- Number of display lines that fit the view. -/
  linesOnScreen : Int
  /-- Display line of each document line (depends on hidden lines, wrapping, annotations). -/
  visibleFromDocLine : Int → Int
  /-- Document line of each display line. -/
  docLineFromVisible : Int → Int
  /-- Which lines are hidden. -/
  hidden : Int → Bool
  /-- Annotation text of each line (the bytes before the terminating NUL), if it has one. -/
  annotation : Int → Option (List Nat)
  /-- Whether scrolling stops once the last line is at the bottom of the view. -/
  endAtLastLine : Bool
  /-- Colour of each element of the view (0xAABBGGRR). -/
  elementColour : Int → Int
  /-- First style number `SCI_ALLOCATEEXTENDEDSTYLES` has not handed out yet. -/
  nextExtendedStyle : Int
  /-- Every message the view has received, oldest first. -/
  sent : List SciMsg

/-- Number of lines of a view (`SCI_GETLINECOUNT`). -/
def SciView.lineCount (v : SciView) : Int := v.lines.length

/-- Marker set of a line; a line outside the document has no marker. -/
def markersAt (ls : List DocLine) (line : Int) : Nat :=
  if line < 0 then 0
  else match ls[line.toNat]? with
    | some d => d.markers
    | none => 0

/-- Replace the marker set of a line by `f` of it; nothing happens for a line outside the
document. -/
def updateMarkers (ls : List DocLine) (line : Int) (f : Nat → Nat) : List DocLine :=
  if line < 0 then ls
  else match ls[line.toNat]? with
    | some d => ls.set line.toNat { d with markers := f d.markers }
    | none => ls

/-- Remove marker number `n` from a marker set. -/
def clearBit (m n : Nat) : Nat := m ^^^ (m &&& (1 <<< n))

/-- Marker set left by `SCI_MARKERDELETE`: marker number -1 removes every marker. -/
def markerDelete (m : Nat) (markerNumber : Int) : Nat :=
  if markerNumber = -1 then 0
  else if markerNumber < 0 then m
  else clearBit m markerNumber.toNat

/-- Search of `SCI_MARKERPREVIOUS` from line `n` down to line 0: the first line that carries a
marker of `mask`, or -1. -/
def markerPreviousFrom (ls : List DocLine) (mask : Nat) : Nat → Int
  | 0 => if (markersAt ls 0 &&& mask) ≠ 0 then 0 else -1
  | n + 1 =>
    if (markersAt ls ((n : Int) + 1) &&& mask) ≠ 0 then (n : Int) + 1
    else markerPreviousFrom ls mask n

/-- Answer of `SCI_MARKERPREVIOUS(lineStart, markerMask)`. -/
def markerPrevious (ls : List DocLine) (lineStart : Int) (mask : Nat) : Int :=
  if lineStart < 0 then -1 else markerPreviousFrom ls mask lineStart.toNat

/-- Bytes of the whole document. -/
def docLength (ls : List DocLine) : Nat := (ls.map DocLine.width).sum

/-- Position at which line `n` starts: the bytes of the lines before it. -/
def lineStartPos (ls : List DocLine) (n : Nat) : Nat := docLength (ls.take n)

/-- Line that holds byte position `p`; positions at or past the end of the document belong to
the last line. -/
def lineOfPos : List DocLine → Nat → Nat
  | [], _ => 0
  | [_], _ => 0
  | d :: e :: rest, p => if p < d.width then 0 else lineOfPos (e :: rest) (p - d.width) + 1

/-- Answer of `SCI_LINEFROMPOSITION(pos)`: 0 for `pos <= 0`, the last line past the end. -/
def lineFromPosition (ls : List DocLine) (pos : Int) : Int :=
  if pos ≤ 0 then 0 else lineOfPos ls pos.toNat

/-- Answer of `SCI_POSITIONFROMLINE(line)`: the start of the line; for a negative line the start
of the line that holds the selection start; -1 for a line past the line count; the document
length for the line count itself. -/
def positionFromLine (ls : List DocLine) (selStart : Int) (line : Int) : Int :=
  if line < 0 then lineStartPos ls (lineFromPosition ls selStart).toNat
  else if line > ls.length then -1
  else lineStartPos ls line.toNat

/-- Answer of `SCI_GETLINEENDPOSITION(line)`: the position after the text of the line, before its
line end; the document length for the last line or a greater one.  The documentation leaves the
answer for a negative line undefined; the editor answers 0. -/
def lineEndPosition (ls : List DocLine) (line : Int) : Int :=
  if line < 0 then 0
  else match ls[line.toNat]? with
    | some d => if line.toNat + 1 < ls.length then lineStartPos ls line.toNat + d.textLen
                else docLength ls
    | none => docLength ls

/-- Lines left by `SCI_MARKERDELETEALL`: the marker is removed from every line. -/
def markerDeleteAll (ls : List DocLine) (markerNumber : Int) : List DocLine :=
  ls.map (fun d => { d with markers := markerDelete d.markers markerNumber })

/-- Search of `SCI_MARKERNEXT` over the `n` lines from `line` on: the first of them that carries
a marker of `mask`, or -1. -/
def markerNextFrom (ls : List DocLine) (mask : Nat) : Nat → Int → Int
  | 0, _ => -1
  | n + 1, line =>
    if (markersAt ls line &&& mask) ≠ 0 then line else markerNextFrom ls mask n (line + 1)

/-- Answer of `SCI_MARKERNEXT(lineStart, markerMask)`: the first line at or after `lineStart`
that carries a marker of the mask, or -1. -/
def markerNext (ls : List DocLine) (lineStart : Int) (mask : Nat) : Int :=
  markerNextFrom ls mask ((ls.length : Int) - max lineStart 0).toNat (max lineStart 0)

/-- The bytes of the C string that starts a buffer: those before the first NUL. -/
def cString (buffer : List Nat) : List Nat := buffer.takeWhile (fun c => c ≠ 0)

/-- `SC_FOLDACTION_EXPAND` of the editor component (`Scintilla.h`). -/
def SC_FOLDACTION_EXPAND : Int := 1

/-- What a view answers to a message. -/
def SciView.reply (v : SciView) : SciMsg → Int
  | .SCI_GETLINECOUNT => v.lineCount
  | .SCI_MARKERGET line => markersAt v.lines line
  | .SCI_MARKERADDSET _ _ => 0
  | .SCI_MARKERDELETE _ _ => 0
  | .SCI_MARKERPREVIOUS lineStart mask => markerPrevious v.lines lineStart mask
  | .SCI_POSITIONFROMLINE line => positionFromLine v.lines v.selStart line
  | .SCI_GETLINEENDPOSITION line => lineEndPosition v.lines line
  | .SCI_LINEFROMPOSITION pos => lineFromPosition v.lines pos
  | .SCI_GETINDICATORCURRENT => v.indicCurrent
  | .SCI_SETINDICATORCURRENT _ => 0
  | .SCI_INDICATORCLEARRANGE _ _ => 0
  | .SCI_SELECTIONISRECTANGLE => if v.selRectangle then 1 else 0
  | .SCI_GETSELECTIONS => v.selections
  | .SCI_GETSELECTIONSTART => v.selStart
  | .SCI_GETSELECTIONEND => v.selEnd
  | .SCI_GETREADONLY => if v.readOnly then 1 else 0
  | .SCI_SETREADONLY _ => 0
  | .SCI_GETUNDOCOLLECTION => if v.undoCollection then 1 else 0
  | .SCI_SETUNDOCOLLECTION _ => 0
  | .SCI_EMPTYUNDOBUFFER => 0
  | .SCI_GETFIRSTVISIBLELINE => v.firstVisibleLine
  | .SCI_SETFIRSTVISIBLELINE _ => 0
  | .SCI_LINESONSCREEN => v.linesOnScreen
  | .SCI_VISIBLEFROMDOCLINE docLine => v.visibleFromDocLine docLine
  | .SCI_DOCLINEFROMVISIBLE displayLine => v.docLineFromVisible displayLine
  | .SCI_GETLENGTH => docLength v.lines
  | .SCI_MARKERNEXT lineStart mask => markerNext v.lines lineStart mask
  | .SCI_MARKERDELETEALL _ => 0
  | .SCI_HIDELINES _ _ => 0
  | .SCI_SHOWLINES _ _ => 0
  | .SCI_FOLDALL _ => 0
  | .SCI_COLOURISE _ _ => 0
  | .SCI_ANNOTATIONSETTEXT _ _ => 0
  | .SCI_ANNOTATIONCLEARALL => 0
  | .SCI_ANNOTATIONSETVISIBLE _ => 0
  | .SCI_ANNOTATIONSETSTYLEOFFSET _ => 0
  | .SCI_ALLOCATEEXTENDEDSTYLES _ => v.nextExtendedStyle
  | .SCI_STYLESETEOLFILLED _ _ => 0
  | .SCI_STYLESETBACK _ _ => 0
  | .SCI_STYLESETBOLD _ _ => 0
  | .SCI_GETENDATLASTLINE => if v.endAtLastLine then 1 else 0
  | .SCI_SETENDATLASTLINE _ => 0
  | .SCI_SETMARGINMASKN _ _ => 0
  | .SCI_SETMARGINWIDTHN _ _ => 0
  | .SCI_SETMARGINSENSITIVEN _ _ => 0
  | .SCI_GETELEMENTCOLOUR element => v.elementColour element
  | .SCI_SETELEMENTCOLOUR _ _ => 0
  | .SCI_SETCARETLINELAYER _ => 0
  | .SCI_MARKERDEFINE _ _ => 0
  | .SCI_MARKERSETBACK _ _ => 0
  | .SCI_MARKERDEFINERGBAIMAGE _ _ => 0
  | .SCI_INDICSETSTYLE _ _ => 0
  | .SCI_INDICSETFLAGS _ _ => 0
  | .SCI_INDICSETALPHA _ _ => 0

/-- What a message changes in a view (the list of received messages apart), as the Scintilla
documentation describes it: `SCI_MARKERADDSET` adds the markers of the set to the line,
`SCI_MARKERDELETE` removes one marker from it, `SCI_SETFIRSTVISIBLELINE` makes the given display
line the first visible one, and so on.  The view keeps one marker set per line: a marker is on
the line or not, and copies of a marker are not counted (`CopiesView` counts them).
A message that only asks for a value changes nothing.
`SCI_HIDELINES` hides the lines of its range, the first line of the document excepted, which
cannot be hidden; `SCI_SHOWLINES` shows the lines of its range; `SCI_FOLDALL` with the expand
action shows every line (the model holds no fold levels, so the other actions are left without
effect).  Messages that only set how the view is drawn (margins, styles, marker and indicator
looks, the caret line layer) change nothing the helpers read back and are recorded only. -/
def SciView.exec (v : SciView) : SciMsg → SciView
  | .SCI_MARKERADDSET line markerSet =>
    { v with lines := updateMarkers v.lines line (fun m => m ||| (markerSet % 4294967296)) }
  | .SCI_MARKERDELETE line markerNumber =>
    { v with lines := updateMarkers v.lines line (fun m => markerDelete m markerNumber) }
  | .SCI_SETINDICATORCURRENT indicator => { v with indicCurrent := indicator }
  | .SCI_INDICATORCLEARRANGE start lengthClear =>
    { v with indicValue := fun i p =>
        if i = v.indicCurrent ∧ start ≤ p ∧ p < start + lengthClear then 0
        else v.indicValue i p }
  | .SCI_SETREADONLY readOnly => { v with readOnly := readOnly }
  | .SCI_SETUNDOCOLLECTION collectUndo => { v with undoCollection := collectUndo }
  | .SCI_EMPTYUNDOBUFFER => { v with undoBuffer := [] }
  | .SCI_SETFIRSTVISIBLELINE displayLine => { v with firstVisibleLine := displayLine }
  | .SCI_MARKERDELETEALL markerNumber =>
    { v with lines := markerDeleteAll v.lines markerNumber }
  | .SCI_HIDELINES lineStart lineEnd =>
    { v with hidden := fun l =>
        if lineStart ≤ l ∧ l ≤ lineEnd ∧ 1 ≤ l ∧ l < v.lineCount then true else v.hidden l }
  | .SCI_SHOWLINES lineStart lineEnd =>
    { v with hidden := fun l => if lineStart ≤ l ∧ l ≤ lineEnd then false else v.hidden l }
  | .SCI_FOLDALL action =>
    if action = SC_FOLDACTION_EXPAND then { v with hidden := fun _ => false } else v
  | .SCI_ANNOTATIONSETTEXT line text =>
    if 0 ≤ line ∧ line < v.lineCount then
      { v with annotation := fun l => if l = line then text.map cString else v.annotation l }
    else v
  | .SCI_ANNOTATIONCLEARALL => { v with annotation := fun _ => none }
  | .SCI_ALLOCATEEXTENDEDSTYLES numberStyles =>
    { v with nextExtendedStyle := v.nextExtendedStyle + numberStyles }
  | .SCI_SETENDATLASTLINE endAtLastLine => { v with endAtLastLine := endAtLastLine }
  | .SCI_SETELEMENTCOLOUR element colourElement =>
    { v with elementColour := fun e => if e = element then colourElement else v.elementColour e }
  | _ => v

/-- Modelled from the spec: `CallScintilla` is declared in `Compare.h`, which is not among the
sources.  As the spec says, a helper is a sequence of host API calls, each a message sent to the
Scintilla control of a view: the call gives the answer of the view and the view after the
message, the message added to the ones it has received. -/
def CallScintilla (v : SciView) (msg : SciMsg) : Int × SciView :=
  (v.reply msg, { v.exec msg with sent := v.sent ++ [msg] })

/-! ## Helpers of `NppHelpers.h` -/

def getLineStart (v : SciView) (line : Int) : Int × SciView :=
  CallScintilla v (.SCI_POSITIONFROMLINE line)

def getLineEnd (v : SciView) (line : Int) : Int × SciView :=
  CallScintilla v (.SCI_GETLINEENDPOSITION line)

def isLineMarked (v : SciView) (line : Int) (markMask : Nat) : Bool × SciView :=
  let r := CallScintilla v (.SCI_MARKERGET line)
  (decide ((r.1.toNat &&& markMask) ≠ 0), r.2)

/-! ## Marker helpers of `NppHelpers.cpp` -/

def clearChangedIndicator (v : SciView) (start length : Int) : SciView :=
  if length > 0 then
    let r1 := CallScintilla v .SCI_GETINDICATORCURRENT
    let curIndic := r1.1
    let r2 := CallScintilla r1.2 (.SCI_SETINDICATORCURRENT INDIC_HIGHLIGHT)
    let r3 := CallScintilla r2.2 (.SCI_INDICATORCLEARRANGE start length)
    let r4 := CallScintilla r3.2 (.SCI_SETINDICATORCURRENT curIndic)
    r4.2
  else v

/-- The markers `clearMarks(view, line)` deletes, in the order of its calls. -/
def clearMarksOrder : List Nat :=
  [MARKER_CHANGED_LINE, MARKER_ADDED_LINE, MARKER_REMOVED_LINE, MARKER_MOVED_LINE, MARKER_BLANK,
   MARKER_CHANGED_SYMBOL, MARKER_CHANGED_LOCAL_SYMBOL, MARKER_ADDED_SYMBOL,
   MARKER_ADDED_LOCAL_SYMBOL, MARKER_REMOVED_SYMBOL, MARKER_REMOVED_LOCAL_SYMBOL,
   MARKER_MOVED_LINE_SYMBOL, MARKER_MOVED_BLOCK_BEGIN_SYMBOL, MARKER_MOVED_BLOCK_MID_SYMBOL,
   MARKER_MOVED_BLOCK_END_SYMBOL]

/-- The one-line overload `clearMarks(int view, intptr_t line)`: one `SCI_MARKERDELETE` per
marker of `clearMarksOrder`. -/
def clearMarks (v : SciView) (line : Int) : SciView :=
  clearMarksOrder.foldl (fun s mk => (CallScintilla s (.SCI_MARKERDELETE line mk)).2) v

/-- Loop of `getPrevUnmarkedLine`: `for (; (l >= 0) && isLineMarked(view, l, markMask); --l);`. -/
def getPrevUnmarkedLineLoop (markMask : Nat) : Nat → Int → SciView → Option (Int × SciView)
  | 0, _, _ => none
  | fuel + 1, l, v =>
    if l ≥ 0 then
      let r := isLineMarked v l markMask
      if r.1 then getPrevUnmarkedLineLoop markMask fuel (l - 1) r.2
      else some (l, r.2)
    else some (l, v)

def getPrevUnmarkedLine (v : SciView) (startLine : Int) (markMask : Nat) :
    Option (Int × SciView) :=
  getPrevUnmarkedLineLoop markMask ((startLine + 1).toNat + 1) startLine v

/-- Loop of `getNextUnmarkedLine`:
`for (; (l <= endLine) && isLineMarked(view, l, markMask); ++l);`. -/
def getNextUnmarkedLineLoop (markMask : Nat) (endLine : Int) :
    Nat → Int → SciView → Option (Int × SciView)
  | 0, _, _ => none
  | fuel + 1, l, v =>
    if l ≤ endLine then
      let r := isLineMarked v l markMask
      if r.1 then getNextUnmarkedLineLoop markMask endLine fuel (l + 1) r.2
      else some (l, r.2)
    else some (l, v)

def getNextUnmarkedLine (v : SciView) (startLine : Int) (markMask : Nat) :
    Option (Int × SciView) :=
  let r := CallScintilla v .SCI_GETLINECOUNT
  let endLine := r.1 - 1
  match getNextUnmarkedLineLoop markMask endLine ((endLine + 1 - startLine).toNat + 1)
      startLine r.2 with
  | some (nextUnmarkedLine, v1) =>
    some (if nextUnmarkedLine ≤ endLine then nextUnmarkedLine else -1, v1)
  | none => none

def getMarkedSection (v : SciView) (startLine endLine : Int) (markMask : Nat)
    (excludeNewLine : Bool) : Option ((Int × Int) × SciView) :=
  let r0 := CallScintilla v .SCI_GETLINECOUNT
  let lastLine := r0.1 - 1
  if startLine < 0 ∨ endLine > lastLine ∨ startLine > endLine then some ((-1, -1), r0.2)
  else
    let m1 := isLineMarked r0.2 startLine markMask
    if !m1.1 then some ((-1, -1), m1.2)
    else
      let m2 : Bool × SciView :=
        if startLine ≠ endLine then
          let m := isLineMarked m1.2 endLine markMask
          (!m.1, m.2)
        else (false, m1.2)
      if m2.1 then some ((-1, -1), m2.2)
      else
        match getPrevUnmarkedLine m2.2 startLine markMask with
        | none => none
        | some (prevUnmarked, v3) =>
          let line1 := prevUnmarked + 1
          match getNextUnmarkedLine v3 endLine markMask with
          | none => none
          | some (nextUnmarked, v4) =>
            let line2 := if excludeNewLine then nextUnmarked - 1 else nextUnmarked
            let endPos :=
              if line2 < 0 then getLineEnd v4 lastLine
              else if excludeNewLine then getLineEnd v4 line2
              else getLineStart v4 line2
            let startPos := getLineStart endPos.2 line1
            some ((startPos.1, endPos.1), startPos.2)

/-- Loop of `getMarkers`:
`for (line = MARKERPREVIOUS(startLine + length - 1); line >= startLine;
line = MARKERPREVIOUS(line - 1))`, writing `markers[line - startLine]`.  A write outside the
vector (undefined in C++) gives `none`. -/
def getMarkersLoop (startLine : Int) (markMask : Nat) (clearMarkers : Bool) :
    Nat → Int → List Nat → SciView → Option (List Nat × SciView)
  | 0, _, _, _ => none
  | fuel + 1, line, markers, v =>
    if line ≥ startLine then
      let r := CallScintilla v (.SCI_MARKERGET line)
      if (line - startLine).toNat < markers.length then
        let markers1 := markers.set (line - startLine).toNat (r.1.toNat &&& markMask)
        let v1 := if clearMarkers then clearMarks r.2 line else r.2
        let next := CallScintilla v1 (.SCI_MARKERPREVIOUS (line - 1) markMask)
        getMarkersLoop startLine markMask clearMarkers fuel next.1 markers1 next.2
      else none
    else some (markers, v)

/-- The largest `intptr_t` of the 64-bit build, `INTPTR_MAX` (`<cstdint>`). -/
def INTPTR_MAX : Int := 9223372036854775807

/-- The function `getMarkers`.  No vector is returned (`none`) in two cases.
`markers.resize(length, 0)` with a negative `length` asks for more than `max_size()` elements
and throws `std::length_error`.  The sum `startLine + length` is an `intptr_t`: past
`INTPTR_MAX` the addition overflows, which is undefined in C++ (as built the sum wraps below
zero, the clamp is skipped and `resize(length)` throws).  The line count is an `intptr_t`
itself, so a sum past `INTPTR_MAX` is a sum past the line count; the test is written with
both. -/
def getMarkers (v : SciView) (startLine length : Int) (markMask : Nat) (clearMarkers : Bool) :
    Option (List Nat × SciView) :=
  if length ≤ 0 ∨ startLine < 0 then some ([], v)
  else
    let r := CallScintilla v .SCI_GETLINECOUNT
    let linesCount := r.1
    if startLine + length > linesCount ∧ startLine + length > INTPTR_MAX then none
    else
      let length1 := if startLine + length > linesCount then linesCount - startLine else length
      let v1 :=
        if clearMarkers then
          let s := getLineStart r.2 startLine
          let e := getLineEnd s.2 (startLine + length1 - 1)
          clearChangedIndicator e.2 s.1 (e.1 - s.1)
        else r.2
      if length1 < 0 then none
      else
        let markers := List.replicate length1.toNat 0
        let first := CallScintilla v1 (.SCI_MARKERPREVIOUS (startLine + length1 - 1) markMask)
        getMarkersLoop startLine markMask clearMarkers (length1.toNat + 1) first.1 markers
          first.2

/-- Loop of `setMarkers`: `for (i = 0; i < linesCount; ++i)` over the entries of `markers`. -/
def setMarkersLoop (startLine : Int) : List Nat → Int → SciView → SciView
  | [], _, v => v
  | m :: rest, i, v =>
    let v1 := clearMarks v (startLine + i)
    let v2 := if m ≠ 0 then (CallScintilla v1 (.SCI_MARKERADDSET (startLine + i) m)).2 else v1
    setMarkersLoop startLine rest (i + 1) v2

def setMarkers (v : SciView) (startLine : Int) (markers : List Nat) : SciView :=
  let linesCount : Int := markers.length
  if startLine < 0 ∨ linesCount = 0 then v
  else
    let s := getLineStart v startLine
    let e := getLineEnd s.2 (startLine + linesCount - 1)
    let v1 := clearChangedIndicator e.2 s.1 (e.1 - s.1)
    setMarkersLoop startLine markers 0 v1

/-! ## Selection -/

def isSelectionVertical (v : SciView) : Bool × SciView :=
  let r := CallScintilla v .SCI_SELECTIONISRECTANGLE
  (decide (r.1 ≠ 0), r.2)

def isMultiSelection (v : SciView) : Bool × SciView :=
  let r := CallScintilla v .SCI_GETSELECTIONS
  (decide (r.1 > 1), r.2)

def getSelectionLines (v : SciView) : (Int × Int) × SciView :=
  let vert := isSelectionVertical v
  if vert.1 then ((-1, -1), vert.2)
  else
    let multi := isMultiSelection vert.2
    if multi.1 then ((-1, -1), multi.2)
    else
      let selectionStart := CallScintilla multi.2 .SCI_GETSELECTIONSTART
      let selectionEnd := CallScintilla selectionStart.2 .SCI_GETSELECTIONEND
      if selectionEnd.1 - selectionStart.1 = 0 then ((-1, -1), selectionEnd.2)
      else
        let startLine := CallScintilla selectionEnd.2 (.SCI_LINEFROMPOSITION selectionStart.1)
        let endLine := CallScintilla startLine.2 (.SCI_LINEFROMPOSITION selectionEnd.1)
        let endStart := getLineStart endLine.2 endLine.1
        ((startLine.1, if selectionEnd.1 = endStart.1 then endLine.1 - 1 else endLine.1),
          endStart.2)

/-- A document as the editor keeps it: at least one line, and every line but the last ends in
a line end. -/
def wellFormedDoc (ls : List DocLine) : Prop :=
  ls ≠ [] ∧ ∀ d ∈ ls.dropLast, 1 ≤ d.eolLen

instance (ls : List DocLine) : Decidable (wellFormedDoc ls) := by
  unfold wellFormedDoc; infer_instance

/-! ## The two views of the host -/

/-- Modelled from the spec: the view number of the main view, `MAIN_VIEW` of the host's plugin
interface (`Notepad_plus_msgs.h`, not among the sources), 0 there. -/
def MAIN_VIEW : Int := 0

/-- Modelled from the spec: the view number of the second view, `SUB_VIEW` of the host's plugin
interface (`Notepad_plus_msgs.h`, not among the sources), 1 there. -/
def SUB_VIEW : Int := 1

/-- The two Scintilla controls of the host (`nppData._scintillaMainHandle`,
`nppData._scintillaSecondHandle`). -/
structure Npp where
  main : SciView
  second : SciView
  /-- The background colour of the editor's default style, the host's answer to
  `NPPM_GETEDITORDEFAULTBACKGROUNDCOLOR` (0x00BBGGRR). -/
  editorDefaultBackground : Nat

/-- The control of a view number, `getView(viewId)`. -/
def Npp.getView (h : Npp) (viewId : Int) : SciView :=
  if viewId = MAIN_VIEW then h.main else h.second

/-- The host after the control of a view number has moved to state `s`. -/
def Npp.setView (h : Npp) (viewId : Int) (s : SciView) : Npp :=
  if viewId = MAIN_VIEW then { h with main := s } else { h with second := s }

/-- Run on the control of `viewId` a helper that takes that view number. -/
def Npp.onView {α : Type} (h : Npp) (viewId : Int) (f : SciView → α × SciView) : α × Npp :=
  let r := f (h.getView viewId)
  (r.1, h.setView viewId r.2)

/-! ## Scoped helpers of `NppHelpers.h` -/

structure ScopedViewWriteEnabler where
  _view : Int
  _isRO : Bool

/-- The constructor `ScopedViewWriteEnabler(int view)`. -/
def ScopedViewWriteEnabler.enter (h : Npp) (view : Int) : ScopedViewWriteEnabler × Npp :=
  let r := h.onView view (fun s => CallScintilla s .SCI_GETREADONLY)
  let isRO := decide (r.1 ≠ 0)
  if isRO then
    ({ _view := view, _isRO := isRO },
      (r.2.onView view (fun s => CallScintilla s (.SCI_SETREADONLY false))).2)
  else ({ _view := view, _isRO := isRO }, r.2)

/-- The destructor `~ScopedViewWriteEnabler()`. -/
def ScopedViewWriteEnabler.leave (g : ScopedViewWriteEnabler) (h : Npp) : Npp :=
  if g._isRO then (h.onView g._view (fun s => CallScintilla s (.SCI_SETREADONLY true))).2
  else h

structure ScopedViewUndoCollectionBlocker where
  _view : Int
  _isUndoOn : Bool

/-- The constructor `ScopedViewUndoCollectionBlocker(int view)`. -/
def ScopedViewUndoCollectionBlocker.enter (h : Npp) (view : Int) :
    ScopedViewUndoCollectionBlocker × Npp :=
  let r := h.onView view (fun s => CallScintilla s .SCI_GETUNDOCOLLECTION)
  let isUndoOn := decide (r.1 ≠ 0)
  if isUndoOn then
    let h1 := (r.2.onView view (fun s => CallScintilla s (.SCI_SETUNDOCOLLECTION false))).2
    let h2 := (h1.onView view (fun s => CallScintilla s .SCI_EMPTYUNDOBUFFER)).2
    ({ _view := view, _isUndoOn := isUndoOn }, h2)
  else ({ _view := view, _isUndoOn := isUndoOn }, r.2)

/-- The destructor `~ScopedViewUndoCollectionBlocker()`. -/
def ScopedViewUndoCollectionBlocker.leave (g : ScopedViewUndoCollectionBlocker) (h : Npp) :
    Npp :=
  if g._isUndoOn then
    (h.onView g._view (fun s => CallScintilla s (.SCI_SETUNDOCOLLECTION true))).2
  else h

/-! ## View location -/

def getFirstVisibleLine (v : SciView) : Int × SciView :=
  CallScintilla v .SCI_GETFIRSTVISIBLELINE

def getFirstLine (v : SciView) : Int × SciView :=
  let f := getFirstVisibleLine v
  CallScintilla f.2 (.SCI_DOCLINEFROMVISIBLE f.1)

/-- The helper `getLastVisibleLine`; the operands of its sum are taken left to right. -/
def getLastVisibleLine (v : SciView) : Int × SciView :=
  let f := getFirstVisibleLine v
  let n := CallScintilla f.2 .SCI_LINESONSCREEN
  (f.1 + n.1 - 1, n.2)

/-- The helper `getFirstVisibleLineOffset`; the operands of its difference are taken left to
right. -/
def getFirstVisibleLineOffset (v : SciView) (line : Int) : Int × SciView :=
  let d := CallScintilla v (.SCI_VISIBLEFROMDOCLINE line)
  let f := getFirstVisibleLine d.2
  (d.1 - f.1, f.2)

def isLineVisible (v : SciView) (line : Int) : Bool × SciView :=
  let d := CallScintilla v (.SCI_VISIBLEFROMDOCLINE line)
  let f := getFirstVisibleLine d.2
  if d.1 ≥ f.1 then
    let l := getLastVisibleLine f.2
    (decide (d.1 ≤ l.1), l.2)
  else (false, f.2)

def centerAt (v : SciView) (line : Int) : SciView :=
  let linesOnScreen := CallScintilla v .SCI_LINESONSCREEN
  let d := CallScintilla linesOnScreen.2 (.SCI_VISIBLEFROMDOCLINE line)
  let firstVisible := d.1 - Int.tdiv linesOnScreen.1 2
  (CallScintilla d.2 (.SCI_SETFIRSTVISIBLELINE firstVisible)).2

structure ViewLocation where
  _view : Int
  _centerLine : Int
  _firstLine : Int
  _visibleLineOffset : Int

/-- The default constructor `ViewLocation() : _view(-1) {}`.  It leaves the other three members
uninitialised; the arguments stand for what they happen to hold.  (The other two constructors
are `save` on an object whose four members are uninitialised.) -/
def ViewLocation.new (centerLine firstLine visibleLineOffset : Int) : ViewLocation :=
  { _view := -1, _centerLine := centerLine, _firstLine := firstLine,
    _visibleLineOffset := visibleLineOffset }

def ViewLocation.save (loc : ViewLocation) (h : Npp) (view : Int) (centerLine : Int) :
    ViewLocation × Npp :=
  if view ≠ MAIN_VIEW ∧ view ≠ SUB_VIEW then ({ loc with _view := -1 }, h)
  else
    let loc1 := { loc with _view := view, _centerLine := centerLine, _firstLine := -1 }
    if centerLine < 0 then
      let firstLine := h.onView view getFirstLine
      let offset := firstLine.2.onView view (fun s => getFirstVisibleLineOffset s firstLine.1)
      ({ loc1 with _firstLine := firstLine.1, _visibleLineOffset := offset.1 }, offset.2)
    else (loc1, h)

def ViewLocation.restore (loc : ViewLocation) (h : Npp) : Bool × Npp :=
  if loc._view < 0 then (false, h)
  else if loc._centerLine < 0 then
    let d := h.onView loc._view (fun s => CallScintilla s (.SCI_VISIBLEFROMDOCLINE loc._firstLine))
    let firstVisibleLine := d.1 - loc._visibleLineOffset
    (true,
      (d.2.onView loc._view (fun s => CallScintilla s (.SCI_SETFIRSTVISIBLELINE firstVisibleLine))).2)
  else
    let vis := h.onView loc._view (fun s => isLineVisible s loc._centerLine)
    if !vis.1 then
      (true, (vis.2.onView loc._view (fun s => ((), centerAt s loc._centerLine))).2)
    else (true, vis.2)

/-! ## Hiding lines -/

def hideOutsideRange (v : SciView) (startLine endLine : Int) : SciView :=
  let r := CallScintilla v .SCI_GETLINECOUNT
  let linesCount := r.1
  let v1 := if startLine > 1 then (CallScintilla r.2 (.SCI_HIDELINES 1 (startLine - 1))).2 else r.2
  let v2 :=
    if endLine > 0 ∧ endLine + 1 < linesCount then
      (CallScintilla v1 (.SCI_HIDELINES (endLine + 1) (linesCount - 1))).2
    else v1
  if startLine ≥ 0 ∧ (endLine > startLine ∧ endLine < linesCount) then
    (CallScintilla v2 (.SCI_SHOWLINES startLine endLine)).2
  else v2

/-- Inner loop of `hideUnmarked`:
`for (; (n < linesCount) && isLineMarked(view, n, markMask); ++n);`. -/
def hideUnmarkedSkip (markMask : Nat) (linesCount : Int) :
    Nat → Int → SciView → Option (Int × SciView)
  | 0, _, _ => none
  | fuel + 1, n, v =>
    if n < linesCount then
      let r := isLineMarked v n markMask
      if r.1 then hideUnmarkedSkip markMask linesCount fuel (n + 1) r.2
      else some (n, r.2)
    else some (n, v)

/-- Outer loop of `hideUnmarked`:
`for (nextUnmarkedLine = 1; nextUnmarkedLine < linesCount; nextUnmarkedLine = nextMarkedLine)`. -/
def hideUnmarkedLoop (markMask : Nat) (linesCount : Int) : Nat → Int → SciView → Option SciView
  | 0, _, _ => none
  | fuel + 1, nextUnmarkedLine, v =>
    if nextUnmarkedLine < linesCount then
      match hideUnmarkedSkip markMask linesCount ((linesCount - nextUnmarkedLine).toNat + 1)
          nextUnmarkedLine v with
      | none => none
      | some (unmarked, v1) =>
        if unmarked = linesCount then some v1
        else
          let next := CallScintilla v1 (.SCI_MARKERNEXT unmarked markMask)
          let nextMarkedLine := if next.1 < 0 then linesCount else next.1
          let v2 := (CallScintilla next.2 (.SCI_HIDELINES unmarked (nextMarkedLine - 1))).2
          hideUnmarkedLoop markMask linesCount fuel nextMarkedLine v2
    else some v

def hideUnmarked (v : SciView) (markMask : Nat) : Option SciView :=
  let r := CallScintilla v .SCI_GETLINECOUNT
  hideUnmarkedLoop markMask r.1 (r.1.toNat + 1) 1 r.2

/-- The line ranges a list of messages asks the editor to hide: the arguments of its
`SCI_HIDELINES` messages. -/
def hideRequests (msgs : List SciMsg) : List (Int × Int) :=
  msgs.filterMap (fun m =>
    match m with
    | .SCI_HIDELINES lineStart lineEnd => some (lineStart, lineEnd)
    | _ => none)

/-! ## Clearing and blinking -/

/-- The markers `clearWindow(view)` deletes from every line, in the order of its
`SCI_MARKERDELETEALL` calls. -/
def clearWindowOrder : List Nat :=
  [MARKER_CHANGED_LINE, MARKER_ADDED_LINE, MARKER_REMOVED_LINE, MARKER_MOVED_LINE,
   MARKER_CHANGED_SYMBOL, MARKER_CHANGED_LOCAL_SYMBOL, MARKER_ADDED_SYMBOL,
   MARKER_ADDED_LOCAL_SYMBOL, MARKER_REMOVED_SYMBOL, MARKER_REMOVED_LOCAL_SYMBOL,
   MARKER_MOVED_LINE_SYMBOL, MARKER_MOVED_BLOCK_BEGIN_SYMBOL, MARKER_MOVED_BLOCK_MID_SYMBOL,
   MARKER_MOVED_BLOCK_END_SYMBOL, MARKER_ARROW_SYMBOL]

def clearWindow (v : SciView) : SciView :=
  let v1 := (CallScintilla v (.SCI_FOLDALL SC_FOLDACTION_EXPAND)).2
  let v2 := (CallScintilla v1 .SCI_ANNOTATIONCLEARALL).2
  let v3 := clearWindowOrder.foldl (fun s mk => (CallScintilla s (.SCI_MARKERDELETEALL mk)).2) v2
  let len := CallScintilla v3 .SCI_GETLENGTH
  let v4 := clearChangedIndicator len.2 0 len.1
  (CallScintilla v4 (.SCI_COLOURISE 0 (-1))).2

def cBlinkCount : Int := 3

/-! ## Blinking a line

`SCI_MARKERADDSET` adds one copy of each marker of the set to the line, also of a marker the
line already carries, and `SCI_MARKERDELETE` removes one copy; `blinkLine` adds and deletes
markers on a line that may carry them already, so its view keeps the number of copies. -/

/-- A view as far as `blinkLine` uses it: the number of lines, for each line and marker number
the number of copies of the marker on the line, and the messages received. -/
structure CopiesView where
  lineCount : Int
  copies : Int → Nat → Nat
  sent : List SciMsg

/-- The marker set of a line: bit `n` is set when the line carries marker `n` (markers are
numbered 0 to 31). -/
def markerBits (c : Nat → Nat) : Nat :=
  (List.range 32).foldl (fun m n => if 0 < c n then m ||| (1 <<< n) else m) 0

/-- What the view answers: `SCI_MARKERGET` gives the marker set of the line, 0 for a line that
does not exist. -/
def CopiesView.reply (v : CopiesView) : SciMsg → Int
  | .SCI_MARKERGET line =>
    if 0 ≤ line ∧ line < v.lineCount then (markerBits (v.copies line) : Nat) else 0
  | .SCI_GETLINECOUNT => v.lineCount
  | _ => 0

/-- What a message does to the view: `SCI_MARKERADDSET` adds a copy of each marker of the set,
`SCI_MARKERDELETE` removes one copy of the marker if there is one (every marker for the marker
number -1); a line that does not exist is left alone. -/
def CopiesView.exec (v : CopiesView) : SciMsg → CopiesView
  | .SCI_MARKERADDSET line markerSet =>
    if 0 ≤ line ∧ line < v.lineCount then
      { v with copies := fun l n =>
          if l = line ∧ n < 32 ∧ markerSet.testBit n = true then v.copies l n + 1
          else v.copies l n }
    else v
  | .SCI_MARKERDELETE line markerNumber =>
    if 0 ≤ line ∧ line < v.lineCount then
      { v with copies := fun l n =>
          if l = line ∧ markerNumber = -1 then 0
          else if l = line ∧ markerNumber = (n : Int) then v.copies l n - 1
          else v.copies l n }
    else v
  | _ => v

/-- The call `CallScintilla(view, msg, wParam, lParam)` on such a view. -/
def CopiesView.CallScintilla (v : CopiesView) (msg : SciMsg) : Int × CopiesView :=
  (v.reply msg, { v.exec msg with sent := v.sent ++ [msg] })

/-- The one-line overload `clearMarks(int view, intptr_t line)` on such a view. -/
def CopiesView.clearMarks (v : CopiesView) (line : Int) : CopiesView :=
  clearMarksOrder.foldl (fun s mk => (s.CallScintilla (.SCI_MARKERDELETE line mk)).2) v

/-- Loop of `blinkLine`: `for (int i = cBlinkCount; ;) { ...; if (--i == 0) break; ... }`.
`UpdateWindow` and `Sleep` repaint the view and wait; they change nothing the model holds. -/
def CopiesView.blinkLineLoop (line : Int) (marker : Nat) :
    Nat → Int → CopiesView → Option CopiesView
  | 0, _, _ => none
  | fuel + 1, i, v =>
    let v1 :=
      if marker ≠ 0 then v.clearMarks line
      else (v.CallScintilla (.SCI_MARKERADDSET line MARKER_MASK_BLANK)).2
    let v2 :=
      if marker ≠ 0 then (v1.CallScintilla (.SCI_MARKERADDSET line marker)).2
      else (v1.CallScintilla (.SCI_MARKERDELETE line MARKER_BLANK)).2
    if i - 1 = 0 then some v2
    else CopiesView.blinkLineLoop line marker fuel (i - 1) v2

/-- The function `blinkLine`. -/
def CopiesView.blinkLine (v : CopiesView) (line : Int) : Option CopiesView :=
  let r := v.CallScintilla (.SCI_MARKERGET line)
  let marker := r.1.toNat &&& MARKER_MASK_ALL
  CopiesView.blinkLineLoop line marker cBlinkCount.toNat cBlinkCount r.2

/-! ## Blank sections -/

def getPreviousUnhiddenLine (v : SciView) (line : Int) : Int × SciView :=
  let d := CallScintilla v (.SCI_VISIBLEFROMDOCLINE line)
  CallScintilla d.2 (.SCI_DOCLINEFROMVISIBLE (d.1 - 1))

/-- The function `addBlankSection`.  Characters are bytes: 10 is the newline, 0 the terminating
NUL.  `text` is the buffer the pointer points to (`none` for `nullptr`), of which
`[text, text + strlen(text))` is the C string.  An insertion past the end of the vector
(undefined in C++) gives `none`. -/
def addBlankSection (v : SciView) (line length textLinePos : Int) (text : Option (List Nat)) :
    Option SciView :=
  if length ≤ 0 then some v
  else
    let blank := List.replicate (length - 1).toNat 10
    let filled : Option (Option (List Nat)) :=
      match text with
      | some t =>
        if textLinePos > 0 then
          if length < textLinePos then some none
          else if (textLinePos - 1).toNat ≤ blank.length then
            some (some (blank.take (textLinePos - 1).toNat ++ cString t ++
              blank.drop (textLinePos - 1).toNat))
          else none
        else some (some blank)
      | none => some (some blank)
    match filled with
    | none => none
    | some none => some v
    | some (some blank1) =>
      let blank2 := blank1 ++ [0]
      let prev := getPreviousUnhiddenLine v line
      some (CallScintilla prev.2 (.SCI_ANNOTATIONSETTEXT prev.1 (some blank2))).2

/-! ## View modes and styles -/

def MARGIN_NUM : Int := 4

/-- Modelled from the spec: `SC_ELEMENT_CARET_LINE_BACK` of the editor component (`Scintilla.h`,
not among the sources), 50 there. -/
def SC_ELEMENT_CARET_LINE_BACK : Int := 50

/-- Modelled from the spec: `SC_LAYER_BASE` of the editor component (`Scintilla.h`, not among
the sources), 0 there. -/
def SC_LAYER_BASE : Int := 0

/-- Modelled from the spec: `SC_LAYER_UNDER_TEXT` of the editor component (`Scintilla.h`, not
among the sources), 1 there. -/
def SC_LAYER_UNDER_TEXT : Int := 1

/-- Modelled from the spec: `SC_ALPHA_OPAQUE` of the editor component (`Scintilla.h`, not among
the sources), 255 there. -/
def SC_ALPHA_OPAQUE : Int := 255

/-- Modelled from the spec: `ANNOTATION_STANDARD` of the editor component (`Scintilla.h`, not
among the sources), 1 there. -/
def ANNOTATION_STANDARD : Int := 1

/-- Modelled from the spec: `SC_MARK_BACKGROUND` of the editor component (`Scintilla.h`, not
among the sources), 22 there. -/
def SC_MARK_BACKGROUND : Int := 22

/-- Modelled from the spec: `INDIC_ROUNDBOX` of the editor component (`Scintilla.h`, not among
the sources), 7 there. -/
def INDIC_ROUNDBOX : Int := 7

/-- Modelled from the spec: `SC_INDICFLAG_VALUEFORE` of the editor component (`Scintilla.h`, not
among the sources), 1 there. -/
def SC_INDICFLAG_VALUEFORE : Int := 1

/-- The call `CallScintilla(view, msg, wParam, lParam)` on the host: the message goes to the
control of the view number. -/
def Npp.CallScintilla (h : Npp) (view : Int) (msg : SciMsg) : Int × Npp :=
  h.onView view (fun s => NppHelpers.CallScintilla s msg)

/-- The variables of the anonymous namespace of `NppHelpers.cpp`, arrays of two entries indexed
by the view number. -/
structure Statics where
  compareMode : Int → Bool
  blankStyle : Int → Int
  endAtLastLine : Int → Bool

/-- The initial values: `compareMode = { false, false }`, `blankStyle = { 0, 0 }`,
`endAtLastLine = { true, true }`. -/
def Statics.initial : Statics :=
  { compareMode := fun _ => false, blankStyle := fun _ => 0, endAtLastLine := fun _ => true }

/-- An index of the two-entry arrays that is inside them. -/
def validIndex (view : Int) : Prop := view = 0 ∨ view = 1

instance (view : Int) : Decidable (validIndex view) := by
  unfold validIndex; infer_instance

/-- The function `setBlanksStyle`; indexing the arrays outside their two entries (undefined in
C++) gives `none`. -/
def setBlanksStyle (st : Statics) (h : Npp) (view : Int) (blankColor : Int) :
    Option (Statics × Npp) :=
  if validIndex view then
    let a : Statics × Npp :=
      if st.blankStyle view = 0 then
        let r := h.CallScintilla view (.SCI_ALLOCATEEXTENDEDSTYLES 1)
        ({ st with blankStyle := fun i => if i = view then r.1 else st.blankStyle i }, r.2)
      else (st, h)
    let style := a.1.blankStyle view
    let h1 := (a.2.CallScintilla view (.SCI_ANNOTATIONSETSTYLEOFFSET style)).2
    let h2 := (h1.CallScintilla view (.SCI_STYLESETEOLFILLED style true)).2
    let h3 := (h2.CallScintilla view (.SCI_STYLESETBACK style blankColor)).2
    let h4 := (h3.CallScintilla view (.SCI_STYLESETBOLD style true)).2
    let h5 := (h4.CallScintilla view (.SCI_ANNOTATIONSETVISIBLE ANNOTATION_STANDARD)).2
    some (a.1, h5)
  else none

/-- The function `setNormalView`.  `caretLineColor & 0xFFFFFF` is the remainder modulo 2^24. -/
def setNormalView (st : Statics) (h : Npp) (view : Int) : Option (Statics × Npp) :=
  if validIndex view then
    if st.compareMode view then
      let st1 := { st with compareMode := fun i => if i = view then false else st.compareMode i }
      let h1 := (h.CallScintilla view (.SCI_SETENDATLASTLINE (st1.endAtLastLine view))).2
      let h2 := (h1.CallScintilla view (.SCI_SETMARGINMASKN MARGIN_NUM 0)).2
      let h3 := (h2.CallScintilla view (.SCI_SETMARGINWIDTHN MARGIN_NUM 0)).2
      let h4 := (h3.CallScintilla view (.SCI_SETMARGINSENSITIVEN MARGIN_NUM false)).2
      let caretLineColor := h4.CallScintilla view (.SCI_GETELEMENTCOLOUR SC_ELEMENT_CARET_LINE_BACK)
      let h5 :=
        if caretLineColor.1 ≠ 0 then
          (caretLineColor.2.CallScintilla view
            (.SCI_SETELEMENTCOLOUR SC_ELEMENT_CARET_LINE_BACK (caretLineColor.1 % 16777216))).2
        else caretLineColor.2
      some (st1, (h5.CallScintilla view (.SCI_SETCARETLINELAYER SC_LAYER_BASE)).2)
    else some (st, h)
  else none

/-- The function `setCompareView`.  `(caretLineColor & 0xFFFFFF) | (alpha << 24)` is the
remainder modulo 2^24 plus `alpha` times 2^24. -/
def setCompareView (st : Statics) (h : Npp) (view : Int) (blankColor caretLineTransp : Int) :
    Option (Statics × Npp) :=
  if validIndex view then
    let a : Statics × Npp :=
      if !st.compareMode view then
        let st1 := { st with compareMode := fun i => if i = view then true else st.compareMode i }
        let e := h.CallScintilla view .SCI_GETENDATLASTLINE
        let st2 := { st1 with
          endAtLastLine := fun i => if i = view then decide (e.1 ≠ 0) else st1.endAtLastLine i }
        let h1 := (e.2.CallScintilla view (.SCI_SETENDATLASTLINE false)).2
        let h2 := (h1.CallScintilla view
          (.SCI_SETMARGINMASKN MARGIN_NUM (MARKER_MASK_SYMBOL ||| MARKER_MASK_ARROW))).2
        let h3 := (h2.CallScintilla view (.SCI_SETMARGINWIDTHN MARGIN_NUM 16)).2
        let h4 := (h3.CallScintilla view (.SCI_SETMARGINSENSITIVEN MARGIN_NUM true)).2
        (st2, h4)
      else (st, h)
    let caretLineColor := a.2.CallScintilla view (.SCI_GETELEMENTCOLOUR SC_ELEMENT_CARET_LINE_BACK)
    let h5 :=
      if caretLineColor.1 ≠ 0 then
        let alpha := Int.tdiv ((100 - caretLineTransp) * SC_ALPHA_OPAQUE) 100
        let h6 := (caretLineColor.2.CallScintilla view
          (.SCI_SETELEMENTCOLOUR SC_ELEMENT_CARET_LINE_BACK
            (caretLineColor.1 % 16777216 + alpha * 16777216))).2
        (h6.CallScintilla view (.SCI_SETCARETLINELAYER SC_LAYER_UNDER_TEXT)).2
      else caretLineColor.2
    setBlanksStyle a.1 h5 view blankColor
  else none

/-- A call of one of the two view-mode functions. -/
inductive ViewCall where
  | compare (blankColor caretLineTransp : Int)
  | normal

/-- A sequence of `setCompareView` / `setNormalView` calls on one view. -/
def runViewCalls (view : Int) : List ViewCall → Statics → Npp → Option (Statics × Npp)
  | [], st, h => some (st, h)
  | .compare blankColor caretLineTransp :: rest, st, h =>
    match setCompareView st h view blankColor caretLineTransp with
    | some r => runViewCalls view rest r.1 r.2
    | none => none
  | .normal :: rest, st, h =>
    match setNormalView st h view with
    | some r => runViewCalls view rest r.1 r.2
    | none => none

/-- Modelled from the spec: the colour set `settings.colors()` of `UserSettings`
(`UserSettings.h`, not among the sources), as far as `setStyles` reads or writes it.  Colours
are 0x00BBGGRR values. -/
structure ColorSettings where
  added : Nat
  removed : Nat
  moved : Nat
  changed : Nat
  blank : Nat
  _default : Nat
  highlight_transparency : Int

/-- Modelled from the spec: the pixel data `icon_changed` (`icon_changed.h`, not among the
sources); the pixel arrays stand by a number each. -/
def icon_changed : Nat := 1

/-- Modelled from the spec: the pixel data `icon_changed_local` (`icon_changed.h`). -/
def icon_changed_local : Nat := 2

/-- Modelled from the spec: the pixel data `icon_added` (`icon_added.h`). -/
def icon_added : Nat := 3

/-- Modelled from the spec: the pixel data `icon_added_local` (`icon_added.h`). -/
def icon_added_local : Nat := 4

/-- Modelled from the spec: the pixel data `icon_removed` (`icon_removed.h`). -/
def icon_removed : Nat := 5

/-- Modelled from the spec: the pixel data `icon_removed_local` (`icon_removed.h`). -/
def icon_removed_local : Nat := 6

/-- Modelled from the spec: the pixel data `icon_moved_line` (`icon_moved.h`). -/
def icon_moved_line : Nat := 7

/-- Modelled from the spec: the pixel data `icon_moved_block_start` (`icon_moved.h`). -/
def icon_moved_block_start : Nat := 8

/-- Modelled from the spec: the pixel data `icon_moved_block_middle` (`icon_moved.h`). -/
def icon_moved_block_middle : Nat := 9

/-- Modelled from the spec: the pixel data `icon_moved_block_end` (`icon_moved.h`). -/
def icon_moved_block_end : Nat := 10

def defineColor (h : Npp) (type : Int) (color : Int) : Npp :=
  let h1 := (h.CallScintilla MAIN_VIEW (.SCI_MARKERDEFINE type SC_MARK_BACKGROUND)).2
  let h2 := (h1.CallScintilla MAIN_VIEW (.SCI_MARKERSETBACK type color)).2
  let h3 := (h2.CallScintilla SUB_VIEW (.SCI_MARKERDEFINE type SC_MARK_BACKGROUND)).2
  (h3.CallScintilla SUB_VIEW (.SCI_MARKERSETBACK type color)).2

def defineRgbaSymbol (h : Npp) (type : Int) (rgba : Nat) : Npp :=
  let h1 := (h.CallScintilla MAIN_VIEW (.SCI_MARKERDEFINERGBAIMAGE type rgba)).2
  (h1.CallScintilla SUB_VIEW (.SCI_MARKERDEFINERGBAIMAGE type rgba)).2

def setTextStyle (h : Npp) (transparency : Int) : Npp :=
  let cMinAlpha : Int := 0
  let cMaxAlpha : Int := 100
  let alpha := Int.tdiv ((100 - transparency) * (cMaxAlpha - cMinAlpha)) 100 + cMinAlpha
  let h1 := (h.CallScintilla MAIN_VIEW (.SCI_INDICSETSTYLE INDIC_HIGHLIGHT INDIC_ROUNDBOX)).2
  let h2 := (h1.CallScintilla MAIN_VIEW
    (.SCI_INDICSETFLAGS INDIC_HIGHLIGHT SC_INDICFLAG_VALUEFORE)).2
  let h3 := (h2.CallScintilla MAIN_VIEW (.SCI_INDICSETALPHA INDIC_HIGHLIGHT alpha)).2
  let h4 := (h3.CallScintilla SUB_VIEW (.SCI_INDICSETSTYLE INDIC_HIGHLIGHT INDIC_ROUNDBOX)).2
  let h5 := (h4.CallScintilla SUB_VIEW
    (.SCI_INDICSETFLAGS INDIC_HIGHLIGHT SC_INDICFLAG_VALUEFORE)).2
  (h5.CallScintilla SUB_VIEW (.SCI_INDICSETALPHA INDIC_HIGHLIGHT alpha)).2

/-- The blank colour `setStyles` derives from the background colour `bg`: each channel is
lowered by `colorShift = 20`, not below 0. -/
def blankColorOf (bg : Nat) : Nat :=
  let colorShift := 20
  let r := bg &&& 0xFF
  let g := bg >>> 8 &&& 0xFF
  let b := bg >>> 16 &&& 0xFF
  let r1 := if r > colorShift then (r - colorShift) &&& 0xFF else 0
  let g1 := if g > colorShift then (g - colorShift) &&& 0xFF else 0
  let b1 := if b > colorShift then (b - colorShift) &&& 0xFF else 0
  r1 ||| (g1 <<< 8) ||| (b1 <<< 16)

/-- The function `setStyles`.  `bg` is the answer of the host to
`NPPM_GETEDITORDEFAULTBACKGROUNDCOLOR`. -/
def setStyles (st : Statics) (h : Npp) (settings : ColorSettings) :
    Option (ColorSettings × Statics × Npp) :=
  let bg := h.editorDefaultBackground
  let settings1 := { settings with _default := bg }
  let settings2 := { settings1 with blank := blankColorOf bg }
  let h1 := defineColor h MARKER_ADDED_LINE settings2.added
  let h2 := defineColor h1 MARKER_REMOVED_LINE settings2.removed
  let h3 := defineColor h2 MARKER_MOVED_LINE settings2.moved
  let h4 := defineColor h3 MARKER_CHANGED_LINE settings2.changed
  let h5 := defineColor h4 MARKER_BLANK settings2.blank
  let h6 := defineRgbaSymbol h5 MARKER_CHANGED_SYMBOL icon_changed
  let h7 := defineRgbaSymbol h6 MARKER_CHANGED_LOCAL_SYMBOL icon_changed_local
  let h8 := defineRgbaSymbol h7 MARKER_ADDED_SYMBOL icon_added
  let h9 := defineRgbaSymbol h8 MARKER_ADDED_LOCAL_SYMBOL icon_added_local
  let h10 := defineRgbaSymbol h9 MARKER_REMOVED_SYMBOL icon_removed
  let h11 := defineRgbaSymbol h10 MARKER_REMOVED_LOCAL_SYMBOL icon_removed_local
  let h12 := defineRgbaSymbol h11 MARKER_MOVED_LINE_SYMBOL icon_moved_line
  let h13 := defineRgbaSymbol h12 MARKER_MOVED_BLOCK_BEGIN_SYMBOL icon_moved_block_start
  let h14 := defineRgbaSymbol h13 MARKER_MOVED_BLOCK_MID_SYMBOL icon_moved_block_middle
  let h15 := defineRgbaSymbol h14 MARKER_MOVED_BLOCK_END_SYMBOL icon_moved_block_end
  let h16 := setTextStyle h15 settings2.highlight_transparency
  match setBlanksStyle st h16 MAIN_VIEW settings2.blank with
  | none => none
  | some a =>
    match setBlanksStyle a.1 a.2 SUB_VIEW settings2.blank with
    | none => none
    | some b => some (settings2, b.1, b.2)

/-! ## Window handles -/

/-- A child window of the host: its handle (0 is `NULL`) and its class name. -/
structure Window where
  hwnd : Nat
  className : List Char
deriving Repr, DecidableEq

/-- The child windows of the host's main window, in the order `EnumChildWindows` visits them,
and the number of enumerations made so far. -/
structure NppWindows where
  children : List Window
  enumerations : Nat

/-- Modelled from the spec: `TOOLBARCLASSNAME`, the class name of toolbar windows (`commctrl.h`,
not among the sources). -/
def TOOLBARCLASSNAME : List Char := String.toList "ToolbarWindow32"

/-- `GetClassName(hwnd, buffer, nMaxCount)`: the class name, cut to fit the buffer with its
terminating NUL. -/
def GetClassName (w : Window) (nMaxCount : Nat) : List Char := w.className.take (nMaxCount - 1)

/-- The walk of `EnumChildWindows` over the child windows: the callback is called on each in
turn until it returns `FALSE`. -/
def enumWindowsWalk {σ : Type} (cb : Window → σ → Bool × σ) : List Window → σ → σ
  | [], s => s
  | w :: ws, s =>
    let r := cb w s
    if r.1 then enumWindowsWalk cb ws r.2 else r.2

/-- `EnumChildWindows(nppData._nppHandle, cb, 0)`. -/
def EnumChildWindows {σ : Type} (host : NppWindows) (cb : Window → σ → Bool × σ) (s : σ) :
    σ × NppWindows :=
  (enumWindowsWalk cb host.children s, { host with enumerations := host.enumerations + 1 })

/-- The callback `NppToolbarHandleGetter::enumWindowsCB`; the state is the static member
`hNppToolbar`. -/
def NppToolbarHandleGetter.enumWindowsCB (w : Window) (hNppToolbar : Nat) : Bool × Nat :=
  let winClassName := GetClassName w 64
  if winClassName = TOOLBARCLASSNAME then (false, w.hwnd)
  else (true, hNppToolbar)

/-- The function `NppToolbarHandleGetter::get`: the handle returned, the static member
`hNppToolbar` and the host after the call. -/
def NppToolbarHandleGetter.get (host : NppWindows) (hNppToolbar : Nat) :
    Nat × Nat × NppWindows :=
  if hNppToolbar = 0 then
    let r := EnumChildWindows host NppToolbarHandleGetter.enumWindowsCB hNppToolbar
    (r.1, r.1, r.2)
  else (hNppToolbar, hNppToolbar, host)

/-! ## Matching lines of the two views -/

/-- The function `getOtherViewId(int view)`. -/
def getOtherViewId (view : Int) : Int := if view = MAIN_VIEW then SUB_VIEW else MAIN_VIEW

/-- The body of `otherViewMatchingLine` with a bound on the depth of its calls: the call
itself takes one unit, the call it makes when `check` holds gets the rest.  The `&&` of the
source is evaluated left to right, so that call is made only when `check` holds and `otherLine`
is below the line count of the other view; it is made with the default `check = false`. -/
def otherViewMatchingLineFuel :
    Nat → Npp → Int → Int → Int → Bool → Option (Int × Npp)
  | 0, _, _, _, _, _ => none
  | fuel + 1, h, view, line, adjustment, check =>
    let otherView := getOtherViewId view
    let c := h.CallScintilla otherView .SCI_GETLINECOUNT
    let otherLineCount := c.1
    let d := c.2.CallScintilla view (.SCI_VISIBLEFROMDOCLINE line)
    let o := d.2.CallScintilla otherView (.SCI_DOCLINEFROMVISIBLE (d.1 + adjustment))
    let otherLine := o.1
    if check = true ∧ otherLine < otherLineCount then
      match otherViewMatchingLineFuel fuel o.2 otherView otherLine (-adjustment) false with
      | none => none
      | some back =>
        if back.1 ≠ line then some (-1, back.2)
        else some (if otherLine ≥ otherLineCount then otherLineCount - 1 else otherLine, back.2)
    else some (if otherLine ≥ otherLineCount then otherLineCount - 1 else otherLine, o.2)

/-- The function `otherViewMatchingLine`: its body, with room for the one call it makes of
itself. -/
def otherViewMatchingLine (h : Npp) (view line adjustment : Int) (check : Bool) :
    Option (Int × Npp) :=
  otherViewMatchingLineFuel 2 h view line adjustment check

/-! ## A sample host -/

/-- A view on a five-line document (four bytes per line, the last one without line end) whose
lines 0, 2, 3 and 4 carry markers; bytes 2 to 8 are selected, the view is read-only, collects
undo information and is scrolled to display line 1; line 3 is hidden. -/
def sampleView : SciView :=
  { lines := [{ textLen := 3, eolLen := 1, markers := 1 },
              { textLen := 3, eolLen := 1, markers := 0 },
              { textLen := 3, eolLen := 1, markers := 3 },
              { textLen := 3, eolLen := 1, markers := 32769 },
              { textLen := 4, eolLen := 0, markers := 2 }],
    indicCurrent := 0,
    indicValue := fun _ _ => 0,
    selRectangle := false,
    selections := 1,
    selStart := 2,
    selEnd := 8,
    readOnly := true,
    undoCollection := true,
    undoBuffer := [7],
    firstVisibleLine := 1,
    linesOnScreen := 3,
    visibleFromDocLine := fun l => l,
    docLineFromVisible := fun l => l,
    hidden := fun l => decide (l = 3),
    annotation := fun _ => none,
    endAtLastLine := true,
    elementColour := fun _ => 0,
    nextExtendedStyle := 256,
    sent := [] }

/-- A host whose two views both show the sample document. -/
def sampleNpp : Npp :=
  { main := sampleView, second := sampleView, editorDefaultBackground := 0x0A14FF }

/-- A view on a two-line document whose lines both carry `MARKER_BLANK`, line 0 together with
`MARKER_CHANGED_LINE`. -/
def blankMarkedView : SciView :=
  { sampleView with
    lines := [{ textLen := 3, eolLen := 1, markers := 17 },
              { textLen := 3, eolLen := 0, markers := 16 }] }

/-- A view on the five-line sample document with no line hidden: display lines and document
lines agree, and a display line past the last one gives the number of lines, as the editor
documents for `SCI_DOCLINEFROMVISIBLE`. -/
def longView : SciView :=
  { sampleView with
    hidden := fun _ => false,
    docLineFromVisible := fun d => if d ≤ 0 then 0 else if d ≥ 5 then 5 else d }

/-- A view on a two-line document with no line hidden; a display line past the last one gives
the number of lines, 2. -/
def shortView : SciView :=
  { longView with
    lines := [{ textLen := 3, eolLen := 1, markers := 0 },
              { textLen := 3, eolLen := 0, markers := 0 }],
    docLineFromVisible := fun d => if d ≤ 0 then 0 else if d ≥ 2 then 2 else d }

/-- A host whose main view shows five lines and whose second view shows two. -/
def unevenNpp : Npp :=
  { main := longView, second := shortView, editorDefaultBackground := 0xFFFFFF }

/-- A view on two lines: line 0 carries one copy of `MARKER_CHANGED_LINE` and one of
`MARKER_BLANK`, line 1 one copy of `MARKER_BLANK`. -/
def blankCopiesView : CopiesView :=
  { lineCount := 2,
    copies := fun l n => if (l = 0 ∧ (n = 0 ∨ n = 4)) ∨ (l = 1 ∧ n = 4) then 1 else 0,
    sent := [] }

/-! ## Lemmas -/

theorem CallScintilla_fst (v : SciView) (msg : SciMsg) : (CallScintilla v msg).1 = v.reply msg := rfl

theorem CallScintilla_lines (v : SciView) (msg : SciMsg) :
    (CallScintilla v msg).2.lines = (v.exec msg).lines := rfl

theorem isLineMarked_fst (v : SciView) (l : Int) (mask : Nat) :
    (isLineMarked v l mask).1 = decide ((markersAt v.lines l &&& mask) ≠ 0) := by
  simp [isLineMarked, CallScintilla, SciView.reply]

theorem isLineMarked_lines (v : SciView) (l : Int) (mask : Nat) :
    (isLineMarked v l mask).2.lines = v.lines := rfl

theorem getNextUnmarkedLineLoop_spec (mask : Nat) (endLine : Int) :
    ∀ (fuel : Nat) (l : Int) (v : SciView), (endLine + 1 - l).toNat < fuel →
      ∃ r v', getNextUnmarkedLineLoop mask endLine fuel l v = some (r, v') ∧
        v'.lines = v.lines ∧ l ≤ r ∧
        (∀ j, l ≤ j → j < r → (markersAt v.lines j &&& mask) ≠ 0) ∧
        (r ≤ endLine → (markersAt v.lines r &&& mask) = 0) := by
  intro fuel
  induction fuel with
  | zero => intro l v h; omega
  | succ n ih =>
    intro l v h
    unfold getNextUnmarkedLineLoop
    by_cases hl : l ≤ endLine
    · simp only [hl, if_true]
      by_cases hm : (markersAt v.lines l &&& mask) ≠ 0
      · have h1 : (isLineMarked v l mask).1 = true := by
          rw [isLineMarked_fst]; exact decide_eq_true hm
        simp only [h1, if_true]
        obtain ⟨r, v', e, hlines, hle, hall, hun⟩ :=
          ih (l + 1) (isLineMarked v l mask).2 (by omega)
        refine ⟨r, v', e, ?_, by omega, ?_, ?_⟩
        · rw [hlines, isLineMarked_lines]
        · intro j h1 h2
          by_cases hj : j = l
          · subst hj; exact hm
          · have := hall j (by omega) h2
            rwa [isLineMarked_lines] at this
        · intro h3
          have := hun h3
          rwa [isLineMarked_lines] at this
      · have h1 : (isLineMarked v l mask).1 = false := by
          rw [isLineMarked_fst]; exact decide_eq_false hm
        simp only [h1]
        refine ⟨l, _, rfl, isLineMarked_lines v l mask, le_refl _, ?_, ?_⟩
        · intro j h1 h2; omega
        · intro _; exact not_not.mp hm
    · simp only [hl, if_false]
      exact ⟨l, v, rfl, rfl, le_refl _, fun j h1 h2 => by omega, fun h => absurd h hl⟩


theorem getPrevUnmarkedLineLoop_spec (mask : Nat) :
    ∀ (fuel : Nat) (l : Int) (v : SciView), (l + 1).toNat < fuel →
      ∃ r v', getPrevUnmarkedLineLoop mask fuel l v = some (r, v') ∧
        v'.lines = v.lines ∧ r ≤ l ∧ (-1 ≤ l → -1 ≤ r) ∧
        (∀ j, r < j → j ≤ l → (markersAt v.lines j &&& mask) ≠ 0) ∧
        (0 ≤ r → (markersAt v.lines r &&& mask) = 0) := by
  intro fuel
  induction fuel with
  | zero => intro l v h; omega
  | succ n ih =>
    intro l v h
    unfold getPrevUnmarkedLineLoop
    by_cases hl : l ≥ 0
    · simp only [hl, if_true]
      by_cases hm : (markersAt v.lines l &&& mask) ≠ 0
      · have h1 : (isLineMarked v l mask).1 = true := by
          rw [isLineMarked_fst]; exact decide_eq_true hm
        simp only [h1, if_true]
        obtain ⟨r, v', e, hlines, hle, hlow, hall, hun⟩ :=
          ih (l - 1) (isLineMarked v l mask).2 (by omega)
        refine ⟨r, v', e, ?_, by omega, fun _ => hlow (by omega), ?_, ?_⟩
        · rw [hlines, isLineMarked_lines]
        · intro j h1 h2
          by_cases hj : j = l
          · subst hj; exact hm
          · have := hall j h1 (by omega)
            rwa [isLineMarked_lines] at this
        · intro h3
          have := hun h3
          rwa [isLineMarked_lines] at this
      · have h1 : (isLineMarked v l mask).1 = false := by
          rw [isLineMarked_fst]; exact decide_eq_false hm
        simp only [h1]
        refine ⟨l, _, rfl, isLineMarked_lines v l mask, le_refl _, fun h => h, ?_, ?_⟩
        · intro j h1 h2; omega
        · intro _; exact not_not.mp hm
    · simp only [hl, if_false]
      exact ⟨l, v, rfl, rfl, le_refl _, fun h => h, fun j h1 h2 => by omega,
        fun h => absurd h hl⟩

theorem getPrevUnmarkedLine_spec (v : SciView) (startLine : Int) (mask : Nat) :
    ∃ r v', getPrevUnmarkedLine v startLine mask = some (r, v') ∧
      v'.lines = v.lines ∧ r ≤ startLine ∧ (-1 ≤ startLine → -1 ≤ r) ∧
      (∀ j, r < j → j ≤ startLine → (markersAt v.lines j &&& mask) ≠ 0) ∧
      (0 ≤ r → (markersAt v.lines r &&& mask) = 0) :=
  getPrevUnmarkedLineLoop_spec mask _ startLine v (by omega)

theorem getNextUnmarkedLine_spec (v : SciView) (startLine : Int) (mask : Nat) :
    ∃ r v', getNextUnmarkedLine v startLine mask = some (r, v') ∧ v'.lines = v.lines ∧
      ((startLine ≤ r ∧ r ≤ v.lineCount - 1 ∧ (markersAt v.lines r &&& mask) = 0 ∧
          ∀ n, startLine ≤ n → n < r → (markersAt v.lines n &&& mask) ≠ 0) ∨
       (r = -1 ∧
          ∀ n, startLine ≤ n → n ≤ v.lineCount - 1 → (markersAt v.lines n &&& mask) ≠ 0)) := by
  obtain ⟨r, v', e, hlines, hle, hall, hun⟩ :=
    getNextUnmarkedLineLoop_spec mask (v.lineCount - 1)
      ((v.lineCount - 1 + 1 - startLine).toNat + 1) startLine
      (CallScintilla v .SCI_GETLINECOUNT).2 (by omega)
  have hl : (CallScintilla v .SCI_GETLINECOUNT).2.lines = v.lines := rfl
  rw [hl] at hall hun hlines
  have hc : (CallScintilla v .SCI_GETLINECOUNT).1 = v.lineCount := rfl
  unfold getNextUnmarkedLine
  simp only [hc, e]
  by_cases hr : r ≤ v.lineCount - 1
  · exact ⟨r, v', by simp [hr], hlines, Or.inl ⟨hle, hr, hun hr, hall⟩⟩
  · refine ⟨-1, v', by simp [hr], hlines, Or.inr ⟨rfl, ?_⟩⟩
    intro n h1 h2
    exact hall n h1 (by omega)

theorem lineCount_eq (v v' : SciView) (h : v'.lines = v.lines) : v'.lineCount = v.lineCount := by
  unfold SciView.lineCount; rw [h]

theorem positionFromLine_of_nonneg (ls : List DocLine) (s a : Int) (h0 : 0 ≤ a)
    (h1 : a ≤ ls.length) : positionFromLine ls s a = lineStartPos ls a.toNat := by
  unfold positionFromLine
  rw [if_neg (by omega), if_neg (by omega)]

theorem positionFromLine_congr (ls : List DocLine) (s s' a : Int) (h0 : 0 ≤ a) :
    positionFromLine ls s a = positionFromLine ls s' a := by
  unfold positionFromLine
  simp only [if_neg (show ¬ a < 0 by omega)]

theorem getLineStart_fst (v : SciView) (a : Int) :
    (getLineStart v a).1 = positionFromLine v.lines v.selStart a := rfl

theorem getLineEnd_fst (v : SciView) (a : Int) :
    (getLineEnd v a).1 = lineEndPosition v.lines a := rfl

theorem getLineStart_lines (v : SciView) (a : Int) : (getLineStart v a).2.lines = v.lines := rfl

theorem getLineEnd_lines (v : SciView) (a : Int) : (getLineEnd v a).2.lines = v.lines := rfl

/-- What `getMarkedSection` returns once its argument checks have passed. -/
theorem getMarkedSection_accepted (v : SciView) (startLine endLine : Int) (mask : Nat)
    (excl : Bool) (h0 : 0 ≤ startLine) (h1 : startLine ≤ endLine)
    (h2 : endLine ≤ v.lineCount - 1)
    (hs : (markersAt v.lines startLine &&& mask) ≠ 0)
    (he : (markersAt v.lines endLine &&& mask) ≠ 0) :
    ∃ a b, (getMarkedSection v startLine endLine mask excl).map Prod.fst =
        some (positionFromLine v.lines v.selStart a,
          if excl then lineEndPosition v.lines b
          else if b = v.lineCount - 1 then lineEndPosition v.lines (v.lineCount - 1)
          else positionFromLine v.lines v.selStart (b + 1)) ∧
      0 ≤ a ∧ a ≤ startLine ∧
      (∀ j, a ≤ j → j ≤ startLine → (markersAt v.lines j &&& mask) ≠ 0) ∧
      (a = 0 ∨ (markersAt v.lines (a - 1) &&& mask) = 0) ∧
      endLine ≤ b ∧ b ≤ v.lineCount - 1 ∧
      (∀ j, endLine ≤ j → j ≤ b → (markersAt v.lines j &&& mask) ≠ 0) ∧
      (b = v.lineCount - 1 ∨ (markersAt v.lines (b + 1) &&& mask) = 0) := by
  have hc : (CallScintilla v .SCI_GETLINECOUNT).1 = v.lineCount := rfl
  have hcond : ¬ (startLine < 0 ∨ endLine > v.lineCount - 1 ∨ startLine > endLine) := by omega
  have hm1 : (isLineMarked (CallScintilla v .SCI_GETLINECOUNT).2 startLine mask).1 = true := by
    rw [isLineMarked_fst]; exact decide_eq_true hs
  -- the state after the checks
  obtain ⟨w, hw, hweq⟩ : ∃ w : SciView, w.lines = v.lines ∧
      getMarkedSection v startLine endLine mask excl =
        (match getPrevUnmarkedLine w startLine mask with
        | none => none
        | some (prevUnmarked, v3) =>
          match getNextUnmarkedLine v3 endLine mask with
          | none => none
          | some (nextUnmarked, v4) =>
            let line2 := if excl then nextUnmarked - 1 else nextUnmarked
            let endPos :=
              if line2 < 0 then getLineEnd v4 (v.lineCount - 1)
              else if excl then getLineEnd v4 line2
              else getLineStart v4 line2
            let startPos := getLineStart endPos.2 (prevUnmarked + 1)
            some ((startPos.1, endPos.1), startPos.2)) := by
    by_cases hne : startLine ≠ endLine
    · have hm2 : (isLineMarked (isLineMarked (CallScintilla v .SCI_GETLINECOUNT).2
          startLine mask).2 endLine mask).1 = true := by
        rw [isLineMarked_fst]; exact decide_eq_true he
      refine ⟨(isLineMarked (isLineMarked (CallScintilla v .SCI_GETLINECOUNT).2
          startLine mask).2 endLine mask).2, rfl, ?_⟩
      unfold getMarkedSection
      simp only [hc, hcond, if_false, hm1, hne, hm2, if_true, ne_eq, not_false_eq_true,
        Bool.not_true, Bool.false_eq_true]
    · refine ⟨(isLineMarked (CallScintilla v .SCI_GETLINECOUNT).2 startLine mask).2, rfl, ?_⟩
      unfold getMarkedSection
      simp only [hc, hcond, if_false, hm1, hne, if_true, ne_eq, not_false_eq_true,
        Bool.not_true, Bool.false_eq_true]
  obtain ⟨p, v3, e3, hl3, hp1, hp2, hp3, hp4⟩ := getPrevUnmarkedLine_spec w startLine mask
  obtain ⟨n, v4, e4, hl4, hn⟩ := getNextUnmarkedLine_spec v3 endLine mask
  rw [hw] at hl3 hp3 hp4
  rw [hl3] at hl4
  rw [hl3, lineCount_eq v v3 hl3] at hn
  rw [hweq, e3]
  simp only [e4, Option.map_some']
  have hlen : v.lineCount = (v.lines.length : Int) := rfl
  have hp0 : -1 ≤ p := hp2 (by omega)
  have hps : p ≠ startLine := by
    intro h
    rw [h] at hp4
    exact hs (hp4 h0)
  refine ⟨p + 1, if n = -1 then v.lineCount - 1 else n - 1, ?_, by omega, ?_, ?_, ?_, ?_⟩
  · -- the returned pair
    rcases hn with ⟨hn1, hn2, hn3, hn4⟩ | ⟨hn1, hn2⟩
    · have hnne : markersAt v.lines n &&& mask ≠ markersAt v.lines endLine &&& mask := by
        rw [hn3]; exact fun h => he h.symm
      have hnend : n ≠ endLine := fun h => hnne (by rw [h])
      have hn0 : ¬ n = -1 := by omega
      cases excl
      · have c1 : ¬ n < 0 := by omega
        have c2 : ¬ n - 1 = v.lineCount - 1 := by omega
        simp only [Bool.false_eq_true, if_false, hn0, c1, c2, getLineStart_fst,
          getLineStart_lines, hl4, Option.some.injEq, Prod.mk.injEq, sub_add_cancel]
        exact ⟨positionFromLine_congr _ _ _ _ (by omega),
          positionFromLine_congr _ _ _ _ (by omega)⟩
      · have c1 : ¬ n - 1 < 0 := by omega
        simp only [if_true, hn0, if_false, c1, getLineStart_fst, getLineStart_lines,
          getLineEnd_fst, getLineEnd_lines, hl4, Option.some.injEq, Prod.mk.injEq, and_true]
        exact positionFromLine_congr _ _ _ _ (by omega)
    · subst hn1
      cases excl
      · have c1 : (-1 : Int) < 0 := by omega
        simp only [Bool.false_eq_true, if_false, if_true, c1, getLineStart_fst,
          getLineStart_lines, getLineEnd_fst, getLineEnd_lines, hl4, Option.some.injEq,
          Prod.mk.injEq, and_true]
        exact positionFromLine_congr _ _ _ _ (by omega)
      · have c1 : (-1 : Int) - 1 < 0 := by omega
        simp only [if_true, c1, getLineStart_fst, getLineStart_lines, getLineEnd_fst,
          getLineEnd_lines, hl4, Option.some.injEq, Prod.mk.injEq, and_true]
        exact positionFromLine_congr _ _ _ _ (by omega)
  · omega
  · intro j h1 h2; exact hp3 j (by omega) h2
  · by_cases hp : p = -1
    · left; omega
    · right
      have := hp4 (by omega)
      simpa using this
  · rcases hn with ⟨hn1, hn2, hn3, hn4⟩ | ⟨hn1, hn2⟩
    · have hnne : markersAt v.lines n &&& mask ≠ markersAt v.lines endLine &&& mask := by
        rw [hn3]; exact fun h => he h.symm
      have hnend : n ≠ endLine := fun h => hnne (by rw [h])
      have hn0 : ¬ n = -1 := by omega
      simp only [hn0, if_false]
      refine ⟨by omega, by omega, fun j h1 h2 => hn4 j h1 (by omega), Or.inr ?_⟩
      simpa using hn3
    · subst hn1
      simp only [if_true]
      exact ⟨h2, le_refl _, fun j h1 h2 => hn2 j h1 h2, Or.inl trivial⟩


/-! ### Marker sets -/

theorem length_updateMarkers (ls : List DocLine) (l : Int) (f : Nat → Nat) :
    (updateMarkers ls l f).length = ls.length := by
  unfold updateMarkers
  split
  · rfl
  · split <;> simp

theorem markersAt_updateMarkers (ls : List DocLine) (l j : Int) (f : Nat → Nat) :
    markersAt (updateMarkers ls l f) j =
      if j = l ∧ 0 ≤ l ∧ l < ls.length then f (markersAt ls l) else markersAt ls j := by
  unfold updateMarkers
  by_cases hl : l < 0
  · rw [if_pos hl, if_neg (by omega)]
  · rw [if_neg hl]
    by_cases hlen : l.toNat < ls.length
    · have hget : ls[l.toNat]? = some ls[l.toNat] := List.getElem?_eq_getElem hlen
      simp only [hget]
      by_cases hj : j = l
      · subst hj
        rw [if_pos ⟨rfl, by omega, by omega⟩]
        unfold markersAt
        simp [hl, hlen, List.getElem?_set]
      · rw [if_neg (fun h => hj h.1)]
        unfold markersAt
        by_cases hj0 : j < 0
        · simp [hj0]
        · have hne : l.toNat ≠ j.toNat := by omega
          simp [hj0, List.getElem?_set, hne]
    · have hget : ls[l.toNat]? = none := List.getElem?_eq_none (by omega)
      simp only [hget]
      rw [if_neg (by omega)]

theorem markersAt_of_length_le (ls : List DocLine) (j : Int) (h : (ls.length : Int) ≤ j) :
    markersAt ls j = 0 := by
  unfold markersAt
  split
  · rfl
  · have : ls[j.toNat]? = none := List.getElem?_eq_none (by omega)
    simp [this]

theorem markersAt_of_neg (ls : List DocLine) (j : Int) (h : j < 0) : markersAt ls j = 0 := by
  unfold markersAt; simp [h]

theorem testBit_clearBit (m n i : Nat) :
    (clearBit m n).testBit i = (m.testBit i && !decide (i = n)) := by
  unfold clearBit
  rw [Nat.testBit_xor, Nat.testBit_and, Nat.one_shiftLeft, Nat.testBit_two_pow]
  by_cases h : n = i
  · subst h; cases m.testBit n <;> simp
  · have h' : ¬ i = n := fun e => h e.symm
    cases m.testBit i <;> simp [h, h']

/-- The marker set `clearMarks` leaves on a line that carried `m`. -/
theorem clearMarks_fold_testBit (m i : Nat) :
    (clearMarksOrder.foldl (fun a k => markerDelete a (k : Int)) m).testBit i =
      (m.testBit i && decide (15 ≤ i)) := by
  have hd : ∀ (a k : Nat), markerDelete a (k : Int) = clearBit a k := by
    intro a k
    unfold markerDelete
    rw [if_neg (by omega), if_neg (by omega)]
    rfl
  simp only [hd, clearMarksOrder, List.foldl, testBit_clearBit, MARKER_CHANGED_LINE,
    MARKER_ADDED_LINE, MARKER_REMOVED_LINE, MARKER_MOVED_LINE, MARKER_BLANK,
    MARKER_CHANGED_SYMBOL, MARKER_CHANGED_LOCAL_SYMBOL, MARKER_ADDED_SYMBOL,
    MARKER_ADDED_LOCAL_SYMBOL, MARKER_REMOVED_SYMBOL, MARKER_REMOVED_LOCAL_SYMBOL,
    MARKER_MOVED_LINE_SYMBOL, MARKER_MOVED_BLOCK_BEGIN_SYMBOL, MARKER_MOVED_BLOCK_MID_SYMBOL,
    MARKER_MOVED_BLOCK_END_SYMBOL]
  by_cases h : 15 ≤ i
  · have e : ∀ k, k < 15 → decide (i = k) = false := fun k hk => decide_eq_false (by omega)
    simp [h, e]
  · have : i < 15 := by omega
    interval_cases i <;> simp

theorem mask_all_blank : MARKER_MASK_ALL ||| MARKER_MASK_BLANK = 2 ^ 15 - 1 := by decide

theorem markerDelete_lines_fold (line : Int) :
    ∀ (ks : List Nat) (v : SciView),
      (ks.foldl (fun s mk => (CallScintilla s (.SCI_MARKERDELETE line mk)).2) v).lines.length =
          v.lines.length ∧
      ∀ j, markersAt
          (ks.foldl (fun s mk => (CallScintilla s (.SCI_MARKERDELETE line mk)).2) v).lines j =
        if j = line ∧ 0 ≤ line ∧ line < v.lines.length then
          ks.foldl (fun a k => markerDelete a (k : Int)) (markersAt v.lines line)
        else markersAt v.lines j := by
  intro ks
  induction ks with
  | nil =>
    intro v
    refine ⟨rfl, fun j => ?_⟩
    by_cases h : j = line ∧ 0 ≤ line ∧ line < v.lines.length
    · rw [if_pos h, h.1]; rfl
    · rw [if_neg h]; rfl
  | cons k ks ih =>
    intro v
    have hstep : (CallScintilla v (.SCI_MARKERDELETE line k)).2.lines =
        updateMarkers v.lines line (fun m => markerDelete m k) := rfl
    obtain ⟨ih1, ih2⟩ := ih (CallScintilla v (.SCI_MARKERDELETE line k)).2
    refine ⟨?_, fun j => ?_⟩
    · show (ks.foldl (fun s mk => (CallScintilla s (.SCI_MARKERDELETE line mk)).2)
        (CallScintilla v (.SCI_MARKERDELETE line k)).2).lines.length = v.lines.length
      rw [ih1, hstep, length_updateMarkers]
    show markersAt (ks.foldl (fun s mk => (CallScintilla s (.SCI_MARKERDELETE line mk)).2)
        (CallScintilla v (.SCI_MARKERDELETE line k)).2).lines j =
      if j = line ∧ 0 ≤ line ∧ line < v.lines.length then
        ks.foldl (fun a k => markerDelete a (k : Int))
          (markerDelete (markersAt v.lines line) (k : Int))
      else markersAt v.lines j
    rw [ih2 j, hstep, length_updateMarkers]
    by_cases h : j = line ∧ 0 ≤ line ∧ line < v.lines.length
    · rw [if_pos h, if_pos h, markersAt_updateMarkers, if_pos ⟨rfl, h.2⟩]
    · rw [if_neg h, if_neg h, markersAt_updateMarkers, if_neg h]

theorem clearMarks_length (v : SciView) (line : Int) :
    (clearMarks v line).lines.length = v.lines.length :=
  (markerDelete_lines_fold line clearMarksOrder v).1

theorem clearMarks_markersAt (v : SciView) (line j : Int) :
    markersAt (clearMarks v line).lines j =
      if j = line then
        clearMarksOrder.foldl (fun a k => markerDelete a (k : Int)) (markersAt v.lines line)
      else markersAt v.lines j := by
  have h := (markerDelete_lines_fold line clearMarksOrder v).2 j
  unfold clearMarks
  rw [h]
  by_cases hj : j = line
  · subst hj
    by_cases hr : 0 ≤ j ∧ j < v.lines.length
    · rw [if_pos ⟨rfl, hr⟩, if_pos rfl]
    · rw [if_neg (fun h => hr h.2), if_pos rfl]
      have h0 : markersAt v.lines j = 0 := by
        by_cases hneg : j < 0
        · exact markersAt_of_neg _ _ hneg
        · exact markersAt_of_length_le _ _ (by omega)
      rw [h0]
      apply Nat.eq_of_testBit_eq
      intro i
      rw [clearMarks_fold_testBit]
      simp
  · rw [if_neg (fun h => hj h.1), if_neg hj]

/-! ### `SCI_MARKERPREVIOUS` -/

theorem markerPreviousFrom_spec (ls : List DocLine) (mask : Nat) :
    ∀ n : Nat, -1 ≤ markerPreviousFrom ls mask n ∧ markerPreviousFrom ls mask n ≤ n ∧
      ∀ j : Int, markerPreviousFrom ls mask n < j → j ≤ n → (markersAt ls j &&& mask) = 0 := by
  intro n
  induction n with
  | zero =>
    unfold markerPreviousFrom
    by_cases h : (markersAt ls 0 &&& mask) ≠ 0
    · rw [if_pos h]
      exact ⟨by omega, by simp, fun j h1 h2 => by simp at h2; omega⟩
    · rw [if_neg h]
      refine ⟨le_refl _, by simp, fun j h1 h2 => ?_⟩
      have : j = 0 := by simp at h2; omega
      rw [this]; exact not_not.mp h
  | succ n ih =>
    unfold markerPreviousFrom
    by_cases h : (markersAt ls ((n : Int) + 1) &&& mask) ≠ 0
    · rw [if_pos h]
      exact ⟨by omega, by simp, fun j h1 h2 => by push_cast at h2; omega⟩
    · rw [if_neg h]
      obtain ⟨i1, i2, i3⟩ := ih
      refine ⟨i1, by push_cast; omega, fun j h1 h2 => ?_⟩
      by_cases hj : j = (n : Int) + 1
      · rw [hj]; exact not_not.mp h
      · exact i3 j h1 (by push_cast at h2; omega)

theorem markerPrevious_spec (ls : List DocLine) (k : Int) (mask : Nat) (hk : -1 ≤ k) :
    -1 ≤ markerPrevious ls k mask ∧ markerPrevious ls k mask ≤ k ∧
      ∀ j : Int, markerPrevious ls k mask < j → j ≤ k → (markersAt ls j &&& mask) = 0 := by
  unfold markerPrevious
  by_cases h : k < 0
  · rw [if_pos h]
    exact ⟨le_refl _, by omega, fun j h1 h2 => by omega⟩
  · rw [if_neg h]
    obtain ⟨i1, i2, i3⟩ := markerPreviousFrom_spec ls mask k.toNat
    have hk' : ((k.toNat : Nat) : Int) = k := Int.toNat_of_nonneg (by omega)
    rw [hk'] at i2 i3
    exact ⟨i1, i2, i3⟩


/-! ### `getMarkers` -/

theorem getMarkersLoop_spec (L : List DocLine) (s : Int) (n : Nat) (mask : Nat) (clear : Bool)
    (hs : 0 ≤ s) :
    ∀ (fuel : Nat) (line : Int) (markers : List Nat) (v : SciView),
      (line - s + 1).toNat < fuel →
      markers.length = n →
      line < s + n →
      (∀ j, j ≤ line → markersAt v.lines j = markersAt L j) →
      (∀ i : Nat, i < n → line < s + i → markers[i]? = some (markersAt L (s + i) &&& mask)) →
      (∀ i : Nat, i < n → s + i ≤ line → markers[i]? = some 0) →
      ∃ v', getMarkersLoop s mask clear fuel line markers v =
        some ((List.range n).map (fun i : Nat => markersAt L (s + i) &&& mask), v') := by
  intro fuel
  induction fuel with
  | zero => intro line markers v h; omega
  | succ fuel ih =>
    intro line markers v hfuel hlen hlt hd hb hc
    unfold getMarkersLoop
    by_cases hl : line ≥ s
    · have hidx : (line - s).toNat < markers.length := by omega
      have hreply : (CallScintilla v (.SCI_MARKERGET line)).1.toNat = markersAt L line := by
        show (v.reply (.SCI_MARKERGET line)).toNat = _
        simp only [SciView.reply, Int.toNat_ofNat]
        exact hd line (le_refl _)
      simp only [hl, if_true, hidx, hreply]
      -- the view after the optional clearMarks
      have hv1 : ∀ j, j < line →
          markersAt (if clear = true then clearMarks (CallScintilla v (.SCI_MARKERGET line)).2 line
            else (CallScintilla v (.SCI_MARKERGET line)).2).lines j = markersAt L j := by
        intro j hj
        cases clear
        · simp only [Bool.false_eq_true, if_false]
          exact hd j (by omega)
        · simp only [if_true]
          rw [clearMarks_markersAt, if_neg (by omega)]
          exact hd j (by omega)
      generalize hv1def : (if clear = true then
          clearMarks (CallScintilla v (.SCI_MARKERGET line)).2 line
        else (CallScintilla v (.SCI_MARKERGET line)).2) = v1 at hv1
      have hnext : (CallScintilla v1 (.SCI_MARKERPREVIOUS (line - 1) mask)).1 =
          markerPrevious v1.lines (line - 1) mask := rfl
      have hnextl : (CallScintilla v1 (.SCI_MARKERPREVIOUS (line - 1) mask)).2.lines =
          v1.lines := rfl
      obtain ⟨q1, q2, q3⟩ := markerPrevious_spec v1.lines (line - 1) mask (by omega)
      rw [hnext]
      generalize markerPrevious v1.lines (line - 1) mask = nxt at q1 q2 q3
      apply ih nxt _ _ (by omega) (by rw [List.length_set]; exact hlen) (by omega)
      · intro j hj
        rw [hnextl]
        exact hv1 j (by omega)
      · intro i hi hlt'
        rw [List.getElem?_set]
        by_cases hij : (line - s).toNat = i
        · rw [if_pos hij, if_pos (by omega)]
          have : s + (i : Int) = line := by omega
          rw [this]
        · rw [if_neg hij]
          by_cases hgt : line < s + i
          · exact hb i hi hgt
          · rw [hc i hi (by omega)]
            have h0 := q3 (s + i) hlt' (by omega)
            rw [hv1 (s + i) (by omega)] at h0
            rw [h0]
      · intro i hi hle
        rw [List.getElem?_set, if_neg (by omega)]
        exact hc i hi (by omega)
    · simp only [hl, if_false]
      refine ⟨v, ?_⟩
      congr 2
      apply List.ext_getElem?
      intro i
      by_cases hi : i < n
      · rw [hb i hi (by omega)]
        simp [List.getElem?_map, List.getElem?_range, hi]
      · rw [List.getElem?_eq_none (by omega), List.getElem?_eq_none (by simp; omega)]

theorem clearChangedIndicator_lines (v : SciView) (a b : Int) :
    (clearChangedIndicator v a b).lines = v.lines := by
  unfold clearChangedIndicator
  split <;> rfl

/-- The vector `getMarkers` returns for a start line inside the document (or just past it). -/
theorem getMarkers_spec (v : SciView) (startLine length : Int) (mask : Nat) (clear : Bool)
    (h0 : 0 ≤ startLine) (h1 : startLine ≤ v.lineCount) (h2 : 0 < length)
    (h3 : startLine + length > v.lineCount → startLine + length ≤ INTPTR_MAX) :
    (getMarkers v startLine length mask clear).map Prod.fst =
      some ((List.range (min length (v.lineCount - startLine)).toNat).map
        (fun i : Nat => markersAt v.lines (startLine + i) &&& mask)) := by
  have hc : (CallScintilla v .SCI_GETLINECOUNT).1 = v.lineCount := rfl
  unfold getMarkers
  rw [if_neg (by omega)]
  simp only [hc]
  rw [if_neg (fun hov => absurd (h3 hov.1) (not_le.mpr hov.2))]
  have hlen1 : (if startLine + length > v.lineCount then v.lineCount - startLine else length) =
      min length (v.lineCount - startLine) := by
    split <;> omega
  rw [hlen1]
  generalize hn : min length (v.lineCount - startLine) = len1
  have hlen0 : 0 ≤ len1 := by omega
  rw [if_neg (by omega)]
  generalize hv1 : (if clear = true then
      clearChangedIndicator
        (getLineEnd (getLineStart (CallScintilla v .SCI_GETLINECOUNT).2 startLine).2
          (startLine + len1 - 1)).2
        (getLineStart (CallScintilla v .SCI_GETLINECOUNT).2 startLine).1
        ((getLineEnd (getLineStart (CallScintilla v .SCI_GETLINECOUNT).2 startLine).2
          (startLine + len1 - 1)).1 -
          (getLineStart (CallScintilla v .SCI_GETLINECOUNT).2 startLine).1)
    else (CallScintilla v .SCI_GETLINECOUNT).2) = v1
  have hl1 : v1.lines = v.lines := by
    rw [← hv1]
    cases clear
    · rfl
    · simp only [if_true]
      rw [clearChangedIndicator_lines]; rfl
  have hfirst : (CallScintilla v1 (.SCI_MARKERPREVIOUS (startLine + len1 - 1) mask)).1 =
      markerPrevious v.lines (startLine + len1 - 1) mask := by
    show markerPrevious v1.lines _ _ = _
    rw [hl1]
  have hfl : (CallScintilla v1 (.SCI_MARKERPREVIOUS (startLine + len1 - 1) mask)).2.lines =
      v.lines := hl1
  obtain ⟨q1, q2, q3⟩ := markerPrevious_spec v.lines (startLine + len1 - 1) mask (by omega)
  rw [hfirst]
  generalize markerPrevious v.lines (startLine + len1 - 1) mask = line0 at q1 q2 q3
  obtain ⟨v', hv'⟩ := getMarkersLoop_spec v.lines startLine len1.toNat mask clear h0
    (len1.toNat + 1) line0 (List.replicate len1.toNat 0)
    (CallScintilla v1 (.SCI_MARKERPREVIOUS (startLine + len1 - 1) mask)).2
    (by omega) (by simp) (by omega)
    (fun j _ => by rw [hfl])
    (fun i hi hlt => by
      have h0' := q3 (startLine + i) hlt (by omega)
      rw [h0']
      simp [hi])
    (fun i hi _ => by simp [hi])
  rw [hv']
  rfl


/-! ### `setMarkers` -/

theorem masked_set (old m : Nat) (hm : m &&& (2 ^ 15 - 1) = m) :
    ((clearMarksOrder.foldl (fun a k => markerDelete a (k : Int)) old ||| m % 4294967296) &&&
      (2 ^ 15 - 1)) = m := by
  apply Nat.eq_of_testBit_eq
  intro i
  have hmi : m.testBit i = (m.testBit i && decide (i < 15)) := by
    conv_lhs => rw [← hm]
    rw [Nat.testBit_and, Nat.testBit_two_pow_sub_one]
  have h32 : (4294967296 : Nat) = 2 ^ 32 := by norm_num
  rw [Nat.testBit_and, Nat.testBit_or, clearMarks_fold_testBit, Nat.testBit_two_pow_sub_one, h32,
    Nat.testBit_mod_two_pow]
  by_cases hi : i < 15
  · have h1 : ¬ 15 ≤ i := by omega
    have h2 : i < 32 := by omega
    simp [hi, h1, h2]
  · rw [hmi]
    simp [hi]

theorem masked_clear (old : Nat) :
    (clearMarksOrder.foldl (fun a k => markerDelete a (k : Int)) old &&& (2 ^ 15 - 1)) = 0 := by
  apply Nat.eq_of_testBit_eq
  intro i
  rw [Nat.testBit_and, clearMarks_fold_testBit, Nat.testBit_two_pow_sub_one]
  by_cases hi : i < 15
  · have h1 : ¬ 15 ≤ i := by omega
    simp [h1]
  · simp [hi]

theorem addSet_lines (v : SciView) (line : Int) (m : Nat) :
    (CallScintilla v (.SCI_MARKERADDSET line m)).2.lines =
      updateMarkers v.lines line (fun a => a ||| m % 4294967296) := rfl

theorem setMarkersLoop_spec (s : Int) :
    ∀ (ms : List Nat) (i : Int) (v : SciView), 0 ≤ s + i →
      s + i + ms.length ≤ v.lines.length →
      (∀ x ∈ ms, x &&& (2 ^ 15 - 1) = x) →
      (setMarkersLoop s ms i v).lines.length = v.lines.length ∧
      (∀ j, j < s + i →
        markersAt (setMarkersLoop s ms i v).lines j = markersAt v.lines j) ∧
      (∀ k : Nat, k < ms.length →
        ((markersAt (setMarkersLoop s ms i v).lines (s + i + k) &&& (2 ^ 15 - 1)) : Nat) =
          ms[k]?.getD 0) := by
  intro ms
  induction ms with
  | nil =>
    intro i v _ _ _
    exact ⟨rfl, fun _ _ => rfl, fun k hk => by simp at hk⟩
  | cons m rest ih =>
    intro i v h0 hfit hbits
    unfold setMarkersLoop
    simp only []
    generalize hv2 : (if m ≠ 0 then
        (CallScintilla (clearMarks v (s + i)) (.SCI_MARKERADDSET (s + i) m)).2
      else clearMarks v (s + i)) = v2
    have hlen2 : v2.lines.length = v.lines.length := by
      rw [← hv2]
      by_cases hm : m ≠ 0
      · rw [if_pos hm]
        rw [addSet_lines, length_updateMarkers, clearMarks_length]
      · rw [if_neg hm, clearMarks_length]
    have hother : ∀ j, j ≠ s + i → markersAt v2.lines j = markersAt v.lines j := by
      intro j hj
      rw [← hv2]
      by_cases hm : m ≠ 0
      · rw [if_pos hm]
        rw [addSet_lines, markersAt_updateMarkers, if_neg (fun h => hj h.1), clearMarks_markersAt, if_neg hj]
      · rw [if_neg hm, clearMarks_markersAt, if_neg hj]
    have hhere : (markersAt v2.lines (s + i) &&& (2 ^ 15 - 1)) = m := by
      rw [← hv2]
      by_cases hm : m ≠ 0
      · rw [if_pos hm]
        rw [addSet_lines]
        have hr : s + i < ((clearMarks v (s + i)).lines.length : Int) := by
          rw [clearMarks_length]
          simp only [List.length_cons] at hfit
          push_cast at hfit
          omega
        rw [markersAt_updateMarkers, if_pos ⟨rfl, h0, hr⟩, clearMarks_markersAt, if_pos rfl]
        exact masked_set _ _ (hbits m (List.mem_cons_self _ _))
      · rw [if_neg hm, clearMarks_markersAt, if_pos rfl, masked_clear]
        exact (not_not.mp hm).symm
    have hfit' : s + (i + 1) + rest.length ≤ (v2.lines.length : Int) := by
      rw [hlen2]
      simp only [List.length_cons] at hfit
      push_cast at hfit
      omega
    obtain ⟨r1, r2, r3⟩ := ih (i + 1) v2 (by omega) hfit'
      (fun x hx => hbits x (List.mem_cons_of_mem _ hx))
    refine ⟨by rw [r1, hlen2], ?_, ?_⟩
    · intro j hj
      rw [r2 j (by omega), hother j (by omega)]
    · intro k hk
      cases k with
      | zero =>
        simp only [Nat.cast_zero, add_zero, List.getElem?_cons_zero, Option.getD_some]
        rw [r2 (s + i) (by omega)]
        exact hhere
      | succ k =>
        simp only [List.length_cons] at hk
        have := r3 k (by omega)
        simp only [List.getElem?_cons_succ]
        rw [← this]
        congr 2
        push_cast
        ring_nf

theorem setMarkers_spec (v : SciView) (startLine : Int) (m : List Nat) (h0 : 0 ≤ startLine)
    (hne : m ≠ []) (hfit : startLine + m.length ≤ v.lineCount)
    (hbits : ∀ x ∈ m, x &&& (2 ^ 15 - 1) = x) :
    (setMarkers v startLine m).lines.length = v.lines.length ∧
    ∀ k : Nat, k < m.length →
      (markersAt (setMarkers v startLine m).lines (startLine + k) &&& (2 ^ 15 - 1)) =
        m[k]?.getD 0 := by
  have hlen : ¬ ((m.length : Int) = 0) := by
    intro h
    exact hne (List.length_eq_zero.mp (by exact_mod_cast h))
  unfold setMarkers
  simp only []
  rw [if_neg (by omega)]
  generalize hv1 : clearChangedIndicator
      (getLineEnd (getLineStart v startLine).2 (startLine + ↑m.length - 1)).2
      (getLineStart v startLine).1
      ((getLineEnd (getLineStart v startLine).2 (startLine + ↑m.length - 1)).1 -
        (getLineStart v startLine).1) = v1
  have hl1 : v1.lines = v.lines := by
    rw [← hv1, clearChangedIndicator_lines]; rfl
  obtain ⟨r1, _, r3⟩ := setMarkersLoop_spec startLine m 0 v1 (by omega)
    (by rw [hl1]; simpa using hfit) hbits
  rw [hl1] at r1
  refine ⟨r1, fun k hk => ?_⟩
  have := r3 k hk
  simpa using this

/-! ### Lines and positions -/

theorem lineStartPos_zero (ls : List DocLine) : lineStartPos ls 0 = 0 := by
  simp [lineStartPos, docLength]

theorem lineStartPos_cons_succ (d : DocLine) (tl : List DocLine) (k : Nat) :
    lineStartPos (d :: tl) (k + 1) = d.width + lineStartPos tl k := by
  simp [lineStartPos, docLength]

theorem lineOfPos_lt_length :
    ∀ (ls : List DocLine) (p : Nat), ls ≠ [] → lineOfPos ls p < ls.length := by
  intro ls
  induction ls with
  | nil => intro p h; exact absurd rfl h
  | cons d tl ih =>
    intro p _
    cases tl with
    | nil => simp [lineOfPos]
    | cons e rest =>
      unfold lineOfPos
      split
      · simp
      · have := ih (p - d.width) (by simp)
        simp only [List.length_cons] at this ⊢
        omega

theorem lineOfPos_zero (ls : List DocLine) (hw : ∀ d ∈ ls.dropLast, 1 ≤ d.eolLen) :
    lineOfPos ls 0 = 0 := by
  cases ls with
  | nil => rfl
  | cons d tl =>
    cases tl with
    | nil => rfl
    | cons e rest =>
      have h1 : 1 ≤ d.eolLen := hw d (by simp [List.dropLast])
      unfold lineOfPos
      rw [if_pos (by unfold DocLine.width; omega)]

theorem lineOfPos_mono :
    ∀ (ls : List DocLine) (p q : Nat), p ≤ q → lineOfPos ls p ≤ lineOfPos ls q := by
  intro ls
  induction ls with
  | nil => intro p q _; exact le_refl _
  | cons d tl ih =>
    intro p q hpq
    cases tl with
    | nil => exact le_refl _
    | cons e rest =>
      unfold lineOfPos
      by_cases hp : p < d.width
      · rw [if_pos hp]; exact Nat.zero_le _
      · rw [if_neg hp, if_neg (by omega)]
        have := ih (p - d.width) (q - d.width) (by omega)
        omega

/-- In a well-formed document, the line of the byte before position `p`: the line before the
line of `p` when `p` is the start of its line, the line of `p` otherwise. -/
theorem lineOfPos_pred :
    ∀ (ls : List DocLine), (∀ d ∈ ls.dropLast, 1 ≤ d.eolLen) → ∀ p : Nat, 1 ≤ p →
      (p = lineStartPos ls (lineOfPos ls p) →
        1 ≤ lineOfPos ls p ∧ lineOfPos ls (p - 1) = lineOfPos ls p - 1) ∧
      (p ≠ lineStartPos ls (lineOfPos ls p) → lineOfPos ls (p - 1) = lineOfPos ls p) := by
  intro ls
  induction ls with
  | nil =>
    intro _ p hp
    refine ⟨fun h => ?_, fun _ => rfl⟩
    have : lineOfPos [] p = 0 := rfl
    rw [this, lineStartPos_zero] at h
    omega
  | cons d tl ih =>
    intro hw p hp
    cases tl with
    | nil =>
      refine ⟨fun h => ?_, fun _ => rfl⟩
      have : lineOfPos [d] p = 0 := rfl
      rw [this, lineStartPos_zero] at h
      omega
    | cons e rest =>
      have h1 : 1 ≤ d.eolLen := hw d (by simp [List.dropLast])
      have hwd : 1 ≤ d.width := by unfold DocLine.width; omega
      have hw' : ∀ x ∈ (e :: rest).dropLast, 1 ≤ x.eolLen := by
        intro x hx
        exact hw x (by simp [List.dropLast] at hx ⊢; exact Or.inr hx)
      by_cases hlt : p < d.width
      · have e1 : lineOfPos (d :: e :: rest) p = 0 := by
          unfold lineOfPos; rw [if_pos hlt]
        have e2 : lineOfPos (d :: e :: rest) (p - 1) = 0 := by
          unfold lineOfPos; rw [if_pos (by omega)]
        rw [e1, e2, lineStartPos_zero]
        exact ⟨fun h => by omega, fun _ => rfl⟩
      · have e1 : lineOfPos (d :: e :: rest) p = lineOfPos (e :: rest) (p - d.width) + 1 := by
          conv_lhs => unfold lineOfPos
          rw [if_neg hlt]
        rw [e1, lineStartPos_cons_succ]
        by_cases heq : p = d.width
        · have z : lineOfPos (e :: rest) (p - d.width) = 0 := by
            rw [heq, Nat.sub_self]; exact lineOfPos_zero _ hw'
          have e2 : lineOfPos (d :: e :: rest) (p - 1) = 0 := by
            unfold lineOfPos; rw [if_pos (by omega)]
          rw [z, e2, lineStartPos_zero]
          exact ⟨fun _ => ⟨by omega, by omega⟩, fun h => absurd (by omega) h⟩
        · have e2 : lineOfPos (d :: e :: rest) (p - 1) =
              lineOfPos (e :: rest) (p - d.width - 1) + 1 := by
            conv_lhs => unfold lineOfPos
            rw [if_neg (by omega)]
            congr 2
            omega
          obtain ⟨i1, i2⟩ := ih hw' (p - d.width) (by omega)
          rw [e2]
          constructor
          · intro h
            obtain ⟨a1, a2⟩ := i1 (by omega)
            exact ⟨by omega, by omega⟩
          · intro h
            rw [i2 (by omega)]

theorem lineFromPosition_eq (ls : List DocLine) (hw : ∀ d ∈ ls.dropLast, 1 ≤ d.eolLen)
    (pos : Int) : lineFromPosition ls pos = lineOfPos ls pos.toNat := by
  unfold lineFromPosition
  by_cases h : pos ≤ 0
  · rw [if_pos h]
    have : pos.toNat = 0 := by omega
    rw [this, lineOfPos_zero ls hw]
    rfl
  · rw [if_neg h]

theorem getSelectionLines_fst (v : SciView) :
    (getSelectionLines v).1 =
      if v.selRectangle = true then (-1, -1)
      else if v.selections > 1 then (-1, -1)
      else if v.selEnd - v.selStart = 0 then (-1, -1)
      else (lineFromPosition v.lines v.selStart,
        if v.selEnd = positionFromLine v.lines v.selStart (lineFromPosition v.lines v.selEnd)
        then lineFromPosition v.lines v.selEnd - 1 else lineFromPosition v.lines v.selEnd) := by
  have hv : (isSelectionVertical v).1 = v.selRectangle := by
    show decide (v.reply .SCI_SELECTIONISRECTANGLE ≠ 0) = _
    cases h : v.selRectangle <;> simp [SciView.reply, h]
  unfold getSelectionLines
  simp only []
  rw [hv]
  have f1 : (isSelectionVertical v).2.lines = v.lines ∧
      (isSelectionVertical v).2.selStart = v.selStart ∧
      (isSelectionVertical v).2.selEnd = v.selEnd ∧
      (isSelectionVertical v).2.selections = v.selections := ⟨rfl, rfl, rfl, rfl⟩
  generalize (isSelectionVertical v).2 = x1 at f1 ⊢
  by_cases hR : v.selRectangle = true
  · rw [if_pos hR, if_pos hR]
  · rw [if_neg hR, if_neg hR]
    have hm : (isMultiSelection x1).1 = decide (v.selections > 1) := by
      show decide (x1.selections > 1) = _
      rw [f1.2.2.2]
    have f2 : (isMultiSelection x1).2.lines = v.lines ∧
        (isMultiSelection x1).2.selStart = v.selStart ∧
        (isMultiSelection x1).2.selEnd = v.selEnd := ⟨f1.1, f1.2.1, f1.2.2.1⟩
    rw [hm]
    generalize (isMultiSelection x1).2 = x2 at f2 ⊢
    by_cases hM : v.selections > 1
    · rw [if_pos hM, if_pos (decide_eq_true hM)]
    · rw [if_neg hM, if_neg (by simpa using hM)]
      have hs : (CallScintilla x2 .SCI_GETSELECTIONSTART).1 = v.selStart := f2.2.1
      have f3 : (CallScintilla x2 .SCI_GETSELECTIONSTART).2.lines = v.lines ∧
          (CallScintilla x2 .SCI_GETSELECTIONSTART).2.selStart = v.selStart ∧
          (CallScintilla x2 .SCI_GETSELECTIONSTART).2.selEnd = v.selEnd := f2
      rw [hs]
      generalize (CallScintilla x2 .SCI_GETSELECTIONSTART).2 = x3 at f3 ⊢
      have he : (CallScintilla x3 .SCI_GETSELECTIONEND).1 = v.selEnd := f3.2.2
      have f4 : (CallScintilla x3 .SCI_GETSELECTIONEND).2.lines = v.lines ∧
          (CallScintilla x3 .SCI_GETSELECTIONEND).2.selStart = v.selStart := ⟨f3.1, f3.2.1⟩
      rw [he]
      generalize (CallScintilla x3 .SCI_GETSELECTIONEND).2 = x4 at f4 ⊢
      by_cases hZ : v.selEnd - v.selStart = 0
      · rw [if_pos hZ, if_pos hZ]
      · rw [if_neg hZ, if_neg hZ]
        have hsl : (CallScintilla x4 (.SCI_LINEFROMPOSITION v.selStart)).1 =
            lineFromPosition v.lines v.selStart := by
          show lineFromPosition x4.lines _ = _
          rw [f4.1]
        have f5 : (CallScintilla x4 (.SCI_LINEFROMPOSITION v.selStart)).2.lines = v.lines ∧
            (CallScintilla x4 (.SCI_LINEFROMPOSITION v.selStart)).2.selStart = v.selStart := f4
        rw [hsl]
        generalize (CallScintilla x4 (.SCI_LINEFROMPOSITION v.selStart)).2 = x5 at f5 ⊢
        have hel : (CallScintilla x5 (.SCI_LINEFROMPOSITION v.selEnd)).1 =
            lineFromPosition v.lines v.selEnd := by
          show lineFromPosition x5.lines _ = _
          rw [f5.1]
        have f6 : (CallScintilla x5 (.SCI_LINEFROMPOSITION v.selEnd)).2.lines = v.lines ∧
            (CallScintilla x5 (.SCI_LINEFROMPOSITION v.selEnd)).2.selStart = v.selStart := f5
        rw [hel]
        generalize (CallScintilla x5 (.SCI_LINEFROMPOSITION v.selEnd)).2 = x6 at f6 ⊢
        rw [getLineStart_fst, f6.1, f6.2]

theorem getSelectionLines_nonempty (v : SciView) (hwf : wellFormedDoc v.lines)
    (hrect : v.selRectangle = false) (hmulti : v.selections ≤ 1) (h0 : 0 ≤ v.selStart)
    (hlt : v.selStart < v.selEnd) :
    (getSelectionLines v).1 =
        (lineFromPosition v.lines v.selStart, lineFromPosition v.lines (v.selEnd - 1)) ∧
      lineFromPosition v.lines v.selStart ≤ lineFromPosition v.lines (v.selEnd - 1) := by
  obtain ⟨hne, hw⟩ := hwf
  rw [getSelectionLines_fst, if_neg (by simp [hrect]), if_neg (by omega), if_neg (by omega)]
  rw [lineFromPosition_eq _ hw v.selEnd, lineFromPosition_eq _ hw v.selStart,
    lineFromPosition_eq _ hw (v.selEnd - 1)]
  have hL := lineOfPos_lt_length v.lines v.selEnd.toNat hne
  have hpos : positionFromLine v.lines v.selStart (lineOfPos v.lines v.selEnd.toNat : Int) =
      lineStartPos v.lines (lineOfPos v.lines v.selEnd.toNat) := by
    rw [positionFromLine_of_nonneg _ _ _ (by omega) (by omega)]
    simp
  rw [hpos]
  have hpred : (v.selEnd - 1).toNat = v.selEnd.toNat - 1 := by omega
  rw [hpred]
  obtain ⟨b1, b2⟩ := lineOfPos_pred v.lines hw v.selEnd.toNat (by omega)
  have hmono := lineOfPos_mono v.lines v.selStart.toNat (v.selEnd.toNat - 1) (by omega)
  refine ⟨?_, by exact_mod_cast hmono⟩
  by_cases hst : v.selEnd.toNat = lineStartPos v.lines (lineOfPos v.lines v.selEnd.toNat)
  · obtain ⟨c1, c2⟩ := b1 hst
    have hc : v.selEnd = (lineStartPos v.lines (lineOfPos v.lines v.selEnd.toNat) : Int) := by
      omega
    rw [if_pos hc, c2]
    congr 1
    omega
  · have hc : ¬ v.selEnd = (lineStartPos v.lines (lineOfPos v.lines v.selEnd.toNat) : Int) := by
      omega
    rw [if_neg hc, b2 hst]

/-! ### The two views -/

theorem getView_setView (h : Npp) (view : Int) (s : SciView) :
    (h.setView view s).getView view = s := by
  unfold Npp.setView Npp.getView
  split <;> rfl

theorem setView_getView (h : Npp) (view : Int) : h.setView view (h.getView view) = h := by
  unfold Npp.setView Npp.getView
  split <;> rfl

theorem setView_setView (h : Npp) (view : Int) (s t : SciView) :
    (h.setView view s).setView view t = h.setView view t := by
  unfold Npp.setView
  split <;> rfl

theorem onView_fst {α : Type} (h : Npp) (view : Int) (f : SciView → α × SciView) :
    (h.onView view f).1 = (f (h.getView view)).1 := rfl

theorem onView_snd {α : Type} (h : Npp) (view : Int) (f : SciView → α × SciView) :
    (h.onView view f).2 = h.setView view (f (h.getView view)).2 := rfl

/-! ### Marker masks -/

/-! ### Markers: `clearMarks`, `clearWindow` -/

theorem testBit_mask_all_blank (i : Nat) :
    (MARKER_MASK_ALL ||| MARKER_MASK_BLANK).testBit i = decide (i < 15) := by
  rw [mask_all_blank, Nat.testBit_two_pow_sub_one]

theorem testBit_mask_all (i : Nat) :
    MARKER_MASK_ALL.testBit i = (decide (i < 15) && !decide (i = 4)) := by
  have h : MARKER_MASK_ALL = 32751 := by decide
  rw [h]
  by_cases hi : i < 15
  · interval_cases i <;> decide
  · have : (32751 : Nat) < 2 ^ i := by
      calc (32751 : Nat) < 2 ^ 15 := by norm_num
        _ ≤ 2 ^ i := Nat.pow_le_pow_right (by norm_num) (by omega)
    rw [Nat.testBit_lt_two_pow this]
    simp [hi]

theorem testBit_mask_blank (i : Nat) : MARKER_MASK_BLANK.testBit i = decide (i = 4) := by
  have h : MARKER_MASK_BLANK = 2 ^ 4 := by decide
  rw [h, Nat.testBit_two_pow]
  by_cases hi : i = 4
  · simp [hi]
  · have : ¬ 4 = i := fun e => hi e.symm
    simp [hi, this]

theorem markersAt_eq_zero_of_not_range (ls : List DocLine) (j : Int)
    (h : ¬ (0 ≤ j ∧ j < ls.length)) : markersAt ls j = 0 := by
  by_cases hneg : j < 0
  · exact markersAt_of_neg _ _ hneg
  · exact markersAt_of_length_le _ _ (by omega)

theorem markerDelete_sent_fold (line : Int) :
    ∀ (ks : List Nat) (v : SciView),
      (ks.foldl (fun s mk => (CallScintilla s (.SCI_MARKERDELETE line mk)).2) v).sent.length =
        v.sent.length + ks.length := by
  intro ks
  induction ks with
  | nil => intro v; rfl
  | cons k ks ih =>
    intro v
    show (ks.foldl (fun s mk => (CallScintilla s (.SCI_MARKERDELETE line mk)).2)
        (CallScintilla v (.SCI_MARKERDELETE line k)).2).sent.length = _
    rw [ih]
    show (v.sent ++ [SciMsg.SCI_MARKERDELETE line k]).length + ks.length = _
    simp only [List.length_append, List.length_cons, List.length_nil]
    omega

theorem clearMarks_sent_length (v : SciView) (line : Int) :
    (clearMarks v line).sent.length = v.sent.length + 15 :=
  markerDelete_sent_fold line clearMarksOrder v

theorem CallScintilla_sent_length (v : SciView) (msg : SciMsg) :
    (CallScintilla v msg).2.sent.length = v.sent.length + 1 := by
  show (v.sent ++ [msg]).length = _
  simp

/-! ### Hiding lines -/

theorem hide_hidden (x : SciView) (a b l : Int) :
    (CallScintilla x (.SCI_HIDELINES a b)).2.hidden l =
      if a ≤ l ∧ l ≤ b ∧ 1 ≤ l ∧ l < x.lineCount then true else x.hidden l := rfl

theorem hide_lines (x : SciView) (a b : Int) :
    (CallScintilla x (.SCI_HIDELINES a b)).2.lines = x.lines := rfl

theorem show_hidden (x : SciView) (a b l : Int) :
    (CallScintilla x (.SCI_SHOWLINES a b)).2.hidden l =
      if a ≤ l ∧ l ≤ b then false else x.hidden l := rfl

theorem CallScintilla_sent (x : SciView) (msg : SciMsg) :
    (CallScintilla x msg).2.sent = x.sent ++ [msg] := rfl

theorem hideRequests_append (a b : List SciMsg) :
    hideRequests (a ++ b) = hideRequests a ++ hideRequests b := by
  unfold hideRequests
  rw [List.filterMap_append]

theorem isLineMarked_sent (v : SciView) (l : Int) (mask : Nat) :
    (isLineMarked v l mask).2.sent = v.sent ++ [.SCI_MARKERGET l] := rfl

theorem isLineMarked_hidden (v : SciView) (l : Int) (mask : Nat) :
    (isLineMarked v l mask).2.hidden = v.hidden := rfl

theorem markerNextFrom_spec (ls : List DocLine) (mask : Nat) :
    ∀ (k : Nat) (line : Int),
      (markerNextFrom ls mask k line = -1 ∧
        ∀ j, line ≤ j → j < line + k → (markersAt ls j &&& mask) = 0) ∨
      (line ≤ markerNextFrom ls mask k line ∧ markerNextFrom ls mask k line < line + k ∧
        (markersAt ls (markerNextFrom ls mask k line) &&& mask) ≠ 0 ∧
        ∀ j, line ≤ j → j < markerNextFrom ls mask k line → (markersAt ls j &&& mask) = 0) := by
  intro k
  induction k with
  | zero =>
    intro line
    left
    exact ⟨rfl, fun j h1 h2 => by simp at h2; omega⟩
  | succ k ih =>
    intro line
    unfold markerNextFrom
    by_cases hm : (markersAt ls line &&& mask) ≠ 0
    · rw [if_pos hm]
      right
      exact ⟨le_refl _, by push_cast; omega, hm, fun j h1 h2 => by omega⟩
    · rw [if_neg hm]
      rcases ih (line + 1) with ⟨e, hall⟩ | ⟨h1, h2, h3, h4⟩
      · left
        refine ⟨e, fun j hj1 hj2 => ?_⟩
        by_cases hj : j = line
        · rw [hj]; exact not_not.mp hm
        · exact hall j (by omega) (by push_cast at hj2; omega)
      · right
        refine ⟨by omega, by push_cast; omega, h3, fun j hj1 hj2 => ?_⟩
        by_cases hj : j = line
        · rw [hj]; exact not_not.mp hm
        · exact h4 j (by omega) hj2

theorem markerNext_spec (ls : List DocLine) (u : Int) (mask : Nat) (hu : 0 ≤ u) :
    (markerNext ls u mask = -1 ∧ ∀ j, u ≤ j → (markersAt ls j &&& mask) = 0) ∨
    (u ≤ markerNext ls u mask ∧ markerNext ls u mask < ls.length ∧
      (markersAt ls (markerNext ls u mask) &&& mask) ≠ 0 ∧
      ∀ j, u ≤ j → j < markerNext ls u mask → (markersAt ls j &&& mask) = 0) := by
  unfold markerNext
  have hmax : max u 0 = u := max_eq_left hu
  rw [hmax]
  rcases markerNextFrom_spec ls mask ((ls.length : Int) - u).toNat u with
    ⟨e, hall⟩ | ⟨h1, h2, h3, h4⟩
  · left
    refine ⟨e, fun j hj => ?_⟩
    by_cases hlen : j < ls.length
    · exact hall j hj (by omega)
    · rw [markersAt_of_length_le _ _ (by omega)]; simp
  · right
    refine ⟨h1, ?_, h3, h4⟩
    by_contra hc
    apply h3
    rw [markersAt_of_length_le _ _ (by omega)]; simp

theorem hideUnmarkedSkip_spec (mask : Nat) (c : Int) :
    ∀ (fuel : Nat) (n : Int) (v : SciView), (c - n).toNat < fuel →
      ∃ u v' msgs, hideUnmarkedSkip mask c fuel n v = some (u, v') ∧
        v'.lines = v.lines ∧ v'.hidden = v.hidden ∧ v'.sent = v.sent ++ msgs ∧
        hideRequests msgs = [] ∧ n ≤ u ∧ (n ≤ c → u ≤ c) ∧
        (∀ j, n ≤ j → j < u → (markersAt v.lines j &&& mask) ≠ 0) ∧
        (u < c → (markersAt v.lines u &&& mask) = 0) := by
  intro fuel
  induction fuel with
  | zero => intro n v h; omega
  | succ fuel ih =>
    intro n v hf
    unfold hideUnmarkedSkip
    by_cases hn : n < c
    · simp only [hn, if_true]
      by_cases hm : (markersAt v.lines n &&& mask) ≠ 0
      · have h1 : (isLineMarked v n mask).1 = true := by
          rw [isLineMarked_fst]; exact decide_eq_true hm
        simp only [h1, if_true]
        obtain ⟨u, v', msgs, e, hl, hh, hs, hr, hle, hc, hall, hun⟩ :=
          ih (n + 1) (isLineMarked v n mask).2 (by omega)
        rw [isLineMarked_lines] at hl hall hun
        refine ⟨u, v', .SCI_MARKERGET n :: msgs, e, hl, by rw [hh, isLineMarked_hidden], ?_, ?_,
          by omega, fun _ => hc (by omega), ?_, hun⟩
        · rw [hs, isLineMarked_sent]; simp
        · have : hideRequests (SciMsg.SCI_MARKERGET n :: msgs) = hideRequests msgs := by
            simp [hideRequests]
          rw [this, hr]
        · intro j hj1 hj2
          by_cases hj : j = n
          · rw [hj]; exact hm
          · exact hall j (by omega) hj2
      · have h1 : (isLineMarked v n mask).1 = false := by
          rw [isLineMarked_fst]; exact decide_eq_false hm
        simp only [h1]
        refine ⟨n, _, [.SCI_MARKERGET n], rfl, isLineMarked_lines v n mask,
          isLineMarked_hidden v n mask, isLineMarked_sent v n mask, by simp [hideRequests],
          le_refl _, fun h => h, fun j h1 h2 => by omega, fun _ => not_not.mp hm⟩
    · simp only [hn, if_false]
      exact ⟨n, v, [], rfl, rfl, rfl, by simp, by simp [hideRequests], le_refl _, fun h => h,
        fun j h1 h2 => by omega, fun h => absurd h hn⟩

theorem hideUnmarkedLoop_spec (mask : Nat) (L : List DocLine) :
    ∀ (fuel : Nat) (n : Int) (v : SciView), 1 ≤ n → ((L.length : Int) - n).toNat < fuel →
      v.lines = L →
      ∃ v' msgs, hideUnmarkedLoop mask L.length fuel n v = some v' ∧ v'.lines = L ∧
        v'.sent = v.sent ++ msgs ∧
        (∀ p ∈ hideRequests msgs, n ≤ p.1 ∧ p.2 < (L.length : Int) ∧
          ∀ l, p.1 ≤ l → l ≤ p.2 → (markersAt L l &&& mask) = 0) ∧
        (∀ l, n ≤ l → l < (L.length : Int) → (markersAt L l &&& mask) = 0 →
          ∃ p ∈ hideRequests msgs, p.1 ≤ l ∧ l ≤ p.2) ∧
        (∀ l, v'.hidden l =
          (v.hidden l || decide (n ≤ l ∧ l < (L.length : Int) ∧ (markersAt L l &&& mask) = 0))) := by
  intro fuel
  induction fuel with
  | zero => intro n v _ h; omega
  | succ fuel ih =>
    intro n v hn1 hf hL
    unfold hideUnmarkedLoop
    by_cases hn : n < (L.length : Int)
    · obtain ⟨u, v1, m1, e1, hl1, hh1, hs1, hr1, hnu, huc, hall, hun⟩ :=
        hideUnmarkedSkip_spec mask L.length (((L.length : Int) - n).toNat + 1) n v (by omega)
      rw [hL] at hl1 hall hun
      simp only [hn, if_true, e1]
      by_cases hu : u = (L.length : Int)
      · rw [if_pos hu]
        refine ⟨v1, m1, rfl, hl1, hs1, ?_, ?_, ?_⟩
        · intro p hp; rw [hr1] at hp; simp at hp
        · intro l h1 h2 h3
          exact absurd h3 (hall l h1 (by omega))
        · intro l
          rw [hh1]
          have : ¬ (n ≤ l ∧ l < (L.length : Int) ∧ (markersAt L l &&& mask) = 0) :=
            fun h => hall l h.1 (by omega) h.2.2
          simp [this]
      · rw [if_neg hu]
        have huc' : u < (L.length : Int) := by have := huc (by omega); omega
        have hunm := hun huc'
        have hnext : (CallScintilla v1 (.SCI_MARKERNEXT u mask)).1 = markerNext L u mask := by
          show markerNext v1.lines u mask = _
          rw [hl1]
        rw [hnext]
        -- the next marked line, or the line count
        obtain ⟨nm, hnmdef, hnm1, hnm2, hnm3⟩ : ∃ nm : Int,
            (if markerNext L u mask < 0 then (L.length : Int) else markerNext L u mask) = nm ∧
            u < nm ∧ nm ≤ (L.length : Int) ∧
            ∀ j, u ≤ j → j < nm → (markersAt L j &&& mask) = 0 := by
          rcases markerNext_spec L u mask (by omega) with ⟨e, ha⟩ | ⟨a1, a2, a3, a4⟩
          · refine ⟨L.length, by rw [e]; simp, huc', le_refl _, fun j h1 _ => ha j h1⟩
          · have hne : markerNext L u mask ≠ u := by
              intro h; rw [h] at a3; exact a3 hunm
            refine ⟨markerNext L u mask, by rw [if_neg (by omega)], by omega, by omega, a4⟩
        rw [hnmdef]
        generalize hv2 : (CallScintilla (CallScintilla v1 (.SCI_MARKERNEXT u mask)).2
          (.SCI_HIDELINES u (nm - 1))).2 = v2
        have hl2 : v2.lines = L := by rw [← hv2]; exact hl1
        have hs2 : v2.sent = v.sent ++
            (m1 ++ [.SCI_MARKERNEXT u mask, .SCI_HIDELINES u (nm - 1)]) := by
          rw [← hv2, CallScintilla_sent, CallScintilla_sent, hs1]
          simp
        have hh2 : ∀ l, v2.hidden l =
            if u ≤ l ∧ l ≤ nm - 1 ∧ 1 ≤ l ∧ l < (L.length : Int) then true else v.hidden l := by
          intro l
          rw [← hv2, hide_hidden]
          have hc : (CallScintilla v1 (.SCI_MARKERNEXT u mask)).2.lineCount = (L.length : Int) := by
            show ((v1.lines.length : Nat) : Int) = _
            rw [hl1]
          have hh : (CallScintilla v1 (.SCI_MARKERNEXT u mask)).2.hidden l = v.hidden l := by
            show v1.hidden l = _
            rw [hh1]
          rw [hc, hh]
        obtain ⟨v', m2, e2, hl', hs', hreq, hcov, hhid⟩ := ih nm v2 (by omega) (by omega) hl2
        refine ⟨v', m1 ++ [.SCI_MARKERNEXT u mask, .SCI_HIDELINES u (nm - 1)] ++ m2, e2, hl',
          by rw [hs', hs2]; simp, ?_, ?_, ?_⟩
        · intro p hp
          rw [hideRequests_append, hideRequests_append, hr1] at hp
          have hmid : hideRequests [SciMsg.SCI_MARKERNEXT u mask, .SCI_HIDELINES u (nm - 1)] =
              [(u, nm - 1)] := by simp [hideRequests]
          rw [hmid] at hp
          simp only [List.nil_append, List.singleton_append, List.mem_cons] at hp
          rcases hp with hp | hp
          · rw [hp]
            exact ⟨hnu, by simp only; omega, fun l h1 h2 => hnm3 l h1 (by simp only at h2; omega)⟩
          · obtain ⟨r1, r2, r3⟩ := hreq p hp
            exact ⟨by omega, r2, r3⟩
        · intro l h1 h2 h3
          rw [hideRequests_append, hideRequests_append, hr1]
          have hmid : hideRequests [SciMsg.SCI_MARKERNEXT u mask, .SCI_HIDELINES u (nm - 1)] =
              [(u, nm - 1)] := by simp [hideRequests]
          rw [hmid]
          by_cases hlu : l < u
          · exact absurd h3 (hall l h1 hlu)
          · by_cases hlnm : l < nm
            · exact ⟨(u, nm - 1), by simp, by simp only; omega, by simp only; omega⟩
            · obtain ⟨p, hp, hp1, hp2⟩ := hcov l (by omega) h2 h3
              exact ⟨p, by simp [hp], hp1, hp2⟩
        · intro l
          rw [hhid l, hh2 l]
          by_cases hlu : l < u
          · have c1 : ¬ (u ≤ l ∧ l ≤ nm - 1 ∧ 1 ≤ l ∧ l < (L.length : Int)) := by omega
            have c2 : ¬ (nm ≤ l ∧ l < (L.length : Int) ∧ (markersAt L l &&& mask) = 0) := by
              intro h; omega
            have c3 : ¬ (n ≤ l ∧ l < (L.length : Int) ∧ (markersAt L l &&& mask) = 0) :=
              fun h => hall l h.1 hlu h.2.2
            simp [c1, c2, c3]
          · by_cases hlnm : l < nm
            · have c1 : u ≤ l ∧ l ≤ nm - 1 ∧ 1 ≤ l ∧ l < (L.length : Int) := by omega
              have c3 : n ≤ l ∧ l < (L.length : Int) ∧ (markersAt L l &&& mask) = 0 :=
                ⟨by omega, by omega, hnm3 l (by omega) hlnm⟩
              simp [c1, c3]
            · have c1 : ¬ (u ≤ l ∧ l ≤ nm - 1 ∧ 1 ≤ l ∧ l < (L.length : Int)) := by omega
              have c4 : (nm ≤ l ∧ l < (L.length : Int) ∧ (markersAt L l &&& mask) = 0) ↔
                  (n ≤ l ∧ l < (L.length : Int) ∧ (markersAt L l &&& mask) = 0) := by
                constructor
                · intro h; exact ⟨by omega, h.2⟩
                · intro h; exact ⟨by omega, h.2⟩
              simp [c1, c4]
    · simp only [hn, if_false]
      refine ⟨v, [], rfl, hL, by simp, ?_, ?_, ?_⟩
      · intro p hp; simp [hideRequests] at hp
      · intro l h1 h2; omega
      · intro l
        have : ¬ (n ≤ l ∧ l < (L.length : Int) ∧ (markersAt L l &&& mask) = 0) := by
          intro h; omega
        simp [this]

theorem hideUnmarked_spec (v : SciView) (mask : Nat) :
    ∃ v' msgs, hideUnmarked v mask = some v' ∧ v'.lines = v.lines ∧
      v'.sent = v.sent ++ msgs ∧
      (∀ p ∈ hideRequests msgs, 1 ≤ p.1 ∧ p.2 < v.lineCount ∧
        ∀ l, p.1 ≤ l → l ≤ p.2 → (markersAt v.lines l &&& mask) = 0) ∧
      (∀ l, 1 ≤ l → l < v.lineCount → (markersAt v.lines l &&& mask) = 0 →
        ∃ p ∈ hideRequests msgs, p.1 ≤ l ∧ l ≤ p.2) ∧
      (∀ l, v'.hidden l =
        (v.hidden l || decide (1 ≤ l ∧ l < v.lineCount ∧ (markersAt v.lines l &&& mask) = 0))) := by
  have hc : (CallScintilla v .SCI_GETLINECOUNT).1 = (v.lines.length : Int) := rfl
  obtain ⟨v', msgs, e, hl, hs, h1, h2, h3⟩ := hideUnmarkedLoop_spec mask v.lines
    ((v.lines.length : Int).toNat + 1) 1 (CallScintilla v .SCI_GETLINECOUNT).2 (le_refl _)
    (by omega) rfl
  refine ⟨v', .SCI_GETLINECOUNT :: msgs, ?_, hl, ?_, ?_, ?_, ?_⟩
  · unfold hideUnmarked
    simp only [hc]
    exact e
  · rw [hs, CallScintilla_sent]; simp
  · intro p hp
    have : hideRequests (SciMsg.SCI_GETLINECOUNT :: msgs) = hideRequests msgs := by
      simp [hideRequests]
    rw [this] at hp
    exact h1 p hp
  · intro l a b c
    have : hideRequests (SciMsg.SCI_GETLINECOUNT :: msgs) = hideRequests msgs := by
      simp [hideRequests]
    rw [this]
    exact h2 l a b c
  · intro l
    rw [h3 l]
    rfl

theorem CallScintilla_lineCount_hide (x : SciView) (a b : Int) :
    (CallScintilla x (.SCI_HIDELINES a b)).2.lineCount = x.lineCount := rfl

theorem CallScintilla_lineCount_get (x : SciView) :
    (CallScintilla x .SCI_GETLINECOUNT).2.lineCount = x.lineCount := rfl

theorem CallScintilla_hidden_get (x : SciView) :
    (CallScintilla x .SCI_GETLINECOUNT).2.hidden = x.hidden := rfl

theorem hideOutsideRange_hidden (v : SciView) (s e l : Int) :
    (hideOutsideRange v s e).hidden l =
      if (s ≥ 0 ∧ (e > s ∧ e < v.lineCount)) ∧ s ≤ l ∧ l ≤ e then false
      else if (e > 0 ∧ e + 1 < v.lineCount) ∧ e + 1 ≤ l ∧ l ≤ v.lineCount - 1 ∧ 1 ≤ l ∧
          l < v.lineCount then true
      else if s > 1 ∧ 1 ≤ l ∧ l ≤ s - 1 ∧ 1 ≤ l ∧ l < v.lineCount then true
      else v.hidden l := by
  have hc : (CallScintilla v .SCI_GETLINECOUNT).1 = v.lineCount := rfl
  unfold hideOutsideRange
  simp only [hc]
  by_cases c1 : s > 1 <;> by_cases c2 : (e > 0 ∧ e + 1 < v.lineCount) <;>
    by_cases c3 : (s ≥ 0 ∧ (e > s ∧ e < v.lineCount)) <;>
    simp only [c1, c2, c3, if_true, if_false, show_hidden, hide_hidden,
      CallScintilla_lineCount_hide, CallScintilla_lineCount_get, CallScintilla_hidden_get,
      true_and, false_and]

theorem TOOLBARCLASSNAME_length : TOOLBARCLASSNAME.length = 15 := by decide

theorem GetClassName_eq_toolbar (w : Window) :
    GetClassName w 64 = TOOLBARCLASSNAME ↔ w.className = TOOLBARCLASSNAME := by
  unfold GetClassName
  constructor
  · intro h
    have hl := congrArg List.length h
    rw [List.length_take, TOOLBARCLASSNAME_length] at hl
    have hlen : w.className.length ≤ 64 - 1 := by omega
    rw [List.take_of_length_le hlen] at h
    exact h
  · intro h
    rw [h]
    apply List.take_of_length_le
    rw [TOOLBARCLASSNAME_length]
    decide

theorem enumWindowsWalk_enumWindowsCB (ws : List Window) (s : Nat) :
    enumWindowsWalk NppToolbarHandleGetter.enumWindowsCB ws s =
      ((ws.find? (fun w => decide (w.className = TOOLBARCLASSNAME))).map Window.hwnd).getD s := by
  induction ws generalizing s with
  | nil => rfl
  | cons w ws ih =>
    unfold enumWindowsWalk
    by_cases h : w.className = TOOLBARCLASSNAME
    · have hg : GetClassName w 64 = TOOLBARCLASSNAME := (GetClassName_eq_toolbar w).2 h
      simp only [NppToolbarHandleGetter.enumWindowsCB, hg, if_true, List.find?_cons, h,
        decide_True, Option.map_some', Option.getD_some, Bool.false_eq_true, if_false]
    · have hg : ¬ GetClassName w 64 = TOOLBARCLASSNAME :=
        fun hh => h ((GetClassName_eq_toolbar w).1 hh)
      simp only [NppToolbarHandleGetter.enumWindowsCB, hg, if_false, List.find?_cons, h,
        decide_False, if_true]
      exact ih s

/-! ### The blank colour -/

theorem or_shift_channels (r g b : Nat) (hr : r < 256) (hg : g < 256) :
    r ||| (g <<< 8) ||| (b <<< 16) = r + g * 256 + b * 65536 := by
  have h1 : r ||| (g <<< 8) = r + g * 256 := by
    rw [Nat.shiftLeft_eq, Nat.or_comm, Nat.mul_comm g (2 ^ 8),
      ← Nat.mul_add_lt_is_or (show r < 2 ^ 8 from hr) g]
    omega
  have h2 : r + g * 256 < 2 ^ 16 := by
    show r + g * 256 < 65536
    omega
  rw [h1, Nat.shiftLeft_eq, Nat.or_comm, Nat.mul_comm b (2 ^ 16),
    ← Nat.mul_add_lt_is_or h2 b]
  omega

theorem and_0xFF (x : Nat) : x &&& 0xFF = x % 256 :=
  Nat.and_pow_two_sub_one_eq_mod x 8

theorem shifted_channel (x : Nat) :
    (if x % 256 > 20 then (x % 256 - 20) % 256 else 0) = x % 256 - 20 := by
  have hx : x % 256 < 256 := Nat.mod_lt _ (by decide)
  split
  · omega
  · omega

theorem blankColorOf_eq (bg : Nat) :
    blankColorOf bg =
      (bg % 256 - 20) + (bg / 256 % 256 - 20) * 256 + (bg / 65536 % 256 - 20) * 65536 := by
  have hr : bg % 256 < 256 := Nat.mod_lt _ (by decide)
  have hg : bg / 256 % 256 < 256 := Nat.mod_lt _ (by decide)
  have h8 : bg >>> 8 = bg / 256 := Nat.shiftRight_eq_div_pow bg 8
  have h16 : bg >>> 16 = bg / 65536 := Nat.shiftRight_eq_div_pow bg 16
  unfold blankColorOf
  simp only [and_0xFF, h8, h16, shifted_channel]
  exact or_shift_channels (bg % 256 - 20) (bg / 256 % 256 - 20) (bg / 65536 % 256 - 20)
    (by omega) (by omega)

theorem blankColorOf_channels (bg : Nat) :
    blankColorOf bg % 256 = bg % 256 - 20 ∧
    blankColorOf bg / 256 % 256 = bg / 256 % 256 - 20 ∧
    blankColorOf bg / 65536 % 256 = bg / 65536 % 256 - 20 ∧
    blankColorOf bg < 2 ^ 24 := by
  rw [blankColorOf_eq]
  have hr : bg % 256 < 256 := Nat.mod_lt _ (by decide)
  have hg : bg / 256 % 256 < 256 := Nat.mod_lt _ (by decide)
  have hb : bg / 65536 % 256 < 256 := Nat.mod_lt _ (by decide)
  generalize bg % 256 = r at hr ⊢
  generalize bg / 256 % 256 = g at hg ⊢
  generalize bg / 65536 % 256 = b at hb ⊢
  refine ⟨by omega, by omega, by omega, ?_⟩
  show _ < 16777216
  omega

theorem setBlanksStyle_ne_none (st : Statics) (h : Npp) (view : Int) (c : Int)
    (hv : validIndex view) : setBlanksStyle st h view c ≠ none := by
  unfold setBlanksStyle
  rw [if_pos hv]
  exact fun hh => Option.noConfusion hh

theorem setStyles_settings (st : Statics) (h : Npp) (settings : ColorSettings) :
    ∃ st' h', setStyles st h settings =
      some ({ settings with _default := h.editorDefaultBackground,
                            blank := blankColorOf h.editorDefaultBackground }, st', h') := by
  unfold setStyles
  simp only []
  split
  · rename_i heq
    exact absurd heq (setBlanksStyle_ne_none _ _ _ _ (Or.inl rfl))
  · split
    · rename_i heq
      exact absurd heq (setBlanksStyle_ne_none _ _ _ _ (Or.inr rfl))
    · exact ⟨_, _, rfl⟩

/-! ### Annotations -/

theorem cString_append_nul (l : List Nat) (h : ∀ c ∈ l, c ≠ 0) : cString (l ++ [0]) = l := by
  unfold cString
  induction l with
  | nil => simp
  | cons a l ih =>
    have ha : a ≠ 0 := h a (List.mem_cons_self _ _)
    have hl : ∀ c ∈ l, c ≠ 0 := fun c hc => h c (List.mem_cons_of_mem _ hc)
    rw [List.cons_append, List.takeWhile_cons]
    simp only [ha, ne_eq, not_false_eq_true, decide_True, if_true]
    rw [ih hl]

theorem cString_ne_nul (t : List Nat) : ∀ c ∈ cString t, c ≠ 0 := by
  intro c hc
  unfold cString at hc
  have := List.mem_takeWhile_imp hc
  simpa using this

theorem replicate_newline_ne_nul (n : Nat) : ∀ c ∈ List.replicate n 10, c ≠ 0 := by
  intro c hc
  rw [List.eq_of_mem_replicate hc]
  decide

theorem CallScintilla_annotation_set (x : SciView) (line : Int) (text : Option (List Nat))
    (h : 0 ≤ line ∧ line < x.lineCount) :
    SciView.annotation (CallScintilla x (.SCI_ANNOTATIONSETTEXT line text)).2 line =
      text.map cString := by
  show SciView.annotation (x.exec (.SCI_ANNOTATIONSETTEXT line text)) line = _
  unfold SciView.exec
  simp only [h, and_self, if_true]

theorem getPreviousUnhiddenLine_fst (v : SciView) (line : Int) :
    (getPreviousUnhiddenLine v line).1 =
      v.docLineFromVisible (v.visibleFromDocLine line - 1) := rfl

theorem getPreviousUnhiddenLine_sent (v : SciView) (line : Int) :
    (getPreviousUnhiddenLine v line).2.sent =
      v.sent ++ [.SCI_VISIBLEFROMDOCLINE line,
        .SCI_DOCLINEFROMVISIBLE (v.visibleFromDocLine line - 1)] := by
  show (v.sent ++ [_]) ++ [_] = _
  rw [List.append_assoc]
  rfl

theorem getPreviousUnhiddenLine_lineCount (v : SciView) (line : Int) :
    (getPreviousUnhiddenLine v line).2.lineCount = v.lineCount := rfl

/-- The annotation request of `addBlankSection` with the buffer `buf` (before its NUL). -/
theorem annotate_spec (v : SciView) (line : Int) (buf : List Nat)
    (hbuf : ∀ c ∈ buf, c ≠ 0) :
    (CallScintilla (getPreviousUnhiddenLine v line).2
        (.SCI_ANNOTATIONSETTEXT (getPreviousUnhiddenLine v line).1 (some (buf ++ [0])))).2.sent =
      v.sent ++ [.SCI_VISIBLEFROMDOCLINE line,
        .SCI_DOCLINEFROMVISIBLE (v.visibleFromDocLine line - 1),
        .SCI_ANNOTATIONSETTEXT (v.docLineFromVisible (v.visibleFromDocLine line - 1))
          (some (buf ++ [0]))] ∧
    (0 ≤ v.docLineFromVisible (v.visibleFromDocLine line - 1) →
      v.docLineFromVisible (v.visibleFromDocLine line - 1) < v.lineCount →
      SciView.annotation (CallScintilla (getPreviousUnhiddenLine v line).2
        (.SCI_ANNOTATIONSETTEXT (getPreviousUnhiddenLine v line).1
          (some (buf ++ [0])))).2
        (v.docLineFromVisible (v.visibleFromDocLine line - 1)) = some buf) := by
  constructor
  · rw [CallScintilla_sent, getPreviousUnhiddenLine_sent, getPreviousUnhiddenLine_fst,
      List.append_assoc]
    rfl
  · intro h0 h1
    rw [getPreviousUnhiddenLine_fst, CallScintilla_annotation_set _ _ _
      (by rw [getPreviousUnhiddenLine_lineCount]; exact ⟨h0, h1⟩)]
    show some (cString (buf ++ [0])) = some buf
    rw [cString_append_nul buf hbuf]

/-! ### View modes -/

theorem Npp_CallScintilla_fst (h : Npp) (view : Int) (msg : SciMsg) :
    (h.CallScintilla view msg).1 = (h.getView view).reply msg := rfl

theorem Npp_CallScintilla_getView (h : Npp) (view : Int) (msg : SciMsg) :
    (h.CallScintilla view msg).2.getView view = (CallScintilla (h.getView view) msg).2 := by
  unfold Npp.CallScintilla
  rw [onView_snd, getView_setView]

theorem Npp_keep (h : Npp) (view : Int) (msg : SciMsg)
    (hk : ∀ x : SciView, (CallScintilla x msg).2.endAtLastLine = x.endAtLastLine) :
    ((h.CallScintilla view msg).2.getView view).endAtLastLine =
      (h.getView view).endAtLastLine := by
  rw [Npp_CallScintilla_getView, hk]

theorem Npp_setEndAtLastLine (h : Npp) (view : Int) (b : Bool) :
    ((h.CallScintilla view (.SCI_SETENDATLASTLINE b)).2.getView view).endAtLastLine = b := by
  rw [Npp_CallScintilla_getView]
  rfl

theorem Npp_getEndAtLastLine (h : Npp) (view : Int) :
    decide ((h.CallScintilla view .SCI_GETENDATLASTLINE).1 ≠ 0) =
      (h.getView view).endAtLastLine := by
  rw [Npp_CallScintilla_fst]
  show decide ((if (h.getView view).endAtLastLine then (1 : Int) else 0) ≠ 0) = _
  cases (h.getView view).endAtLastLine <;> rfl

theorem setBlanksStyle_frame (st : Statics) (h : Npp) (view : Int) (c : Int)
    (hv : validIndex view) :
    ∃ r, setBlanksStyle st h view c = some r ∧ r.1.compareMode = st.compareMode ∧
      r.1.endAtLastLine = st.endAtLastLine ∧
      (r.2.getView view).endAtLastLine = (h.getView view).endAtLastLine := by
  unfold setBlanksStyle
  rw [if_pos hv]
  refine ⟨_, rfl, ?_, ?_, ?_⟩
  · simp only []
    split <;> rfl
  · simp only []
    split <;> rfl
  · simp only []
    rw [Npp_keep _ _ _ (by intro x; rfl), Npp_keep _ _ _ (by intro x; rfl),
      Npp_keep _ _ _ (by intro x; rfl), Npp_keep _ _ _ (by intro x; rfl),
      Npp_keep _ _ _ (by intro x; rfl)]
    split
    · exact Npp_keep _ _ _ (by intro x; rfl)
    · rfl

theorem setNormalView_not_compare (st : Statics) (h : Npp) (view : Int)
    (hv : validIndex view) (hc : st.compareMode view = false) :
    setNormalView st h view = some (st, h) := by
  unfold setNormalView
  rw [if_pos hv]
  simp only [hc, Bool.false_eq_true, if_false]

theorem setNormalView_compare (st : Statics) (h : Npp) (view : Int)
    (hv : validIndex view) (hc : st.compareMode view = true) :
    ∃ r, setNormalView st h view = some r ∧ r.1.compareMode view = false ∧
      r.1.endAtLastLine = st.endAtLastLine ∧
      (r.2.getView view).endAtLastLine = st.endAtLastLine view := by
  unfold setNormalView
  rw [if_pos hv]
  simp only [hc, if_true]
  refine ⟨_, rfl, ?_, rfl, ?_⟩
  · show (if view = view then false else st.compareMode view) = false
    rw [if_pos rfl]
  · rw [Npp_keep _ _ _ (by intro x; rfl)]
    have hrest : ∀ g : Npp,
        ((g.CallScintilla view (.SCI_GETELEMENTCOLOUR SC_ELEMENT_CARET_LINE_BACK)).2.getView
          view).endAtLastLine = (g.getView view).endAtLastLine :=
      fun g => Npp_keep _ _ _ (by intro x; rfl)
    split
    · rw [Npp_keep _ _ _ (by intro x; rfl), hrest, Npp_keep _ _ _ (by intro x; rfl),
        Npp_keep _ _ _ (by intro x; rfl), Npp_keep _ _ _ (by intro x; rfl),
        Npp_setEndAtLastLine]
    · rw [hrest, Npp_keep _ _ _ (by intro x; rfl),
        Npp_keep _ _ _ (by intro x; rfl), Npp_keep _ _ _ (by intro x; rfl),
        Npp_setEndAtLastLine]

theorem setCompareView_caret (g : Npp) (view : Int) (t : Int) :
    ((if (g.CallScintilla view (.SCI_GETELEMENTCOLOUR SC_ELEMENT_CARET_LINE_BACK)).1 ≠ 0 then
        ((((g.CallScintilla view (.SCI_GETELEMENTCOLOUR SC_ELEMENT_CARET_LINE_BACK)).2.CallScintilla
          view (.SCI_SETELEMENTCOLOUR SC_ELEMENT_CARET_LINE_BACK
            ((g.CallScintilla view (.SCI_GETELEMENTCOLOUR SC_ELEMENT_CARET_LINE_BACK)).1 %
              16777216 + Int.tdiv ((100 - t) * SC_ALPHA_OPAQUE) 100 * 16777216))).2).CallScintilla
          view (.SCI_SETCARETLINELAYER SC_LAYER_UNDER_TEXT)).2
      else (g.CallScintilla view (.SCI_GETELEMENTCOLOUR SC_ELEMENT_CARET_LINE_BACK)).2).getView
        view).endAtLastLine = (g.getView view).endAtLastLine := by
  split
  · rw [Npp_keep _ _ _ (by intro x; rfl), Npp_keep _ _ _ (by intro x; rfl),
      Npp_keep _ _ _ (by intro x; rfl)]
  · rw [Npp_keep _ _ _ (by intro x; rfl)]

theorem setCompareView_enter (st : Statics) (h : Npp) (view : Int) (c t : Int)
    (hv : validIndex view) (hc : st.compareMode view = false) :
    ∃ r, setCompareView st h view c t = some r ∧ r.1.compareMode view = true ∧
      r.1.endAtLastLine view = (h.getView view).endAtLastLine ∧
      (r.2.getView view).endAtLastLine = false := by
  unfold setCompareView
  rw [if_pos hv]
  simp only [hc, Bool.not_false, if_true]
  obtain ⟨r, h1, h2, h3, h4⟩ := setBlanksStyle_frame _ _ view c hv
  refine ⟨r, h1, ?_, ?_, ?_⟩
  · rw [h2]
    show (if view = view then true else st.compareMode view) = true
    rw [if_pos rfl]
  · rw [h3]
    show (if view = view then
      decide ((h.CallScintilla view .SCI_GETENDATLASTLINE).1 ≠ 0) else _) = _
    rw [if_pos rfl, Npp_getEndAtLastLine]
  · rw [h4, setCompareView_caret, Npp_keep _ _ _ (by intro x; rfl),
      Npp_keep _ _ _ (by intro x; rfl), Npp_keep _ _ _ (by intro x; rfl),
      Npp_setEndAtLastLine]

theorem setCompareView_repeat (st : Statics) (h : Npp) (view : Int) (c t : Int)
    (hv : validIndex view) (hc : st.compareMode view = true) :
    ∃ r, setCompareView st h view c t = some r ∧ r.1.compareMode view = true ∧
      r.1.endAtLastLine view = st.endAtLastLine view ∧
      (r.2.getView view).endAtLastLine = (h.getView view).endAtLastLine := by
  unfold setCompareView
  rw [if_pos hv]
  simp only [hc, Bool.not_true, Bool.false_eq_true, if_false]
  obtain ⟨r, h1, h2, h3, h4⟩ := setBlanksStyle_frame _ _ view c hv
  refine ⟨r, h1, ?_, ?_, ?_⟩
  · rw [h2, hc]
  · rw [h3]
  · rw [h4, setCompareView_caret]

/-- The setting a view will have back in normal mode: the stored one while it is in compare
mode, its own otherwise. -/
theorem runViewCalls_invariant (view : Int) (hv : validIndex view) (calls : List ViewCall) :
    ∀ (st : Statics) (h : Npp) (e0 : Bool),
      (if st.compareMode view then st.endAtLastLine view = e0
        else (h.getView view).endAtLastLine = e0) →
      ∃ r, runViewCalls view calls st h = some r ∧
        (if r.1.compareMode view then r.1.endAtLastLine view = e0
          else (r.2.getView view).endAtLastLine = e0) := by
  induction calls with
  | nil => exact fun st h e0 hj => ⟨_, rfl, hj⟩
  | cons call rest ih =>
    intro st h e0 hj
    cases call with
    | compare c t =>
      unfold runViewCalls
      cases hc : st.compareMode view with
      | false =>
        rw [hc] at hj
        obtain ⟨r, h1, h2, h3, _⟩ := setCompareView_enter st h view c t hv hc
        rw [h1]
        apply ih
        rw [h2, if_pos rfl, h3]
        exact hj
      | true =>
        rw [hc] at hj
        obtain ⟨r, h1, h2, h3, _⟩ := setCompareView_repeat st h view c t hv hc
        rw [h1]
        apply ih
        rw [h2, if_pos rfl, h3]
        exact hj
    | normal =>
      unfold runViewCalls
      cases hc : st.compareMode view with
      | false =>
        rw [setNormalView_not_compare st h view hv hc]
        apply ih
        exact hj
      | true =>
        rw [hc] at hj
        obtain ⟨r, h1, h2, h3, h4⟩ := setNormalView_compare st h view hv hc
        rw [h1]
        apply ih
        rw [h2, h4]
        exact hj

theorem runViewCalls_append (view : Int) (a b : List ViewCall) :
    ∀ (st : Statics) (h : Npp),
      runViewCalls view (a ++ b) st h =
        (runViewCalls view a st h).bind (fun r => runViewCalls view b r.1 r.2) := by
  induction a with
  | nil => exact fun st h => rfl
  | cons call rest ih =>
    intro st h
    cases call with
    | compare c t =>
      rw [List.cons_append]
      simp only [runViewCalls]
      cases setCompareView st h view c t with
      | none => rfl
      | some r => exact ih r.1 r.2
    | normal =>
      rw [List.cons_append]
      simp only [runViewCalls]
      cases setNormalView st h view with
      | none => rfl
      | some r => exact ih r.1 r.2

/-! ### Matching lines of the two views -/

/-- A message that only asks: the view it is sent to keeps its lines and its two line maps. -/
theorem Npp_query_frame (h : Npp) (v w : Int) (msg : SciMsg)
    (hq : ∀ x : SciView, (CallScintilla x msg).2.lineCount = x.lineCount ∧
      (CallScintilla x msg).2.visibleFromDocLine = x.visibleFromDocLine ∧
      (CallScintilla x msg).2.docLineFromVisible = x.docLineFromVisible) :
    ((h.CallScintilla v msg).2.getView w).lineCount = (h.getView w).lineCount ∧
    ((h.CallScintilla v msg).2.getView w).visibleFromDocLine =
      (h.getView w).visibleFromDocLine ∧
    ((h.CallScintilla v msg).2.getView w).docLineFromVisible =
      (h.getView w).docLineFromVisible := by
  unfold Npp.CallScintilla
  rw [onView_snd]
  unfold Npp.setView Npp.getView
  by_cases hv : v = MAIN_VIEW <;> by_cases hw : w = MAIN_VIEW <;>
    simp only [hv, hw, if_true, if_false] <;>
    first
      | exact hq _
      | exact ⟨rfl, rfl, rfl⟩
      | exact ⟨trivial, trivial, trivial⟩

theorem getLineCount_frame (x : SciView) :
    (CallScintilla x .SCI_GETLINECOUNT).2.lineCount = x.lineCount ∧
    (CallScintilla x .SCI_GETLINECOUNT).2.visibleFromDocLine = x.visibleFromDocLine ∧
    (CallScintilla x .SCI_GETLINECOUNT).2.docLineFromVisible = x.docLineFromVisible :=
  ⟨rfl, rfl, rfl⟩

theorem visibleFromDocLine_frame (x : SciView) (l : Int) :
    (CallScintilla x (.SCI_VISIBLEFROMDOCLINE l)).2.lineCount = x.lineCount ∧
    (CallScintilla x (.SCI_VISIBLEFROMDOCLINE l)).2.visibleFromDocLine =
      x.visibleFromDocLine ∧
    (CallScintilla x (.SCI_VISIBLEFROMDOCLINE l)).2.docLineFromVisible =
      x.docLineFromVisible :=
  ⟨rfl, rfl, rfl⟩

theorem docLineFromVisible_frame (x : SciView) (d : Int) :
    (CallScintilla x (.SCI_DOCLINEFROMVISIBLE d)).2.lineCount = x.lineCount ∧
    (CallScintilla x (.SCI_DOCLINEFROMVISIBLE d)).2.visibleFromDocLine =
      x.visibleFromDocLine ∧
    (CallScintilla x (.SCI_DOCLINEFROMVISIBLE d)).2.docLineFromVisible =
      x.docLineFromVisible :=
  ⟨rfl, rfl, rfl⟩

/-- The three questions of `otherViewMatchingLine`: their answers, and the host after them,
whose views keep their lines and line maps. -/
theorem otherViewMatchingLine_questions (h : Npp) (view line : Int) :
    (h.CallScintilla (getOtherViewId view) .SCI_GETLINECOUNT).1 =
      (h.getView (getOtherViewId view)).lineCount ∧
    (((h.CallScintilla (getOtherViewId view) .SCI_GETLINECOUNT).2.CallScintilla view
      (.SCI_VISIBLEFROMDOCLINE line)).1 = (h.getView view).visibleFromDocLine line) ∧
    (∀ d, ((((h.CallScintilla (getOtherViewId view) .SCI_GETLINECOUNT).2.CallScintilla view
      (.SCI_VISIBLEFROMDOCLINE line)).2.CallScintilla (getOtherViewId view)
        (.SCI_DOCLINEFROMVISIBLE d)).1 =
      (h.getView (getOtherViewId view)).docLineFromVisible d) ∧
     ∀ w, (((((h.CallScintilla (getOtherViewId view) .SCI_GETLINECOUNT).2.CallScintilla view
        (.SCI_VISIBLEFROMDOCLINE line)).2.CallScintilla (getOtherViewId view)
          (.SCI_DOCLINEFROMVISIBLE d)).2.getView w).lineCount = (h.getView w).lineCount ∧
      ((((h.CallScintilla (getOtherViewId view) .SCI_GETLINECOUNT).2.CallScintilla view
        (.SCI_VISIBLEFROMDOCLINE line)).2.CallScintilla (getOtherViewId view)
          (.SCI_DOCLINEFROMVISIBLE d)).2.getView w).visibleFromDocLine =
        (h.getView w).visibleFromDocLine ∧
      ((((h.CallScintilla (getOtherViewId view) .SCI_GETLINECOUNT).2.CallScintilla view
        (.SCI_VISIBLEFROMDOCLINE line)).2.CallScintilla (getOtherViewId view)
          (.SCI_DOCLINEFROMVISIBLE d)).2.getView w).docLineFromVisible =
        (h.getView w).docLineFromVisible)) := by
  have f1 := fun w => Npp_query_frame h (getOtherViewId view) w .SCI_GETLINECOUNT
    getLineCount_frame
  generalize (h.CallScintilla (getOtherViewId view) .SCI_GETLINECOUNT).2 = h1 at f1 ⊢
  have f2 := fun w => Npp_query_frame h1 view w (.SCI_VISIBLEFROMDOCLINE line)
    (fun x => visibleFromDocLine_frame x line)
  refine ⟨rfl, ?_, fun d => ⟨?_, fun w => ?_⟩⟩
  · rw [Npp_CallScintilla_fst]
    show (h1.getView view).visibleFromDocLine line = _
    rw [(f1 view).2.1]
  · rw [Npp_CallScintilla_fst]
    show ((h1.CallScintilla view (.SCI_VISIBLEFROMDOCLINE line)).2.getView
      (getOtherViewId view)).docLineFromVisible d = _
    rw [(f2 _).2.2, (f1 _).2.2]
  · have f3 := Npp_query_frame (h1.CallScintilla view (.SCI_VISIBLEFROMDOCLINE line)).2
      (getOtherViewId view) w (.SCI_DOCLINEFROMVISIBLE d)
      (fun x => docLineFromVisible_frame x d)
    rw [f3.1, f3.2.1, f3.2.2, (f2 w).1, (f2 w).2.1, (f2 w).2.2, (f1 w).1, (f1 w).2.1,
      (f1 w).2.2]
    exact ⟨rfl, rfl, rfl⟩

theorem ite_some_pair {α β : Type} (c : Prop) [Decidable c] (a b : α) (s : β) :
    (if c then some (a, s) else some (b, s)) = some (if c then a else b, s) := by
  split <;> rfl

/-- Without the check one unit of depth is enough: the answer is the line of the other view
for the display line, or the last line of the other view when that line is past it; the
views keep their lines and line maps. -/
theorem otherViewMatchingLineFuel_unchecked (fuel : Nat) (h : Npp)
    (view line adjustment : Int) :
    ∃ h', otherViewMatchingLineFuel (fuel + 1) h view line adjustment false =
        some (if (h.getView (getOtherViewId view)).docLineFromVisible
                  ((h.getView view).visibleFromDocLine line + adjustment) ≥
                (h.getView (getOtherViewId view)).lineCount
              then (h.getView (getOtherViewId view)).lineCount - 1
              else (h.getView (getOtherViewId view)).docLineFromVisible
                  ((h.getView view).visibleFromDocLine line + adjustment), h') ∧
      ∀ w, (h'.getView w).lineCount = (h.getView w).lineCount ∧
        (h'.getView w).visibleFromDocLine = (h.getView w).visibleFromDocLine ∧
        (h'.getView w).docLineFromVisible = (h.getView w).docLineFromVisible := by
  obtain ⟨q1, q2, q3⟩ := otherViewMatchingLine_questions h view line
  unfold otherViewMatchingLineFuel
  simp only [q1, q2, (q3 _).1, Bool.false_eq_true, false_and, if_false]
  exact ⟨_, rfl, (q3 _).2⟩

/-- With the check two units of depth are enough. -/
theorem otherViewMatchingLineFuel_checked (fuel : Nat) (h : Npp)
    (view line adjustment : Int) :
    ∃ h', otherViewMatchingLineFuel (fuel + 2) h view line adjustment true =
        some (if (h.getView (getOtherViewId view)).docLineFromVisible
                  ((h.getView view).visibleFromDocLine line + adjustment) <
                (h.getView (getOtherViewId view)).lineCount
              then
                if (if (h.getView (getOtherViewId (getOtherViewId view))).docLineFromVisible
                        ((h.getView (getOtherViewId view)).visibleFromDocLine
                          ((h.getView (getOtherViewId view)).docLineFromVisible
                            ((h.getView view).visibleFromDocLine line + adjustment)) +
                          -adjustment) ≥
                      (h.getView (getOtherViewId (getOtherViewId view))).lineCount
                    then (h.getView (getOtherViewId (getOtherViewId view))).lineCount - 1
                    else (h.getView (getOtherViewId (getOtherViewId view))).docLineFromVisible
                        ((h.getView (getOtherViewId view)).visibleFromDocLine
                          ((h.getView (getOtherViewId view)).docLineFromVisible
                            ((h.getView view).visibleFromDocLine line + adjustment)) +
                          -adjustment)) ≠ line
                then -1
                else (h.getView (getOtherViewId view)).docLineFromVisible
                  ((h.getView view).visibleFromDocLine line + adjustment)
              else (h.getView (getOtherViewId view)).lineCount - 1, h') ∧
      ∀ w, (h'.getView w).lineCount = (h.getView w).lineCount ∧
        (h'.getView w).visibleFromDocLine = (h.getView w).visibleFromDocLine ∧
        (h'.getView w).docLineFromVisible = (h.getView w).docLineFromVisible := by
  obtain ⟨q1, q2, q3⟩ := otherViewMatchingLine_questions h view line
  have q4 := (q3 ((h.getView view).visibleFromDocLine line + adjustment)).2
  have q5 := (q3 ((h.getView view).visibleFromDocLine line + adjustment)).1
  unfold otherViewMatchingLineFuel
  simp only [q1, q2, q5, true_and]
  generalize (((h.CallScintilla (getOtherViewId view) .SCI_GETLINECOUNT).2.CallScintilla view
    (.SCI_VISIBLEFROMDOCLINE line)).2.CallScintilla (getOtherViewId view)
      (.SCI_DOCLINEFROMVISIBLE ((h.getView view).visibleFromDocLine line + adjustment))).2 = g
    at q4 ⊢
  generalize (h.getView (getOtherViewId view)).docLineFromVisible
    ((h.getView view).visibleFromDocLine line + adjustment) = otherLine
  by_cases hlt : otherLine < (h.getView (getOtherViewId view)).lineCount
  · obtain ⟨h', e1, e2⟩ := otherViewMatchingLineFuel_unchecked fuel g (getOtherViewId view)
      otherLine (-adjustment)
    rw [(q4 _).1, (q4 _).2.1, (q4 _).2.2] at e1
    have hge : ¬ otherLine ≥ (h.getView (getOtherViewId view)).lineCount := not_le.mpr hlt
    simp only [hlt, if_true, e1, hge, if_false]
    refine ⟨h', ?_, fun w => ?_⟩
    · exact ite_some_pair _ _ _ _
    · rw [(e2 w).1, (e2 w).2.1, (e2 w).2.2]
      exact q4 w
  · have hge : otherLine ≥ (h.getView (getOtherViewId view)).lineCount := not_lt.mp hlt
    simp only [hlt, if_false, hge, if_true]
    exact ⟨g, rfl, q4⟩

theorem otherViewMatchingLineFuel_unchecked_fuel (fuel : Nat) (h : Npp)
    (view line adjustment : Int) :
    otherViewMatchingLineFuel (fuel + 1) h view line adjustment false =
      otherViewMatchingLineFuel 1 h view line adjustment false := by
  simp only [otherViewMatchingLineFuel, Bool.false_eq_true, false_and, if_false]

theorem otherViewMatchingLineFuel_checked_fuel (fuel : Nat) (h : Npp)
    (view line adjustment : Int) (check : Bool) :
    otherViewMatchingLineFuel (fuel + 2) h view line adjustment check =
      otherViewMatchingLineFuel 2 h view line adjustment check := by
  simp only [otherViewMatchingLineFuel, Bool.false_eq_true, false_and, if_false]

theorem ite_ne_neg_one (c : Prop) [Decidable c] (x : Int)
    (hr : (if c then -1 else x) ≠ -1) : ¬ c ∧ (if c then -1 else x) = x := by
  by_cases hc : c
  · rw [if_pos hc] at hr
    exact absurd rfl hr
  · exact ⟨hc, if_neg hc⟩

/-! ### Marker copies and the blink loop -/

theorem testBit_markerBits_upto (c : Nat → Nat) (k i : Nat) :
    ((List.range k).foldl (fun m n => if 0 < c n then m ||| (1 <<< n) else m) 0).testBit i =
      decide (i < k ∧ 0 < c i) := by
  induction k with
  | zero => simp
  | succ k ih =>
    rw [List.range_succ, List.foldl_append]
    simp only [List.foldl_cons, List.foldl_nil]
    by_cases hk : 0 < c k
    · rw [if_pos hk, Nat.testBit_or, ih, Nat.one_shiftLeft, Nat.testBit_two_pow]
      by_cases hik : k = i
      · subst hik
        simp [hk]
      · have h1 : (i < k + 1) ↔ i < k := by omega
        simp [hik, h1]
    · rw [if_neg hk, ih]
      by_cases hik : i = k
      · subst hik
        simp [hk]
      · have h1 : (i < k + 1) ↔ i < k := by omega
        simp [h1]

theorem testBit_markerBits (c : Nat → Nat) (i : Nat) :
    (markerBits c).testBit i = decide (i < 32 ∧ 0 < c i) :=
  testBit_markerBits_upto c 32 i

theorem copies_lineCount (v : CopiesView) (msg : SciMsg) :
    (v.CallScintilla msg).2.lineCount = v.lineCount := by
  show (v.exec msg).lineCount = _
  unfold CopiesView.exec
  split
  · split <;> rfl
  · split <;> rfl
  · rfl

theorem copies_sent (v : CopiesView) (msg : SciMsg) :
    (v.CallScintilla msg).2.sent = v.sent ++ [msg] := rfl

theorem copies_delete (v : CopiesView) (line : Int) (k : Nat) (l : Int) (n : Nat) :
    (v.CallScintilla (.SCI_MARKERDELETE line k)).2.copies l n =
      if (0 ≤ line ∧ line < v.lineCount) ∧ l = line ∧ n = k then v.copies l n - 1
      else v.copies l n := by
  show (v.exec (.SCI_MARKERDELETE line k)).copies l n = _
  unfold CopiesView.exec
  have hk : ¬ ((k : Int) = -1) := by omega
  by_cases hv : 0 ≤ line ∧ line < v.lineCount
  · simp only [hv, and_self, if_true, true_and, hk, and_false, if_false]
    by_cases hl : l = line
    · by_cases hn : n = k
      · subst hn
        simp [hl]
      · have hn' : ¬ ((k : Int) = (n : Int)) := by omega
        simp [hl, hn, hn']
    · simp [hl]
  · simp only [hv, if_false, false_and]

theorem copies_add (v : CopiesView) (line : Int) (set : Nat) (l : Int) (n : Nat) :
    (v.CallScintilla (.SCI_MARKERADDSET line set)).2.copies l n =
      if (0 ≤ line ∧ line < v.lineCount) ∧ l = line ∧ n < 32 ∧ set.testBit n = true
      then v.copies l n + 1 else v.copies l n := by
  show (v.exec (.SCI_MARKERADDSET line set)).copies l n = _
  unfold CopiesView.exec
  by_cases hv : 0 ≤ line ∧ line < v.lineCount
  · simp only [hv, and_self, if_true, true_and]
  · simp only [hv, if_false, false_and]

theorem copies_get (v : CopiesView) (line : Int) :
    (v.CallScintilla (.SCI_MARKERGET line)).2.copies = v.copies ∧
    (v.CallScintilla (.SCI_MARKERGET line)).1 = v.reply (.SCI_MARKERGET line) :=
  ⟨rfl, rfl⟩

/-- Deleting one copy of each marker of a list without repetition. -/
theorem copies_delete_fold (line : Int) (ks : List Nat) (hks : ks.Nodup) :
    ∀ v : CopiesView,
      (ks.foldl (fun s mk => (s.CallScintilla (.SCI_MARKERDELETE line mk)).2) v).lineCount =
        v.lineCount ∧
      (ks.foldl (fun s mk => (s.CallScintilla (.SCI_MARKERDELETE line mk)).2) v).sent.length =
        v.sent.length + ks.length ∧
      ∀ l n, (ks.foldl (fun s mk => (s.CallScintilla (.SCI_MARKERDELETE line mk)).2)
          v).copies l n =
        if (0 ≤ line ∧ line < v.lineCount) ∧ l = line ∧ n ∈ ks then v.copies l n - 1
        else v.copies l n := by
  induction ks with
  | nil =>
    intro v
    refine ⟨rfl, rfl, fun l n => ?_⟩
    simp
  | cons k ks ih =>
    intro v
    rw [List.nodup_cons] at hks
    obtain ⟨i1, i2, i3⟩ := ih hks.2 (v.CallScintilla (.SCI_MARKERDELETE line k)).2
    simp only [List.foldl_cons]
    refine ⟨?_, ?_, fun l n => ?_⟩
    · rw [i1, copies_lineCount]
    · rw [i2, copies_sent, List.length_append, List.length_cons, List.length_cons,
        List.length_nil]
      omega
    · rw [i3, copies_lineCount, copies_delete]
      by_cases hv : 0 ≤ line ∧ line < v.lineCount
      · by_cases hl : l = line
        · by_cases hn : n = k
          · subst hn
            simp [hv, hl, hks.1]
          · by_cases hm : n ∈ ks
            · simp [hv, hl, hn, hm]
            · simp [hv, hl, hn, hm]
        · simp [hl]
      · simp [hv]

theorem mem_clearMarksOrder (n : Nat) : n ∈ clearMarksOrder ↔ n < 15 := by
  have h : clearMarksOrder = List.range 15 := by decide
  rw [h, List.mem_range]

theorem clearMarksOrder_nodup : clearMarksOrder.Nodup := by decide

theorem copies_clearMarks (v : CopiesView) (line : Int) :
    (v.clearMarks line).lineCount = v.lineCount ∧
    (v.clearMarks line).sent.length = v.sent.length + 15 ∧
    ∀ l n, (v.clearMarks line).copies l n =
      if (0 ≤ line ∧ line < v.lineCount) ∧ l = line ∧ n < 15 then v.copies l n - 1
      else v.copies l n := by
  obtain ⟨h1, h2, h3⟩ := copies_delete_fold line clearMarksOrder clearMarksOrder_nodup v
  refine ⟨h1, h2, fun l n => ?_⟩
  have h := h3 l n
  simp only [mem_clearMarksOrder] at h
  exact h

/-- One round of the loop of `blinkLine` on a line that carries a marker of `MARKER_MASK_ALL`:
`clearMarks`, then the saved markers are added back. -/
theorem copies_blink_marked (v : CopiesView) (line : Int) (marker : Nat)
    (hv : 0 ≤ line ∧ line < v.lineCount)
    (hm : ∀ n, marker.testBit n = true ↔ (n < 15 ∧ n ≠ 4 ∧ 0 < v.copies line n)) :
    ((v.clearMarks line).CallScintilla (.SCI_MARKERADDSET line marker)).2.lineCount =
      v.lineCount ∧
    ((v.clearMarks line).CallScintilla (.SCI_MARKERADDSET line marker)).2.sent.length =
      v.sent.length + 16 ∧
    ∀ l n, ((v.clearMarks line).CallScintilla (.SCI_MARKERADDSET line marker)).2.copies l n =
      if l = line ∧ n = 4 then v.copies l n - 1 else v.copies l n := by
  obtain ⟨c1, c2, c3⟩ := copies_clearMarks v line
  refine ⟨?_, ?_, fun l n => ?_⟩
  · rw [copies_lineCount, c1]
  · rw [copies_sent, List.length_append, c2]
    rfl
  · rw [copies_add, c1, c3]
    by_cases hl : l = line
    · subst hl
      have hmn := hm n
      by_cases h4 : n = 4
      · subst h4
        have hb : ¬ (marker.testBit 4 = true) := fun hb => (hmn.1 hb).2.1 rfl
        simp [hv, hb]
      · by_cases h15 : n < 15
        · by_cases hc : 0 < v.copies l n
          · have hb : marker.testBit n = true := hmn.2 ⟨h15, h4, hc⟩
            have h32 : n < 32 := by omega
            simp only [hv, hb, h15, h32, h4, and_self, and_true, true_and, if_true, and_false,
              if_false]
            omega
          · have hb : ¬ (marker.testBit n = true) := fun hb => hc (hmn.1 hb).2.2
            have hz : v.copies l n = 0 := by omega
            simp [hv, hb, h15, h4, hz]
        · have hb : ¬ (marker.testBit n = true) := fun hb => h15 (hmn.1 hb).1
          simp [hb, h15, h4]
    · simp [hl]

/-- One round of the loop of `blinkLine` on a line that carries no marker of
`MARKER_MASK_ALL`: a copy of `MARKER_BLANK` is added and one is deleted. -/
theorem copies_blink_unmarked (v : CopiesView) (line : Int) :
    (((v.CallScintilla (.SCI_MARKERADDSET line MARKER_MASK_BLANK)).2).CallScintilla
      (.SCI_MARKERDELETE line MARKER_BLANK)).2.lineCount = v.lineCount ∧
    (((v.CallScintilla (.SCI_MARKERADDSET line MARKER_MASK_BLANK)).2).CallScintilla
      (.SCI_MARKERDELETE line MARKER_BLANK)).2.sent.length = v.sent.length + 2 ∧
    ∀ l n, (((v.CallScintilla (.SCI_MARKERADDSET line MARKER_MASK_BLANK)).2).CallScintilla
      (.SCI_MARKERDELETE line MARKER_BLANK)).2.copies l n = v.copies l n := by
  refine ⟨?_, ?_, fun l n => ?_⟩
  · rw [copies_lineCount, copies_lineCount]
  · rw [copies_sent, List.length_append, copies_sent, List.length_append]
    rfl
  · rw [copies_delete, copies_lineCount, copies_add, testBit_mask_blank]
    have hB : MARKER_BLANK = 4 := rfl
    rw [hB]
    by_cases hv : 0 ≤ line ∧ line < v.lineCount
    · by_cases hl : l = line
      · by_cases h4 : n = 4
        · subst h4
          simp [hv, hl]
        · simp [h4]
      · simp [hl]
    · simp [hv]

theorem copies_blinkLineLoop_marked (line : Int) (marker : Nat) (hmk : marker ≠ 0) :
    ∀ (fuel : Nat) (v : CopiesView), (0 ≤ line ∧ line < v.lineCount) →
      (∀ n, marker.testBit n = true ↔ (n < 15 ∧ n ≠ 4 ∧ 0 < v.copies line n)) →
      ∃ v', CopiesView.blinkLineLoop line marker (fuel + 1) ((fuel + 1 : Nat) : Int) v =
          some v' ∧
        v'.lineCount = v.lineCount ∧
        v'.sent.length = v.sent.length + 16 * (fuel + 1) ∧
        ∀ l n, v'.copies l n =
          if l = line ∧ n = 4 then v.copies l n - (fuel + 1) else v.copies l n := by
  intro fuel
  induction fuel with
  | zero =>
    intro v hv hm
    obtain ⟨s1, s2, s3⟩ := copies_blink_marked v line marker hv hm
    unfold CopiesView.blinkLineLoop
    simp only [hmk, ne_eq, not_false_eq_true, if_true]
    exact ⟨_, rfl, s1, s2, s3⟩
  | succ k ih =>
    intro v hv hm
    obtain ⟨s1, s2, s3⟩ := copies_blink_marked v line marker hv hm
    unfold CopiesView.blinkLineLoop
    simp only [hmk, ne_eq, not_false_eq_true, if_true]
    have hi : ¬ (((k + 1 + 1 : Nat) : Int) - 1 = 0) := by omega
    have hi2 : ((k + 1 + 1 : Nat) : Int) - 1 = ((k + 1 : Nat) : Int) := by omega
    rw [if_neg hi, hi2]
    generalize ((v.clearMarks line).CallScintilla (.SCI_MARKERADDSET line marker)).2 = v2
      at s1 s2 s3 ⊢
    have hm2 : ∀ n, marker.testBit n = true ↔ (n < 15 ∧ n ≠ 4 ∧ 0 < v2.copies line n) := by
      intro n
      rw [hm n, s3]
      by_cases h4 : n = 4
      · simp [h4]
      · simp [h4]
    obtain ⟨v', e, t1, t2, t3⟩ := ih v2 (by rw [s1]; exact hv) hm2
    refine ⟨v', e, by rw [t1, s1], by rw [t2, s2]; omega, fun l n => ?_⟩
    rw [t3, s3]
    by_cases h : l = line ∧ n = 4
    · simp only [if_pos h]
      omega
    · simp only [if_neg h]

theorem copies_blinkLineLoop_unmarked (line : Int) :
    ∀ (fuel : Nat) (v : CopiesView),
      ∃ v', CopiesView.blinkLineLoop line 0 (fuel + 1) ((fuel + 1 : Nat) : Int) v = some v' ∧
        v'.lineCount = v.lineCount ∧
        v'.sent.length = v.sent.length + 2 * (fuel + 1) ∧
        ∀ l n, v'.copies l n = v.copies l n := by
  intro fuel
  induction fuel with
  | zero =>
    intro v
    obtain ⟨s1, s2, s3⟩ := copies_blink_unmarked v line
    unfold CopiesView.blinkLineLoop
    simp only [ne_eq, not_true_eq_false, if_false]
    exact ⟨_, rfl, s1, s2, s3⟩
  | succ k ih =>
    intro v
    obtain ⟨s1, s2, s3⟩ := copies_blink_unmarked v line
    unfold CopiesView.blinkLineLoop
    simp only [ne_eq, not_true_eq_false, if_false]
    have hi : ¬ (((k + 1 + 1 : Nat) : Int) - 1 = 0) := by omega
    have hi2 : ((k + 1 + 1 : Nat) : Int) - 1 = ((k + 1 : Nat) : Int) := by omega
    rw [if_neg hi, hi2]
    generalize (((v.CallScintilla (.SCI_MARKERADDSET line MARKER_MASK_BLANK)).2).CallScintilla
      (.SCI_MARKERDELETE line MARKER_BLANK)).2 = v2 at s1 s2 s3 ⊢
    obtain ⟨v', e, t1, t2, t3⟩ := ih v2
    refine ⟨v', e, by rw [t1, s1], by rw [t2, s2]; omega, fun l n => ?_⟩
    rw [t3, s3]

theorem markerBits_congr (c d : Nat → Nat) (h : ∀ n, n < 32 → (0 < c n ↔ 0 < d n)) :
    markerBits c = markerBits d := by
  apply Nat.eq_of_testBit_eq
  intro i
  rw [testBit_markerBits, testBit_markerBits]
  by_cases hi : i < 32
  · have := h i hi
    simp [hi, this]
  · simp [hi]

theorem markerBits_clear_blank (c d : Nat → Nat) (h4 : d 4 = 0)
    (h : ∀ n, n ≠ 4 → d n = c n) :
    markerBits d = clearBit (markerBits c) MARKER_BLANK := by
  apply Nat.eq_of_testBit_eq
  intro i
  have hB : MARKER_BLANK = 4 := rfl
  rw [testBit_clearBit, testBit_markerBits, testBit_markerBits, hB]
  by_cases hi : i = 4
  · subst hi
    simp [h4]
  · rw [h i hi]
    simp [hi]

theorem copies_reply_get (v : CopiesView) (line : Int) :
    v.reply (.SCI_MARKERGET line) =
      if 0 ≤ line ∧ line < v.lineCount then ((markerBits (v.copies line) : Nat) : Int)
      else 0 := rfl

/-- The markers `blinkLine` saves: those of `MARKER_MASK_ALL` the line carries. -/
theorem copies_saved_marker (v : CopiesView) (line : Int)
    (hmk : ((v.reply (.SCI_MARKERGET line)).toNat &&& MARKER_MASK_ALL) ≠ 0) :
    (0 ≤ line ∧ line < v.lineCount) ∧
    (v.reply (.SCI_MARKERGET line)).toNat = markerBits (v.copies line) ∧
    ∀ n, ((v.reply (.SCI_MARKERGET line)).toNat &&& MARKER_MASK_ALL).testBit n = true ↔
      (n < 15 ∧ n ≠ 4 ∧ 0 < v.copies line n) := by
  have hv : 0 ≤ line ∧ line < v.lineCount := by
    by_contra hv
    rw [copies_reply_get, if_neg hv] at hmk
    exact hmk (by simp)
  have hr : (v.reply (.SCI_MARKERGET line)).toNat = markerBits (v.copies line) := by
    rw [copies_reply_get, if_pos hv]
    exact Int.toNat_ofNat _
  refine ⟨hv, hr, fun n => ?_⟩
  rw [hr, Nat.testBit_and, testBit_markerBits, testBit_mask_all]
  by_cases h15 : n < 15
  · have h32 : n < 32 := by omega
    by_cases h4 : n = 4
    · simp [h4]
    · simp [h15, h32, h4]
  · simp [h15]

/-- The view `blinkLine` leaves: three rounds of its loop after the question for the markers
of the line. -/
theorem copies_blinkLine (v : CopiesView) (line : Int) :
    ∃ v', v.blinkLine line = some v' ∧
      v'.lineCount = v.lineCount ∧
      v'.sent.length = v.sent.length + 1 +
        3 * (if ((v.reply (.SCI_MARKERGET line)).toNat &&& MARKER_MASK_ALL) ≠ 0
          then 16 else 2) ∧
      ∀ l n, v'.copies l n =
        if ((v.reply (.SCI_MARKERGET line)).toNat &&& MARKER_MASK_ALL) ≠ 0 ∧ l = line ∧ n = 4
        then v.copies l n - 3 else v.copies l n := by
  have h3 : cBlinkCount.toNat = 2 + 1 := rfl
  have h3' : cBlinkCount = ((2 + 1 : Nat) : Int) := rfl
  have hs : (v.CallScintilla (.SCI_MARKERGET line)).2.sent.length = v.sent.length + 1 := by
    rw [copies_sent, List.length_append]
    rfl
  have hl : (v.CallScintilla (.SCI_MARKERGET line)).2.lineCount = v.lineCount :=
    copies_lineCount v _
  have hc : (v.CallScintilla (.SCI_MARKERGET line)).2.copies = v.copies := rfl
  have hf : (v.CallScintilla (.SCI_MARKERGET line)).1 = v.reply (.SCI_MARKERGET line) := rfl
  unfold CopiesView.blinkLine
  simp only [hf]
  rw [h3]
  generalize (v.CallScintilla (.SCI_MARKERGET line)).2 = w at hs hl hc ⊢
  by_cases hmk : ((v.reply (.SCI_MARKERGET line)).toNat &&& MARKER_MASK_ALL) ≠ 0
  · obtain ⟨hv, _, hm⟩ := copies_saved_marker v line hmk
    rw [h3']
    obtain ⟨v', e, t1, t2, t3⟩ := copies_blinkLineLoop_marked line _ hmk 2 w
      (by rw [hl]; exact hv) (by rw [hc]; exact hm)
    refine ⟨v', e, by rw [t1, hl], ?_, fun l n => ?_⟩
    · rw [t2, hs, if_pos hmk]
    · rw [t3, hc]
      simp only [hmk, ne_eq, not_false_eq_true, true_and]
  · rw [h3']
    have hz : ((v.reply (.SCI_MARKERGET line)).toNat &&& MARKER_MASK_ALL) = 0 :=
      not_not.mp hmk
    rw [hz]
    obtain ⟨v', e, t1, t2, t3⟩ := copies_blinkLineLoop_unmarked line 2 w
    refine ⟨v', e, by rw [t1, hl], ?_, fun l n => ?_⟩
    · rw [t2, hs]
      simp
    · rw [t3, hc]
      simp

/-! ## Properties of the helpers -/

/-- C1: with a view modelled as a line count plus one marker set per line, for every
`startLine >= 0` and every non-empty vector `m` with `startLine + |m| <= line count` whose
entries only use bits of `MARKER_MASK_ALL | MARKER_MASK_BLANK`, after
`setMarkers(view, startLine, m)` the call
`getMarkers(view, startLine, |m|, MARKER_MASK_ALL | MARKER_MASK_BLANK, false)` returns exactly
`m`. -/
theorem setMarkers_then_getMarkers (v : SciView) (startLine : Int) (m : List Nat)
    (hstart : 0 ≤ startLine) (hne : m ≠ []) (hfit : startLine + m.length ≤ v.lineCount)
    (hbits : ∀ x ∈ m, x &&& (MARKER_MASK_ALL ||| MARKER_MASK_BLANK) = x) :
    (getMarkers (setMarkers v startLine m) startLine m.length
      (MARKER_MASK_ALL ||| MARKER_MASK_BLANK) false).map Prod.fst = some m := by
  rw [mask_all_blank] at hbits ⊢
  obtain ⟨hlen, hent⟩ := setMarkers_spec v startLine m hstart hne hfit hbits
  have hlc : (setMarkers v startLine m).lineCount = v.lineCount := by
    unfold SciView.lineCount; rw [hlen]
  have hpos : (0 : Int) < m.length := by
    have : m.length ≠ 0 := fun h => hne (List.length_eq_zero.mp h)
    omega
  rw [getMarkers_spec _ startLine m.length _ false hstart (by rw [hlc]; omega) hpos
    (fun hov => absurd hov (by rw [hlc]; omega)), hlc]
  have hmin : (min (m.length : Int) (v.lineCount - startLine)).toNat = m.length := by omega
  rw [hmin]
  congr 1
  apply List.ext_getElem?
  intro i
  by_cases hi : i < m.length
  · simp only [List.getElem?_map, List.getElem?_range hi, Option.map_some']
    rw [hent i hi, List.getElem?_eq_getElem hi]
    rfl
  · rw [List.getElem?_eq_none (by simp; omega), List.getElem?_eq_none (by omega)]

/-- Witness of C1 on the sample view: the vector `[5, 0, 32767]` written at line 1 is read
back. -/
theorem setMarkers_then_getMarkers_witness :
    (getMarkers (setMarkers sampleView 1 [5, 0, 32767]) 1 ([5, 0, 32767] : List Nat).length
      (MARKER_MASK_ALL ||| MARKER_MASK_BLANK) false).map Prod.fst = some [5, 0, 32767] :=
  setMarkers_then_getMarkers sampleView 1 [5, 0, 32767] (by decide) (by decide) (by decide)
    (by decide)

/-- Where `getMarkers` does return its vector: it returns the empty vector when `length <= 0` or
`startLine < 0`; and for `length > 0`, a start line with `0 <= startLine <= lineCount` and a
sum `startLine + length` that fits `intptr_t`, it returns a vector of exactly
`min(length, lineCount - startLine)` entries whose entry `i` is the marker set line
`startLine + i` had before the call, ANDed with `markMask` (0 for a line with no marker of
`markMask`). -/
theorem getMarkers_entries (v : SciView) (startLine length : Int) (markMask : Nat)
    (clearMarkers : Bool) :
    ((length ≤ 0 ∨ startLine < 0) →
      (getMarkers v startLine length markMask clearMarkers).map Prod.fst = some []) ∧
    (0 ≤ startLine → startLine ≤ v.lineCount → 0 < length →
      startLine + length ≤ INTPTR_MAX →
      ∃ ms, (getMarkers v startLine length markMask clearMarkers).map Prod.fst = some ms ∧
        (ms.length : Int) = min length (v.lineCount - startLine) ∧
        ∀ i : Nat, i < ms.length →
          ms[i]? = some (markersAt v.lines (startLine + i) &&& markMask)) := by
  constructor
  · intro hbad
    unfold getMarkers
    rw [if_pos hbad]
    rfl
  · intro h0 h1 h2 h3
    refine ⟨_, getMarkers_spec v startLine length markMask clearMarkers h0 h1 h2
      (fun _ => h3), ?_, fun i hi => ?_⟩
    · simp only [List.length_map, List.length_range]
      omega
    · simp only [List.length_map, List.length_range] at hi
      simp [List.getElem?_map, List.getElem?_range hi]

/-- On the sample view three lines from line 3 are asked for and two exist, with marker sets
32769 and 2; nothing is asked for with `length = 0`. -/
theorem getMarkers_entries_witness :
    (getMarkers sampleView 3 3 3 true).map Prod.fst = some [1, 2] ∧
    (getMarkers sampleView 3 0 3 true).map Prod.fst = some [] ∧
    ∃ ms, (getMarkers sampleView 3 3 3 true).map Prod.fst = some ms ∧
      (ms.length : Int) = min 3 (sampleView.lineCount - 3) ∧
      ∀ i : Nat, i < ms.length →
        ms[i]? = some (markersAt sampleView.lines (3 + i) &&& 3) :=
  ⟨by decide, (getMarkers_entries sampleView 3 0 3 true).1 (by decide),
    (getMarkers_entries sampleView 3 3 3 true).2 (by decide) (by decide) (by decide)
      (by decide)⟩

/-- C2, the code at the failing inputs, on the five-line sample view.  Asked for one line from
line 7 (`startLine >= 0`, `length > 0`, no requested line exists), `getMarkers` clamps
`length` to `5 - 7 = -2` and `markers.resize(-2, 0)` throws: the test `length <= 0` is made
before the clamp only, and no empty vector is returned.  Asked for `INTPTR_MAX` lines from
line 1, the sum `startLine + length` overflows and no vector of the four existing lines is
returned either. -/
theorem getMarkers_past_line_count :
    sampleView.lineCount = 5 ∧
    (getMarkers sampleView 7 1 3 false).map Prod.fst = none ∧
    (getMarkers sampleView 1 INTPTR_MAX 3 false).map Prod.fst = none := by
  decide

/-- C3: `getMarkedSection` returns `(-1, -1)` if and only if `startLine < 0`, or `endLine` is
past the last line, or `startLine > endLine`, or line `startLine` carries no marker of
`markMask`, or line `endLine` carries none. -/
theorem getMarkedSection_rejects_iff (v : SciView) (startLine endLine : Int) (markMask : Nat)
    (excludeNewLine : Bool) :
    ∃ p, (getMarkedSection v startLine endLine markMask excludeNewLine).map Prod.fst = some p ∧
      (p = (-1, -1) ↔
        (startLine < 0 ∨ endLine > v.lineCount - 1 ∨ startLine > endLine ∨
          (markersAt v.lines startLine &&& markMask) = 0 ∨
          (markersAt v.lines endLine &&& markMask) = 0)) := by
  have hc : (CallScintilla v .SCI_GETLINECOUNT).1 = v.lineCount := rfl
  by_cases hcond : startLine < 0 ∨ endLine > v.lineCount - 1 ∨ startLine > endLine
  · refine ⟨(-1, -1), ?_, ⟨fun _ => by tauto, fun _ => rfl⟩⟩
    unfold getMarkedSection
    simp only [hc, hcond, if_true, Option.map_some']
  · by_cases hs : (markersAt v.lines startLine &&& markMask) = 0
    · refine ⟨(-1, -1), ?_, ⟨fun _ => by tauto, fun _ => rfl⟩⟩
      have hm1 : (isLineMarked (CallScintilla v .SCI_GETLINECOUNT).2 startLine markMask).1
          = false := by
        rw [isLineMarked_fst]; exact decide_eq_false (not_not.mpr hs)
      unfold getMarkedSection
      simp only [hc, hcond, if_false, hm1, Bool.not_false, if_true, Option.map_some']
    · have hm1 : (isLineMarked (CallScintilla v .SCI_GETLINECOUNT).2 startLine markMask).1
          = true := by
        rw [isLineMarked_fst]; exact decide_eq_true hs
      by_cases he : (markersAt v.lines endLine &&& markMask) = 0
      · refine ⟨(-1, -1), ?_, ⟨fun _ => by tauto, fun _ => rfl⟩⟩
        have hne : startLine ≠ endLine := by
          intro h; rw [h] at hs; exact hs he
        have hm2 : (isLineMarked (isLineMarked (CallScintilla v .SCI_GETLINECOUNT).2
            startLine markMask).2 endLine markMask).1 = false := by
          rw [isLineMarked_fst]; exact decide_eq_false (not_not.mpr he)
        unfold getMarkedSection
        simp only [hc, hcond, if_false, hm1, hne, hm2, if_true, ne_eq, not_false_eq_true,
          Bool.not_true, Bool.not_false, Bool.false_eq_true, Option.map_some']
      · obtain ⟨a, b, heq, ha0, ha1, _⟩ := getMarkedSection_accepted v startLine endLine
          markMask excludeNewLine (by omega) (by omega) (by omega) hs he
        refine ⟨_, heq, ?_⟩
        constructor
        · intro h
          have h1 : positionFromLine v.lines v.selStart a = -1 := congrArg Prod.fst h
          have hlen : v.lineCount = (v.lines.length : Int) := rfl
          rw [positionFromLine_of_nonneg _ _ _ ha0 (by omega)] at h1
          omega
        · intro h
          rcases h with h | h | h | h | h
          · omega
          · omega
          · omega
          · exact absurd h hs
          · exact absurd h he

/-- C4: for an accepted call of `getMarkedSection` (`0 <= startLine <= endLine <= last line`,
both lines marked with `markMask`) the returned pair is (start position of line `a`, end of
line `b`), where `a` is the first line of the maximal run of marked lines that contains
`startLine`, `b` is the last line of the maximal run of marked lines that contains `endLine`,
and the end is: with `excludeNewLine`, the line-end position of line `b`; without it, the start
position of line `b + 1`, or the line-end position of the last line of the document when the
run reaches it. -/
theorem getMarkedSection_marked_run (v : SciView) (startLine endLine : Int) (markMask : Nat)
    (excludeNewLine : Bool) (hstart : 0 ≤ startLine) (hle : startLine ≤ endLine)
    (hend : endLine ≤ v.lineCount - 1)
    (hs : (markersAt v.lines startLine &&& markMask) ≠ 0)
    (he : (markersAt v.lines endLine &&& markMask) ≠ 0) :
    ∃ a b, (getMarkedSection v startLine endLine markMask excludeNewLine).map Prod.fst =
        some (positionFromLine v.lines v.selStart a,
          if excludeNewLine then lineEndPosition v.lines b
          else if b = v.lineCount - 1 then lineEndPosition v.lines (v.lineCount - 1)
          else positionFromLine v.lines v.selStart (b + 1)) ∧
      0 ≤ a ∧ a ≤ startLine ∧
      (∀ j, a ≤ j → j ≤ startLine → (markersAt v.lines j &&& markMask) ≠ 0) ∧
      (a = 0 ∨ (markersAt v.lines (a - 1) &&& markMask) = 0) ∧
      endLine ≤ b ∧ b ≤ v.lineCount - 1 ∧
      (∀ j, endLine ≤ j → j ≤ b → (markersAt v.lines j &&& markMask) ≠ 0) ∧
      (b = v.lineCount - 1 ∨ (markersAt v.lines (b + 1) &&& markMask) = 0) :=
  getMarkedSection_accepted v startLine endLine markMask excludeNewLine hstart hle hend hs he

/-- Witness of C4 on the sample view: lines 2 and 3 for markers 0 and 1; the run of marked
lines is 2..4 and reaches the end of the document. -/
theorem getMarkedSection_marked_run_witness :
    (getMarkedSection sampleView 2 3 3 false).map Prod.fst = some (8, 20) ∧
    ∃ a b, (getMarkedSection sampleView 2 3 3 false).map Prod.fst =
        some (positionFromLine sampleView.lines sampleView.selStart a,
          if false then lineEndPosition sampleView.lines b
          else if b = sampleView.lineCount - 1 then
            lineEndPosition sampleView.lines (sampleView.lineCount - 1)
          else positionFromLine sampleView.lines sampleView.selStart (b + 1)) ∧
      0 ≤ a ∧ a ≤ 2 ∧
      (∀ j, a ≤ j → j ≤ 2 → (markersAt sampleView.lines j &&& 3) ≠ 0) ∧
      (a = 0 ∨ (markersAt sampleView.lines (a - 1) &&& 3) = 0) ∧
      3 ≤ b ∧ b ≤ sampleView.lineCount - 1 ∧
      (∀ j, 3 ≤ j → j ≤ b → (markersAt sampleView.lines j &&& 3) ≠ 0) ∧
      (b = sampleView.lineCount - 1 ∨ (markersAt sampleView.lines (b + 1) &&& 3) = 0) :=
  ⟨by decide, getMarkedSection_marked_run sampleView 2 3 3 false (by decide) (by decide)
    (by decide) (by decide) (by decide)⟩

/-- C5: for `startLine >= 0`, `getNextUnmarkedLine` returns the smallest line `r` with
`startLine <= r <= lineCount - 1` that carries no marker of `markMask`, and -1 when every line
from `startLine` to the last line carries one (or `startLine` is past the last line). -/
theorem getNextUnmarkedLine_smallest (v : SciView) (startLine : Int) (markMask : Nat)
    (_hstart : 0 ≤ startLine) :
    ∃ r v', getNextUnmarkedLine v startLine markMask = some (r, v') ∧
      ((startLine ≤ r ∧ r ≤ v.lineCount - 1 ∧ (markersAt v.lines r &&& markMask) = 0 ∧
          ∀ n, startLine ≤ n → n < r → (markersAt v.lines n &&& markMask) ≠ 0) ∨
       (r = -1 ∧
          ∀ n, startLine ≤ n → n ≤ v.lineCount - 1 → (markersAt v.lines n &&& markMask) ≠ 0)) := by
  obtain ⟨r, v', e, hlines, hle, hall, hun⟩ :=
    getNextUnmarkedLineLoop_spec markMask (v.lineCount - 1)
      ((v.lineCount - 1 + 1 - startLine).toNat + 1) startLine
      (CallScintilla v .SCI_GETLINECOUNT).2 (by omega)
  have hl : (CallScintilla v .SCI_GETLINECOUNT).2.lines = v.lines := rfl
  rw [hl] at hall hun
  have hc : (CallScintilla v .SCI_GETLINECOUNT).1 = v.lineCount := rfl
  unfold getNextUnmarkedLine
  simp only [hc, e]
  by_cases hr : r ≤ v.lineCount - 1
  · refine ⟨r, v', by simp [hr], Or.inl ⟨hle, hr, hun hr, hall⟩⟩
  · refine ⟨-1, v', by simp [hr], Or.inr ⟨rfl, ?_⟩⟩
    intro n h1 h2
    exact hall n h1 (by omega)


/-- Witness of C5 on the sample view: from line 2 on every line carries marker 0 or 1, so the
answer is -1; from line 0 the first line without them is line 1. -/
theorem getNextUnmarkedLine_smallest_witness :
    ((getNextUnmarkedLine sampleView 2 3).map Prod.fst = some (-1) ∧
      (getNextUnmarkedLine sampleView 0 3).map Prod.fst = some 1) ∧
    ∃ r v', getNextUnmarkedLine sampleView 2 3 = some (r, v') ∧
      ((2 ≤ r ∧ r ≤ sampleView.lineCount - 1 ∧ (markersAt sampleView.lines r &&& 3) = 0 ∧
          ∀ n, 2 ≤ n → n < r → (markersAt sampleView.lines n &&& 3) ≠ 0) ∨
       (r = -1 ∧
          ∀ n, 2 ≤ n → n ≤ sampleView.lineCount - 1 →
            (markersAt sampleView.lines n &&& 3) ≠ 0)) :=
  ⟨by decide, getNextUnmarkedLine_smallest sampleView 2 3 (by decide)⟩

/-- C6: `getSelectionLines` returns `(-1, -1)` when the selection is rectangular, is a
multi-selection, or is empty; otherwise, for a selection `[selStart, selEnd)` with
`selStart < selEnd` in a document as the editor keeps it, it returns `(first, last)` where
`first` is the line containing `selStart` and `last` is the line containing the last selected
position `selEnd - 1`, and `first <= last`. -/
theorem getSelectionLines_first_last (v : SciView) :
    ((v.selRectangle = true ∨ v.selections > 1 ∨ v.selEnd = v.selStart) →
      (getSelectionLines v).1 = (-1, -1)) ∧
    (wellFormedDoc v.lines → 0 ≤ v.selStart →
      v.selRectangle = false → v.selections ≤ 1 → v.selStart < v.selEnd →
      (getSelectionLines v).1 =
          (lineFromPosition v.lines v.selStart, lineFromPosition v.lines (v.selEnd - 1)) ∧
        lineFromPosition v.lines v.selStart ≤ lineFromPosition v.lines (v.selEnd - 1)) := by
  refine ⟨fun h => ?_, fun hwf h0 hrect hmulti hlt =>
    getSelectionLines_nonempty v hwf hrect hmulti h0 hlt⟩
  rw [getSelectionLines_fst]
  by_cases h1 : v.selRectangle = true
  · rw [if_pos h1]
  · rw [if_neg h1]
    by_cases h2 : v.selections > 1
    · rw [if_pos h2]
    · rw [if_neg h2]
      rcases h with h | h | h
      · exact absurd h h1
      · exact absurd h h2
      · rw [if_pos (by omega)]

/-- Witness of C6 on the sample view, whose selection covers bytes 2 to 8, that is line 0 and
the whole of line 1: the selection ends at the start of line 2, which is not included. -/
theorem getSelectionLines_first_last_witness :
    (getSelectionLines sampleView).1 = (0, 1) ∧
    ((getSelectionLines sampleView).1 =
        (lineFromPosition sampleView.lines sampleView.selStart,
          lineFromPosition sampleView.lines (sampleView.selEnd - 1)) ∧
      lineFromPosition sampleView.lines sampleView.selStart ≤
        lineFromPosition sampleView.lines (sampleView.selEnd - 1)) :=
  ⟨by decide, (getSelectionLines_first_last sampleView).2 (by decide) (by decide) (by decide)
    (by decide) (by decide)⟩

/-- C7: while a `ScopedViewWriteEnabler` for the view is alive the read-only flag of the view
is false; after its destructor the flag has the value it had before the construction, provided
the code inside the scope leaves the flag alone; and constructor and destructor write nothing
else: the other view is untouched, and in the view only the read-only flag changes (and the
messages it has received grow). -/
theorem scopedViewWriteEnabler_restores (h : Npp) (view : Int) (body : Npp → Npp)
    (hbody : ((body (ScopedViewWriteEnabler.enter h view).2).getView view).readOnly =
      ((ScopedViewWriteEnabler.enter h view).2.getView view).readOnly) :
    ((ScopedViewWriteEnabler.enter h view).2.getView view).readOnly = false ∧
    ((body (ScopedViewWriteEnabler.enter h view).2).getView view).readOnly = false ∧
    (((ScopedViewWriteEnabler.enter h view).1.leave
      (body (ScopedViewWriteEnabler.enter h view).2)).getView view).readOnly =
        (h.getView view).readOnly ∧
    (∃ msgs, (ScopedViewWriteEnabler.enter h view).2 =
      h.setView view { h.getView view with
        readOnly := false, sent := (h.getView view).sent ++ msgs }) ∧
    (∀ x : Npp, ∃ msgs, (ScopedViewWriteEnabler.enter h view).1.leave x =
      x.setView view { x.getView view with
        readOnly := (h.getView view).readOnly || (x.getView view).readOnly,
        sent := (x.getView view).sent ++ msgs }) := by
  have key : ((ScopedViewWriteEnabler.enter h view).2.getView view).readOnly = false ∧
      (∃ msgs, (ScopedViewWriteEnabler.enter h view).2 =
        h.setView view { h.getView view with
          readOnly := false, sent := (h.getView view).sent ++ msgs }) ∧
      (ScopedViewWriteEnabler.enter h view).1 =
        { _view := view, _isRO := (h.getView view).readOnly } := by
    unfold ScopedViewWriteEnabler.enter
    simp only [onView_fst, onView_snd, CallScintilla_fst, getView_setView, setView_setView]
    cases hr : (h.getView view).readOnly
    · have e : (h.getView view).reply .SCI_GETREADONLY = 0 := by simp [SciView.reply, hr]
      simp only [e, ne_eq, not_true_eq_false, decide_False, Bool.false_eq_true, if_false,
        getView_setView]
      refine ⟨hr, ⟨[.SCI_GETREADONLY], ?_⟩, trivial⟩
      congr 1
      unfold CallScintilla
      cases hv : h.getView view
      rw [hv] at hr
      simp only at hr
      subst hr
      rfl
    · have e : (h.getView view).reply .SCI_GETREADONLY = 1 := by simp [SciView.reply, hr]
      simp only [e, ne_eq, one_ne_zero, not_false_eq_true, decide_True, if_true,
        getView_setView]
      refine ⟨rfl, ⟨[.SCI_GETREADONLY, .SCI_SETREADONLY false], ?_⟩, trivial⟩
      congr 1
      unfold CallScintilla
      simp [SciView.exec]
  obtain ⟨k1, k2, k3⟩ := key
  refine ⟨k1, hbody.trans k1, ?_, k2, ?_⟩
  · rw [k3]
    unfold ScopedViewWriteEnabler.leave
    cases hr : (h.getView view).readOnly
    · simp only [Bool.false_eq_true, if_false]
      rw [hbody, k1]
    · simp only [if_true, onView_snd, getView_setView]
      rfl
  · intro x
    rw [k3]
    unfold ScopedViewWriteEnabler.leave
    cases hr : (h.getView view).readOnly
    · simp only [Bool.false_eq_true, if_false, Bool.false_or]
      refine ⟨[], ?_⟩
      conv_lhs => rw [← setView_getView x view]
      congr 1
      simp
    · simp only [if_true, onView_snd, Bool.true_or]
      exact ⟨[.SCI_SETREADONLY true], rfl⟩

/-- Witness of C7: the main view of the sample host is read-only and the scope does nothing. -/
theorem scopedViewWriteEnabler_restores_witness :
    ((ScopedViewWriteEnabler.enter sampleNpp MAIN_VIEW).2.getView MAIN_VIEW).readOnly = false ∧
    (((ScopedViewWriteEnabler.enter sampleNpp MAIN_VIEW).1.leave
      (ScopedViewWriteEnabler.enter sampleNpp MAIN_VIEW).2).getView MAIN_VIEW).readOnly =
        true :=
  have w := scopedViewWriteEnabler_restores sampleNpp MAIN_VIEW id rfl
  ⟨w.1, w.2.2.1⟩

/-- C8: while a `ScopedViewUndoCollectionBlocker` for the view is alive undo collection is off;
after its destructor the undo-collection flag has the value it had before the construction,
provided the code inside the scope leaves the flag alone; and the constructor empties the undo
buffer (sends `SCI_EMPTYUNDOBUFFER`) exactly when undo collection was on beforehand. -/
theorem scopedViewUndoCollectionBlocker_restores (h : Npp) (view : Int) (body : Npp → Npp)
    (hbody :
      ((body (ScopedViewUndoCollectionBlocker.enter h view).2).getView view).undoCollection =
        ((ScopedViewUndoCollectionBlocker.enter h view).2.getView view).undoCollection) :
    ((ScopedViewUndoCollectionBlocker.enter h view).2.getView view).undoCollection = false ∧
    ((body (ScopedViewUndoCollectionBlocker.enter h view).2).getView view).undoCollection
      = false ∧
    (((ScopedViewUndoCollectionBlocker.enter h view).1.leave
      (body (ScopedViewUndoCollectionBlocker.enter h view).2)).getView view).undoCollection =
        (h.getView view).undoCollection ∧
    ((ScopedViewUndoCollectionBlocker.enter h view).2.getView view).undoBuffer =
      (if (h.getView view).undoCollection then [] else (h.getView view).undoBuffer) ∧
    ((ScopedViewUndoCollectionBlocker.enter h view).2.getView view).sent =
      (h.getView view).sent ++
        (if (h.getView view).undoCollection then
          [.SCI_GETUNDOCOLLECTION, .SCI_SETUNDOCOLLECTION false, .SCI_EMPTYUNDOBUFFER]
        else [.SCI_GETUNDOCOLLECTION]) := by
  have key :
      ((ScopedViewUndoCollectionBlocker.enter h view).2.getView view).undoCollection = false ∧
      ((ScopedViewUndoCollectionBlocker.enter h view).2.getView view).undoBuffer =
        (if (h.getView view).undoCollection then [] else (h.getView view).undoBuffer) ∧
      ((ScopedViewUndoCollectionBlocker.enter h view).2.getView view).sent =
        (h.getView view).sent ++
          (if (h.getView view).undoCollection then
            [.SCI_GETUNDOCOLLECTION, .SCI_SETUNDOCOLLECTION false, .SCI_EMPTYUNDOBUFFER]
          else [.SCI_GETUNDOCOLLECTION]) ∧
      (ScopedViewUndoCollectionBlocker.enter h view).1 =
        { _view := view, _isUndoOn := (h.getView view).undoCollection } := by
    unfold ScopedViewUndoCollectionBlocker.enter
    simp only [onView_fst, onView_snd, CallScintilla_fst, getView_setView, setView_setView]
    cases hr : (h.getView view).undoCollection
    · have e : (h.getView view).reply .SCI_GETUNDOCOLLECTION = 0 := by
        simp [SciView.reply, hr]
      simp only [e, ne_eq, not_true_eq_false, decide_False, Bool.false_eq_true, if_false,
        getView_setView]
      exact ⟨hr, rfl, rfl, trivial⟩
    · have e : (h.getView view).reply .SCI_GETUNDOCOLLECTION = 1 := by
        simp [SciView.reply, hr]
      simp only [e, ne_eq, one_ne_zero, not_false_eq_true, decide_True, if_true,
        getView_setView]
      refine ⟨rfl, rfl, ?_, trivial⟩
      simp [CallScintilla, SciView.exec]
  obtain ⟨k1, k2, k3, k4⟩ := key
  refine ⟨k1, hbody.trans k1, ?_, k2, k3⟩
  rw [k4]
  unfold ScopedViewUndoCollectionBlocker.leave
  cases hr : (h.getView view).undoCollection
  · simp only [Bool.false_eq_true, if_false]
    rw [hbody, k1]
  · simp only [if_true, onView_snd, getView_setView]
    rfl

/-- Witness of C8: the main view of the sample host collects undo information and holds one
undo action; the scope does nothing. -/
theorem scopedViewUndoCollectionBlocker_restores_witness :
    ((ScopedViewUndoCollectionBlocker.enter sampleNpp MAIN_VIEW).2.getView
      MAIN_VIEW).undoCollection = false ∧
    (((ScopedViewUndoCollectionBlocker.enter sampleNpp MAIN_VIEW).1.leave
      (ScopedViewUndoCollectionBlocker.enter sampleNpp MAIN_VIEW).2).getView
        MAIN_VIEW).undoCollection = true ∧
    ((ScopedViewUndoCollectionBlocker.enter sampleNpp MAIN_VIEW).2.getView
      MAIN_VIEW).undoBuffer = [] :=
  have w := scopedViewUndoCollectionBlocker_restores sampleNpp MAIN_VIEW id rfl
  ⟨w.1, w.2.2.1, w.2.2.2.1⟩

/-- C9: for `view` one of `MAIN_VIEW`, `SUB_VIEW` and a `ViewLocation` saved without a centre
line (`centerLine < 0`), if the view maps document lines to display lines at `restore()` as it
did at `save()`, then `restore()` asks the view for exactly the first visible line it had at
`save()` (it sends `SCI_VISIBLEFROMDOCLINE` for the saved first line, then
`SCI_SETFIRSTVISIBLELINE` with that display line) and the view ends up there, wherever it was
scrolled to in between. -/
theorem viewLocation_restore_first_visible (junk : ViewLocation) (atSave atRestore : Npp)
    (view centerLine : Int) (hview : view = MAIN_VIEW ∨ view = SUB_VIEW)
    (hcenter : centerLine < 0)
    (hmap : (atRestore.getView view).visibleFromDocLine =
      (atSave.getView view).visibleFromDocLine) :
    (((junk.save atSave view centerLine).1.restore atRestore).2.getView view).firstVisibleLine =
      (atSave.getView view).firstVisibleLine ∧
    (((junk.save atSave view centerLine).1.restore atRestore).2.getView view).sent =
      (atRestore.getView view).sent ++
        [.SCI_VISIBLEFROMDOCLINE ((atSave.getView view).docLineFromVisible
            (atSave.getView view).firstVisibleLine),
          .SCI_SETFIRSTVISIBLELINE (atSave.getView view).firstVisibleLine] ∧
    ((junk.save atSave view centerLine).1.restore atRestore).1 = true := by
  have hv0 : 0 ≤ view := by
    rcases hview with h | h <;> rw [h] <;> decide
  have hvalid : ¬ (view ≠ MAIN_VIEW ∧ view ≠ SUB_VIEW) := by
    rcases hview with h | h <;> simp [h]
  have hsave : (junk.save atSave view centerLine).1 =
      { _view := view, _centerLine := centerLine,
        _firstLine := (atSave.getView view).docLineFromVisible
          (atSave.getView view).firstVisibleLine,
        _visibleLineOffset := (atSave.getView view).visibleFromDocLine
            ((atSave.getView view).docLineFromVisible (atSave.getView view).firstVisibleLine) -
          (atSave.getView view).firstVisibleLine } := by
    unfold ViewLocation.save
    rw [if_neg hvalid]
    simp only [hcenter, if_true, onView_fst, onView_snd, getView_setView]
    rfl
  rw [hsave]
  unfold ViewLocation.restore
  simp only [if_neg (not_lt.mpr hv0), hcenter, if_true, onView_fst, onView_snd,
    getView_setView, CallScintilla_fst]
  have hd : (atRestore.getView view).reply (.SCI_VISIBLEFROMDOCLINE
      ((atSave.getView view).docLineFromVisible (atSave.getView view).firstVisibleLine)) =
      (atSave.getView view).visibleFromDocLine
        ((atSave.getView view).docLineFromVisible (atSave.getView view).firstVisibleLine) := by
    show (atRestore.getView view).visibleFromDocLine _ = _
    rw [hmap]
  rw [hd]
  have harith : ∀ a b : Int, a - (a - b) = b := fun a b => by omega
  rw [harith]
  refine ⟨rfl, ?_, trivial⟩
  simp [CallScintilla]

/-- Witness of C9: the main view of the sample host, saved at display line 1, is scrolled to
display line 4 and restored. -/
theorem viewLocation_restore_first_visible_witness :
    ((((ViewLocation.new 0 0 0).save sampleNpp MAIN_VIEW (-1)).1.restore
      { sampleNpp with main := { sampleView with firstVisibleLine := 4 } }).2.getView
        MAIN_VIEW).firstVisibleLine = 1 :=
  (viewLocation_restore_first_visible (ViewLocation.new 0 0 0) sampleNpp
    { sampleNpp with main := { sampleView with firstVisibleLine := 4 } } MAIN_VIEW (-1)
    (Or.inl rfl) (by decide) rfl).1

/-- C10: `restore()` of a default-constructed `ViewLocation` returns false and leaves the host
as it was (no view receives a message); `restore()` of a `ViewLocation` last saved with view
number `view` returns false and leaves the host as it was exactly when `view` is neither
`MAIN_VIEW` nor `SUB_VIEW`, and returns true in every other case. -/
theorem viewLocation_restore_false_iff (h : Npp) :
    (∀ c f o : Int, (ViewLocation.new c f o).restore h = (false, h)) ∧
    (∀ (loc : ViewLocation) (atSave : Npp) (view centerLine : Int),
      ((((loc.save atSave view centerLine).1.restore h).1 = false ∧
          ((loc.save atSave view centerLine).1.restore h).2 = h) ↔
        (view ≠ MAIN_VIEW ∧ view ≠ SUB_VIEW)) ∧
      ((loc.save atSave view centerLine).1.restore h).1 =
        decide (view = MAIN_VIEW ∨ view = SUB_VIEW)) := by
  refine ⟨fun c f o => rfl, fun loc atSave view centerLine => ?_⟩
  have htrue : ∀ l : ViewLocation, 0 ≤ l._view → (l.restore h).1 = true := by
    intro l hl
    unfold ViewLocation.restore
    rw [if_neg (not_lt.mpr hl)]
    split
    · rfl
    · simp only []
      split <;> rfl
  by_cases hvalid : view ≠ MAIN_VIEW ∧ view ≠ SUB_VIEW
  · have hsave : (loc.save atSave view centerLine).1 = { loc with _view := -1 } := by
      unfold ViewLocation.save
      rw [if_pos hvalid]
    have hres : (loc.save atSave view centerLine).1.restore h = (false, h) := by
      rw [hsave]; rfl
    rw [hres]
    refine ⟨⟨fun _ => hvalid, fun _ => ⟨rfl, rfl⟩⟩, ?_⟩
    have : ¬ (view = MAIN_VIEW ∨ view = SUB_VIEW) := by tauto
    simp [this]
  · have hor : view = MAIN_VIEW ∨ view = SUB_VIEW := by
      by_cases h1 : view = MAIN_VIEW
      · exact Or.inl h1
      · by_cases h2 : view = SUB_VIEW
        · exact Or.inr h2
        · exact absurd ⟨h1, h2⟩ hvalid
    have hv0 : 0 ≤ view := by
      rcases hor with h | h <;> rw [h] <;> decide
    have hsv : (loc.save atSave view centerLine).1._view = view := by
      unfold ViewLocation.save
      rw [if_neg hvalid]
      simp only []
      split <;> rfl
    have ht := htrue (loc.save atSave view centerLine).1 (by rw [hsv]; exact hv0)
    rw [ht]
    refine ⟨⟨fun hh => absurd hh.1 (by simp), fun hh => absurd hh hvalid⟩, ?_⟩
    simp [hor]

/-- C11: with no handle cached, `NppToolbarHandleGetter::get` returns the handle of the
first child window whose class name is the toolbar class name, or `NULL` (0) when there is
none, caches what it returns and enumerates the child windows once; with a handle other
than `NULL` cached, a call on any host returns that handle, keeps it cached and does not
enumerate the child windows. -/
theorem toolbar_get_first_and_cached (host : NppWindows) :
    (NppToolbarHandleGetter.get host 0).1 =
      ((host.children.find? (fun w => decide (w.className = TOOLBARCLASSNAME))).map
        Window.hwnd).getD 0 ∧
    (NppToolbarHandleGetter.get host 0).2.1 = (NppToolbarHandleGetter.get host 0).1 ∧
    (NppToolbarHandleGetter.get host 0).2.2.enumerations = host.enumerations + 1 ∧
    (NppToolbarHandleGetter.get host 0).2.2.children = host.children ∧
    (∀ (later : NppWindows) (h : Nat), h ≠ 0 →
      NppToolbarHandleGetter.get later h = (h, h, later)) := by
  refine ⟨?_, rfl, rfl, rfl, fun later h hh => ?_⟩
  · exact enumWindowsWalk_enumWindowsCB host.children 0
  · unfold NppToolbarHandleGetter.get
    rw [if_neg hh]

/-- C12, as the code has it: for `0 ≤ startLine ≤ endLine < lineCount`, after
`hideOutsideRange` every line of a range of at least two lines is shown, and when
`endLine > 0` every line outside the range other than line 0 is hidden; a one-line
range keeps the visibility its line had, and with `endLine = 0` nothing changes. -/
theorem hideOutsideRange_range (v : SciView) (startLine endLine : Int)
    (hs : 0 ≤ startLine) (hse : startLine ≤ endLine) (he : endLine < v.lineCount) :
    (startLine < endLine → ∀ l, startLine ≤ l → l ≤ endLine →
      (hideOutsideRange v startLine endLine).hidden l = false) ∧
    (0 < endLine → ∀ l, 1 ≤ l → l < v.lineCount → (l < startLine ∨ endLine < l) →
      (hideOutsideRange v startLine endLine).hidden l = true) ∧
    (startLine = endLine →
      (hideOutsideRange v startLine endLine).hidden startLine = v.hidden startLine) ∧
    (endLine = 0 → ∀ l, (hideOutsideRange v startLine endLine).hidden l = v.hidden l) := by
  refine ⟨fun h l h1 h2 => ?_, fun h l h1 h2 h3 => ?_, fun h => ?_, fun h l => ?_⟩
  · rw [hideOutsideRange_hidden, if_pos]
    exact ⟨⟨hs, h, he⟩, h1, h2⟩
  · rw [hideOutsideRange_hidden, if_neg (by omega)]
    rcases h3 with h3 | h3
    · by_cases c : (endLine > 0 ∧ endLine + 1 < v.lineCount) ∧ endLine + 1 ≤ l ∧
          l ≤ v.lineCount - 1 ∧ 1 ≤ l ∧ l < v.lineCount
      · rw [if_pos c]
      · rw [if_neg c, if_pos]
        omega
    · rw [if_pos]
      omega
  · rw [hideOutsideRange_hidden, if_neg (by omega), if_neg (by omega), if_neg (by omega)]
  · rw [hideOutsideRange_hidden, if_neg (by omega), if_neg (by omega), if_neg (by omega)]

/-- Witness for C12: the sample view with the range of lines 1 to 2. -/
theorem hideOutsideRange_range_witness :
    (∀ l, (1 : Int) ≤ l → l ≤ 2 → (hideOutsideRange sampleView 1 2).hidden l = false) ∧
    (∀ l, (1 : Int) ≤ l → l < sampleView.lineCount → (l < 1 ∨ 2 < l) →
      (hideOutsideRange sampleView 1 2).hidden l = true) :=
  ⟨(hideOutsideRange_range sampleView 1 2 (by decide) (by decide) (by decide)).1 (by decide),
   (hideOutsideRange_range sampleView 1 2 (by decide) (by decide) (by decide)).2.1
     (by decide)⟩

/-- Counterexample to C12 as stated: in the five-line sample view, whose line 3 is
hidden, the one-line range 3..3 leaves line 3 hidden, and the range 0..0 leaves line 1
shown. -/
theorem hideOutsideRange_single_line :
    sampleView.lineCount = 5 ∧ sampleView.hidden 3 = true ∧
    (hideOutsideRange sampleView 3 3).hidden 3 = true ∧
    (hideOutsideRange sampleView 0 0).hidden 1 = false := by
  decide

/-- C13: `hideUnmarked` returns; the hide requests it sends cover only lines from 1 on
that carry no marker of `markMask`, every such line is covered by one of them, and the
lines hidden afterwards are those hidden before together with exactly these lines. -/
theorem hideUnmarked_hides_unmarked (v : SciView) (markMask : Nat) :
    ∃ v' msgs, hideUnmarked v markMask = some v' ∧ v'.lines = v.lines ∧
      v'.sent = v.sent ++ msgs ∧
      (∀ p ∈ hideRequests msgs, 1 ≤ p.1 ∧ p.2 < v.lineCount ∧
        ∀ l, p.1 ≤ l → l ≤ p.2 → (markersAt v.lines l &&& markMask) = 0) ∧
      (∀ l, 1 ≤ l → l < v.lineCount → (markersAt v.lines l &&& markMask) = 0 →
        ∃ p ∈ hideRequests msgs, p.1 ≤ l ∧ l ≤ p.2) ∧
      (∀ l, v'.hidden l =
        (v.hidden l ||
          decide (1 ≤ l ∧ l < v.lineCount ∧ (markersAt v.lines l &&& markMask) = 0))) :=
  hideUnmarked_spec v markMask

/-- C15: `setStyles` returns; the settings it leaves have the editor default background
colour `bg` as default colour and a blank colour whose red, green and blue channels are the
channels of `bg` lowered by 20 and not below 0 (the subtraction of natural numbers stops at
0); the blank colour is below 2^24 and none of its channels exceeds that of `bg`. -/
theorem setStyles_blank_color (st : Statics) (h : Npp) (settings : ColorSettings) :
    ∃ r, setStyles st h settings = some r ∧
      r.1._default = h.editorDefaultBackground ∧
      r.1.blank % 256 = h.editorDefaultBackground % 256 - 20 ∧
      r.1.blank / 256 % 256 = h.editorDefaultBackground / 256 % 256 - 20 ∧
      r.1.blank / 65536 % 256 = h.editorDefaultBackground / 65536 % 256 - 20 ∧
      r.1.blank < 2 ^ 24 ∧
      r.1.blank % 256 ≤ h.editorDefaultBackground % 256 ∧
      r.1.blank / 256 % 256 ≤ h.editorDefaultBackground / 256 % 256 ∧
      r.1.blank / 65536 % 256 ≤ h.editorDefaultBackground / 65536 % 256 := by
  obtain ⟨st', h', hs⟩ := setStyles_settings st h settings
  obtain ⟨c1, c2, c3, c4⟩ := blankColorOf_channels h.editorDefaultBackground
  refine ⟨_, hs, rfl, c1, c2, c3, c4, ?_, ?_, ?_⟩
  · show blankColorOf h.editorDefaultBackground % 256 ≤ _
    omega
  · show blankColorOf h.editorDefaultBackground / 256 % 256 ≤ _
    omega
  · show blankColorOf h.editorDefaultBackground / 65536 % 256 ≤ _
    omega

/-- C16: `addBlankSection` leaves the view alone (no message is sent) when `length ≤ 0` and
when a text is given with `textLinePos > length`.  With `length > 0` and no text, or
`textLinePos ≤ 0`, it asks for the previous unhidden line, and sends that line the
annotation text of `length - 1` newlines (byte 10) and the terminating NUL.  With a text
and `0 < textLinePos ≤ length` the insertion index is inside the buffer, so a view is
returned, and the annotation text sent is `textLinePos - 1` newlines, the C string of the
text, `length - textLinePos` newlines and the NUL.  When the previous unhidden line is a
line of the document, its annotation is afterwards that text without the NUL. -/
theorem addBlankSection_annotation_text (v : SciView) (line length textLinePos : Int)
    (text : Option (List Nat)) :
    (length ≤ 0 → addBlankSection v line length textLinePos text = some v) ∧
    (∀ t, text = some t → length < textLinePos →
      addBlankSection v line length textLinePos text = some v) ∧
    (0 < length → (text = none ∨ textLinePos ≤ 0) →
      ∃ v', addBlankSection v line length textLinePos text = some v' ∧
        v'.sent = v.sent ++ [.SCI_VISIBLEFROMDOCLINE line,
          .SCI_DOCLINEFROMVISIBLE (v.visibleFromDocLine line - 1),
          .SCI_ANNOTATIONSETTEXT (v.docLineFromVisible (v.visibleFromDocLine line - 1))
            (some (List.replicate (length - 1).toNat 10 ++ [0]))] ∧
        (0 ≤ v.docLineFromVisible (v.visibleFromDocLine line - 1) →
          v.docLineFromVisible (v.visibleFromDocLine line - 1) < v.lineCount →
          SciView.annotation v' (v.docLineFromVisible (v.visibleFromDocLine line - 1)) =
            some (List.replicate (length - 1).toNat 10))) ∧
    (∀ t, text = some t → 0 < textLinePos → textLinePos ≤ length →
      (textLinePos - 1).toNat ≤ (List.replicate (length - 1).toNat 10).length ∧
      ∃ v', addBlankSection v line length textLinePos text = some v' ∧
        v'.sent = v.sent ++ [.SCI_VISIBLEFROMDOCLINE line,
          .SCI_DOCLINEFROMVISIBLE (v.visibleFromDocLine line - 1),
          .SCI_ANNOTATIONSETTEXT (v.docLineFromVisible (v.visibleFromDocLine line - 1))
            (some (List.replicate (textLinePos - 1).toNat 10 ++ cString t ++
              List.replicate (length - textLinePos).toNat 10 ++ [0]))] ∧
        (0 ≤ v.docLineFromVisible (v.visibleFromDocLine line - 1) →
          v.docLineFromVisible (v.visibleFromDocLine line - 1) < v.lineCount →
          SciView.annotation v' (v.docLineFromVisible (v.visibleFromDocLine line - 1)) =
            some (List.replicate (textLinePos - 1).toNat 10 ++ cString t ++
              List.replicate (length - textLinePos).toNat 10))) := by
  refine ⟨fun h => ?_, fun t ht h => ?_, fun h h2 => ?_, fun t ht h1 h2 => ?_⟩
  · unfold addBlankSection
    rw [if_pos h]
  · subst ht
    unfold addBlankSection
    by_cases hl : length ≤ 0
    · rw [if_pos hl]
    · have hp : textLinePos > 0 := by omega
      simp only [if_neg hl, if_pos hp, if_pos h]
  · have hl : ¬ length ≤ 0 := by omega
    have hb := replicate_newline_ne_nul (length - 1).toNat
    obtain ⟨s1, s2⟩ := annotate_spec v line _ hb
    rcases h2 with h2 | h2
    · subst h2
      refine ⟨_, ?_, s1, s2⟩
      unfold addBlankSection
      simp only [if_neg hl]
    · cases text with
      | none =>
        refine ⟨_, ?_, s1, s2⟩
        unfold addBlankSection
        simp only [if_neg hl]
      | some t =>
        have hp : ¬ textLinePos > 0 := by omega
        refine ⟨_, ?_, s1, s2⟩
        unfold addBlankSection
        simp only [if_neg hl, if_neg hp]
  · subst ht
    have hl : ¬ length ≤ 0 := by omega
    have hp : textLinePos > 0 := h1
    have hlt : ¬ length < textLinePos := by omega
    have hidx : (textLinePos - 1).toNat ≤ (List.replicate (length - 1).toNat 10).length := by
      rw [List.length_replicate]
      omega
    have htake : (List.replicate (length - 1).toNat 10).take (textLinePos - 1).toNat =
        List.replicate (textLinePos - 1).toNat 10 := by
      rw [List.take_replicate]
      congr 1
      omega
    have hdrop : (List.replicate (length - 1).toNat 10).drop (textLinePos - 1).toNat =
        List.replicate (length - textLinePos).toNat 10 := by
      rw [List.drop_replicate]
      congr 1
      omega
    have hb : ∀ c ∈ List.replicate (textLinePos - 1).toNat 10 ++ cString t ++
        List.replicate (length - textLinePos).toNat 10, c ≠ 0 := by
      intro c hc
      rw [List.mem_append, List.mem_append] at hc
      rcases hc with (hc | hc) | hc
      · exact replicate_newline_ne_nul _ c hc
      · exact cString_ne_nul t c hc
      · exact replicate_newline_ne_nul _ c hc
    obtain ⟨s1, s2⟩ := annotate_spec v line _ hb
    refine ⟨hidx, _, ?_, s1, s2⟩
    unfold addBlankSection
    simp only [if_neg hl, if_pos hp, if_neg hlt, if_pos hidx, htake, hdrop]

/-- C17: take a view that is not in compare mode and any sequence `calls` of
`setCompareView` / `setNormalView` calls on it.  Every call returns; while the view is in
compare mode afterwards, the stored `endAtLastLine[view]` is the setting the view had at the
start, and otherwise the view has that setting; so a `setNormalView` after the sequence
leaves the view out of compare mode with the end-at-last-line setting it had at the start,
however many `setCompareView` calls came in between.  The `setNormalView` on the view that
is not in compare mode returns the state it was given: it sends nothing. -/
theorem setNormalView_restores_endAtLastLine (st : Statics) (h : Npp) (view : Int)
    (calls : List ViewCall) (hv : validIndex view) (hc : st.compareMode view = false) :
    (∃ r, runViewCalls view calls st h = some r ∧
      (if r.1.compareMode view then r.1.endAtLastLine view = (h.getView view).endAtLastLine
        else (r.2.getView view).endAtLastLine = (h.getView view).endAtLastLine)) ∧
    (∃ r, runViewCalls view (calls ++ [.normal]) st h = some r ∧
      r.1.compareMode view = false ∧
      (r.2.getView view).endAtLastLine = (h.getView view).endAtLastLine) ∧
    setNormalView st h view = some (st, h) := by
  have hj : (if st.compareMode view then
      st.endAtLastLine view = (h.getView view).endAtLastLine
      else (h.getView view).endAtLastLine = (h.getView view).endAtLastLine) := by
    rw [hc]
    exact rfl
  obtain ⟨r0, h0, j0⟩ := runViewCalls_invariant view hv calls st h _ hj
  refine ⟨⟨r0, h0, j0⟩, ?_, setNormalView_not_compare st h view hv hc⟩
  rw [runViewCalls_append, h0]
  show ∃ r, runViewCalls view [.normal] r0.1 r0.2 = some r ∧ _
  simp only [runViewCalls]
  cases hc0 : r0.1.compareMode view with
  | false =>
    rw [hc0] at j0
    rw [setNormalView_not_compare r0.1 r0.2 view hv hc0]
    exact ⟨_, rfl, hc0, j0⟩
  | true =>
    rw [hc0] at j0
    obtain ⟨r, h1, h2, _, h4⟩ := setNormalView_compare r0.1 r0.2 view hv hc0
    rw [h1]
    exact ⟨_, rfl, h2, h4.trans j0⟩

/-- Witness for C17: the main view of the sample host, entering compare mode, a repeated
`setCompareView`, and `setNormalView`. -/
theorem setNormalView_restores_endAtLastLine_witness :
    validIndex MAIN_VIEW ∧ Statics.initial.compareMode MAIN_VIEW = false ∧
    (∃ r, runViewCalls MAIN_VIEW ([.compare 0 50, .compare 1 20] ++ [.normal])
        Statics.initial sampleNpp = some r ∧
      r.1.compareMode MAIN_VIEW = false ∧
      (r.2.getView MAIN_VIEW).endAtLastLine = (sampleNpp.getView MAIN_VIEW).endAtLastLine) :=
  ⟨Or.inl rfl, rfl,
    (setNormalView_restores_endAtLastLine Statics.initial sampleNpp MAIN_VIEW
      [.compare 0 50, .compare 1 20] (Or.inl rfl) rfl).2.1⟩

/-- C18: with one marker set per line, `clearMarks(view, line)` leaves the line with no bit of
`MARKER_MASK_ALL | MARKER_MASK_BLANK` set, leaves every other marker bit of that line (the arrow
marker, markers of others) as it was, and leaves the markers of every other line and the number
of lines as they were. -/
theorem clearMarks_frame (v : SciView) (line : Int) :
    (markersAt (clearMarks v line).lines line &&& (MARKER_MASK_ALL ||| MARKER_MASK_BLANK)) = 0 ∧
    (∀ i : Nat, (MARKER_MASK_ALL ||| MARKER_MASK_BLANK).testBit i = false →
      (markersAt (clearMarks v line).lines line).testBit i =
        (markersAt v.lines line).testBit i) ∧
    (∀ j : Int, j ≠ line → markersAt (clearMarks v line).lines j = markersAt v.lines j) ∧
    (clearMarks v line).lineCount = v.lineCount := by
  refine ⟨?_, fun i hi => ?_, fun j hj => ?_, ?_⟩
  · rw [clearMarks_markersAt, if_pos rfl, mask_all_blank]
    exact masked_clear _
  · rw [testBit_mask_all_blank] at hi
    have h15 : 15 ≤ i := by
      by_contra hc
      have : decide (i < 15) = true := decide_eq_true (by omega)
      rw [this] at hi
      exact Bool.noConfusion hi
    rw [clearMarks_markersAt, if_pos rfl, clearMarks_fold_testBit]
    simp [h15]
  · rw [clearMarks_markersAt, if_neg hj]
  · unfold SciView.lineCount
    rw [clearMarks_length]

/-- C19, the code at the failing input: on the view whose line 0 carries `MARKER_CHANGED_LINE`
and `MARKER_BLANK` and whose line 1 carries `MARKER_BLANK`, `clearWindow` removes
`MARKER_CHANGED_LINE` but leaves `MARKER_BLANK` on both lines: `clearWindow` has no
`SCI_MARKERDELETEALL` call for `MARKER_BLANK`, which `clearMarks` does delete. -/
theorem clearWindow_keeps_blank :
    (clearWindow blankMarkedView).lines.map DocLine.markers =
      [MARKER_MASK_BLANK, MARKER_MASK_BLANK] ∧
    (markersAt (clearWindow blankMarkedView).lines 1 &&& MARKER_MASK_BLANK) ≠ 0 := by
  decide

/-- C20, as the code has it: `blinkLine(view, line)` returns, after exactly three rounds of
its loop (each sends 16 messages when the line carries a marker of `MARKER_MASK_ALL`, 2
otherwise).  The line count, the markers of all other lines and, on the line, the copies of
every marker other than `MARKER_BLANK` are as before.  When the line carries no marker of
`MARKER_MASK_ALL` its copies of `MARKER_BLANK` are as before too; otherwise each round
removes one copy of `MARKER_BLANK` and none is added back.  So the marker set of the line is
the one it had before the call, unless the line carried a marker of `MARKER_MASK_ALL`
together with one to three copies of `MARKER_BLANK`: then it is that set without
`MARKER_BLANK`. -/
theorem blinkLine_copies (v : CopiesView) (line : Int) :
    ∃ v', v.blinkLine line = some v' ∧
      v'.lineCount = v.lineCount ∧
      v'.sent.length = v.sent.length + 1 +
        3 * (if ((v.reply (.SCI_MARKERGET line)).toNat &&& MARKER_MASK_ALL) ≠ 0
          then 16 else 2) ∧
      (∀ l n, ¬ (l = line ∧ n = MARKER_BLANK) → v'.copies l n = v.copies l n) ∧
      (((v.reply (.SCI_MARKERGET line)).toNat &&& MARKER_MASK_ALL) = 0 →
        v'.copies line MARKER_BLANK = v.copies line MARKER_BLANK) ∧
      (((v.reply (.SCI_MARKERGET line)).toNat &&& MARKER_MASK_ALL) ≠ 0 →
        v'.copies line MARKER_BLANK = v.copies line MARKER_BLANK - 3) ∧
      (∀ l, l ≠ line → v'.reply (.SCI_MARKERGET l) = v.reply (.SCI_MARKERGET l)) ∧
      ((((v.reply (.SCI_MARKERGET line)).toNat &&& MARKER_MASK_ALL) = 0 ∨
          v.copies line MARKER_BLANK = 0 ∨ 3 < v.copies line MARKER_BLANK) →
        v'.reply (.SCI_MARKERGET line) = v.reply (.SCI_MARKERGET line)) ∧
      (((v.reply (.SCI_MARKERGET line)).toNat &&& MARKER_MASK_ALL) ≠ 0 →
        0 < v.copies line MARKER_BLANK → v.copies line MARKER_BLANK ≤ 3 →
        (v'.reply (.SCI_MARKERGET line)).toNat =
          clearBit (v.reply (.SCI_MARKERGET line)).toNat MARKER_BLANK) := by
  have hB : MARKER_BLANK = 4 := rfl
  obtain ⟨v', e, t1, t2, t3⟩ := copies_blinkLine v line
  refine ⟨v', e, t1, t2, fun l n hn => ?_, fun hz => ?_, fun hmk => ?_, fun l hl => ?_,
    fun hcase => ?_, fun hmk h0 h3 => ?_⟩
  · rw [t3, if_neg]
    rw [hB] at hn
    exact fun h => hn h.2
  · rw [t3, if_neg]
    exact fun h => h.1 hz
  · rw [t3, if_pos ⟨hmk, rfl, hB⟩]
  · have hc : v'.copies l = v.copies l := by
      funext n
      rw [t3, if_neg]
      exact fun h => hl h.2.1
    rw [copies_reply_get, copies_reply_get, t1, hc]
  · rw [copies_reply_get, copies_reply_get, t1]
    have hc : markerBits (v'.copies line) = markerBits (v.copies line) := by
      apply markerBits_congr
      intro n _
      rw [t3]
      by_cases h : ((v.reply (.SCI_MARKERGET line)).toNat &&& MARKER_MASK_ALL) ≠ 0 ∧
          line = line ∧ n = 4
      · rw [if_pos h]
        obtain ⟨hmk, _, h4⟩ := h
        subst h4
        rw [hB] at hcase
        rcases hcase with hz | hz | hz
        · exact absurd hz hmk
        · rw [hz]
        · constructor <;> intro _ <;> omega
      · rw [if_neg h]
    rw [hc]
  · obtain ⟨hv, hr, _⟩ := copies_saved_marker v line hmk
    rw [hr, copies_reply_get, t1, if_pos hv]
    rw [hB] at h0 h3
    have hd : markerBits (v'.copies line) = clearBit (markerBits (v.copies line))
        MARKER_BLANK := by
      apply markerBits_clear_blank
      · rw [t3, if_pos ⟨hmk, rfl, rfl⟩]
        omega
      · intro n hn
        rw [t3, if_neg]
        exact fun h => hn h.2.2
    rw [← hd]
    exact Int.toNat_ofNat _

set_option maxRecDepth 100000 in
/-- Counterexample to C20 as stated: line 0 of the view carries one copy of
`MARKER_CHANGED_LINE` and one of `MARKER_BLANK` (marker set 17); after `blinkLine` it carries
`MARKER_CHANGED_LINE` alone (marker set 1). -/
theorem blinkLine_loses_blank :
    blankCopiesView.reply (.SCI_MARKERGET 0) = 17 ∧
    (blankCopiesView.blinkLine 0).map (fun v => v.reply (.SCI_MARKERGET 0)) = some 1 := by
  decide

/-- C21, as the code has it: `otherViewMatchingLine(view, line, adjustment, true)` returns, at
a depth of two calls whatever more is allowed (the call it makes of itself has `check` off,
and a call with `check` off returns at depth one).  When the line `otherLine` the other view
gives for the display line is below the line count of the other view and the result `r` is
not -1, `otherViewMatchingLine(otherView, r, -adjustment)` on the host after the call returns
the original line.  When `otherLine` is not below that line count, the result is the last
line of the other view, returned without the check. -/
theorem otherViewMatchingLine_round_trip (h : Npp) (view line adjustment : Int) :
    (∀ (g : Npp) (v l a : Int),
      ∃ res, otherViewMatchingLineFuel 1 g v l a false = some res) ∧
    ∃ r h1, otherViewMatchingLine h view line adjustment true = some (r, h1) ∧
      (∀ fuel, otherViewMatchingLineFuel (fuel + 2) h view line adjustment true =
        some (r, h1)) ∧
      (r ≠ -1 →
        (h.getView (getOtherViewId view)).docLineFromVisible
            ((h.getView view).visibleFromDocLine line + adjustment) <
          (h.getView (getOtherViewId view)).lineCount →
        ∃ h2, otherViewMatchingLine h1 (getOtherViewId view) r (-adjustment) false =
          some (line, h2)) ∧
      ((h.getView (getOtherViewId view)).lineCount ≤
          (h.getView (getOtherViewId view)).docLineFromVisible
            ((h.getView view).visibleFromDocLine line + adjustment) →
        r = (h.getView (getOtherViewId view)).lineCount - 1) := by
  refine ⟨fun g v l a => ?_, ?_⟩
  · obtain ⟨h', e, _⟩ := otherViewMatchingLineFuel_unchecked 0 g v l a
    exact ⟨_, e⟩
  · obtain ⟨h1, e, f⟩ := otherViewMatchingLineFuel_checked 0 h view line adjustment
    refine ⟨_, h1, e, fun fuel => ?_, fun hr hlt => ?_, fun hge => ?_⟩
    · rw [otherViewMatchingLineFuel_checked_fuel]
      exact e
    · rw [if_pos hlt] at hr ⊢
      obtain ⟨h2, e2, _⟩ := otherViewMatchingLineFuel_unchecked 1 h1 (getOtherViewId view)
        ((h.getView (getOtherViewId view)).docLineFromVisible
          ((h.getView view).visibleFromDocLine line + adjustment)) (-adjustment)
      rw [(f _).1, (f _).2.1, (f _).2.2] at e2
      obtain ⟨hback, hx⟩ := ite_ne_neg_one _ _ hr
      rw [hx]
      rw [not_not.mp hback] at e2
      exact ⟨h2, e2⟩
    · rw [if_neg (not_lt.mpr hge)]

set_option maxRecDepth 100000 in
/-- Counterexample to C21 as stated: the main view shows five lines, the second view two, no
line is hidden.  For line 4 of the main view and adjustment 0 the second view gives its line
count 2 for display line 4, so `otherViewMatchingLine(MAIN_VIEW, 4, 0, true)` returns the last
line 1 of the second view without the check, and `otherViewMatchingLine(SUB_VIEW, 1, 0)`
returns line 1 of the main view, not line 4. -/
theorem otherViewMatchingLine_clamped_no_round_trip :
    (unevenNpp.getView MAIN_VIEW).lineCount = 5 ∧
    (unevenNpp.getView SUB_VIEW).lineCount = 2 ∧
    (otherViewMatchingLine unevenNpp MAIN_VIEW 4 0 true).map Prod.fst = some 1 ∧
    ((otherViewMatchingLine unevenNpp MAIN_VIEW 4 0 true).bind (fun r =>
      otherViewMatchingLine r.2 (getOtherViewId MAIN_VIEW) r.1 (-0) false)).map Prod.fst =
      some 1 := by
  decide

set_option maxRecDepth 100000 in
/-- Witness for C21: line 1 of the two-line second view with adjustment 1 matches line 2 of the
five-line main view, and line 2 of the main view with adjustment -1 maps back to line 1. -/
theorem otherViewMatchingLine_round_trip_witness :
    (otherViewMatchingLine unevenNpp SUB_VIEW 1 1 true).map Prod.fst = some 2 ∧
    ∃ r h1, otherViewMatchingLine unevenNpp SUB_VIEW 1 1 true = some (r, h1) ∧
      ∃ h2, otherViewMatchingLine h1 (getOtherViewId SUB_VIEW) r (-1) false = some (1, h2) := by
  have hv : (otherViewMatchingLine unevenNpp SUB_VIEW 1 1 true).map Prod.fst = some 2 := by
    decide
  obtain ⟨_, r, h1, e, _, rt, _⟩ := otherViewMatchingLine_round_trip unevenNpp SUB_VIEW 1 1
  have hr : r = 2 := by
    rw [e] at hv
    exact Option.some.inj hv
  refine ⟨hv, r, h1, e, rt ?_ (by decide)⟩
  rw [hr]
  decide

end NppHelpers
